import Mathlib

/-!
Verification of the FBRef football-statistics scraping and persistence
pipeline (`src/scraper/fbref_scraper.py`, `src/database/repository.py`).

The Python code is shallowly embedded:

* Python strings are `String`; all string manipulation is re-implemented
  structurally on `List Char` (mirroring Python `str.strip`, `str.replace`,
  `str.lower`, pattern search) so that every definition is executable by the
  kernel.
* Python floats are modelled exactly as decimal values `m * 10 ^ e` with
  `m e : ℤ`, plus a NaN constructor.  Binary-rounding artefacts and the
  infinities are outside the modelled domain (`float("inf")` is treated as a
  parse failure; the source would propagate an `OverflowError` from
  `int(inf)` into the per-payload exception handler).
* Python scalar values (`None`, `bool`, `int`, `float`, `str`) are the
  inductive `PyVal`; a scraped payload dict is an association list
  `List (String × PyVal)` looked up exactly like `dict.get`.
* The SQLAlchemy session is a record holding the pending database state, the
  state the enclosing transactional scope started from (what
  `session.rollback()` restores), and a fault oracle listing which
  `flush`-ing `create` calls raise `IntegrityError` (such failures arise
  from constraint races with concurrent runs or other external causes; the
  sequential model itself never produces one, so they are injected).
  Timestamp columns (`created_at` / `updated_at`) and the scope-final
  `commit` failure mode are not modelled.
-/

/-! ## Python string primitives, re-implemented structurally -/

/-- Characters treated as whitespace by Python `str.strip` and the regex
class `\s` (ASCII whitespace plus the common Unicode space characters,
notably U+00A0 no-break space). -/
def pyIsSpace (c : Char) : Bool :=
  c = ' ' || c = '\t' || c = '\n' || c = '\r' || c = '\x0b' || c = '\x0c' ||
  c = '\x85' || c = '\xa0' || c = ' ' ||
  (' ' ≤ c && c ≤ ' ') || c = ' ' || c = ' ' ||
  c = ' ' || c = '　'

/-- `str.strip()` on a character list. -/
def stripL (l : List Char) : List Char :=
  ((l.dropWhile pyIsSpace).reverse.dropWhile pyIsSpace).reverse

/-- Python `str.strip()`. -/
def pyStrip (s : String) : String := ⟨stripL s.data⟩

/-- ASCII lower-casing of one character (Python `str.lower` restricted to
ASCII, which covers every string the pipeline compares case-insensitively). -/
def lowerChar (c : Char) : Char :=
  if 'A' ≤ c && c ≤ 'Z' then Char.ofNat (c.toNat + 32) else c

/-- Python `str.lower()` (ASCII). -/
def pyLower (s : String) : String := ⟨s.data.map lowerChar⟩

/-- Python `value.replace(",", "")`. -/
def remCommas (s : String) : String := ⟨s.data.filter (fun c => c ≠ ',')⟩

/-- Python `str.startswith`. -/
def pyStartsWith (s pat : String) : Bool := pat.data.isPrefixOf s.data

/-- Python `str.endswith`. -/
def pyEndsWith (s pat : String) : Bool := pat.data.isSuffixOf s.data

/-- Decimal digit character. -/
def decDigit (n : Nat) : Char :=
  match n with
  | 0 => '0' | 1 => '1' | 2 => '2' | 3 => '3' | 4 => '4'
  | 5 => '5' | 6 => '6' | 7 => '7' | 8 => '8' | _ => '9'

/-- Decimal digits of `n`, most significant first; fuel-recursive so the
kernel can evaluate it. -/
def natDigits : Nat → Nat → List Char
  | 0, _ => []
  | fuel + 1, n =>
    if n < 10 then [decDigit n]
    else natDigits fuel (n / 10) ++ [decDigit (n % 10)]

/-- Decimal representation of a natural number (Python `str(int)` /
f-string formatting for the non-negative numbers the pipeline prints). -/
def natRepr (n : Nat) : String := ⟨natDigits (n + 1) n⟩

/-- Numeric value of a list of decimal digit characters. -/
def digitsVal (ds : List Char) : ℤ :=
  ds.foldl (fun a c => a * 10 + ((c.toNat : ℤ) - 48)) 0

/-! ## Python scalar values -/

/-- A Python float, exactly: either NaN or the decimal value `m * 10 ^ e`. -/
inductive PyFloat where
  | nan : PyFloat
  | val (m : ℤ) (e : ℤ) : PyFloat
deriving DecidableEq

/-- Structural power of ten. -/
def tenPow : Nat → ℤ
  | 0 => 1
  | k + 1 => 10 * tenPow k

/-- Rational denotation of a modelled float. -/
def pyFloatDenote : PyFloat → Option ℚ
  | .nan => Option.none
  | .val m e =>
    some (if 0 ≤ e then (m : ℚ) * ((tenPow e.toNat : ℤ) : ℚ)
          else (m : ℚ) / ((tenPow (-e).toNat : ℤ) : ℚ))

/-- Python `int(float)`: truncation toward zero of `m * 10 ^ e`. -/
def decTrunc (m e : ℤ) : ℤ :=
  if 0 ≤ e then m * tenPow e.toNat else m.tdiv (tenPow (-e).toNat)

/-- A Python scalar value as it occurs in scraped payload dicts. -/
inductive PyVal where
  | none : PyVal
  | bool (b : Bool) : PyVal
  | int (n : ℤ) : PyVal
  | float (f : PyFloat) : PyVal
  | str (s : String) : PyVal
deriving DecidableEq

/-- Decimal rendering of an integer (Python `str(int)`). -/
def intRepr (n : ℤ) : String :=
  if n < 0 then "-" ++ natRepr (-n).toNat else natRepr n.toNat

/-- Best-effort Python `str()` of a float: NaN prints `nan`; an integral
value prints with a trailing `.0`; otherwise the exact decimal expansion is
printed.  (Only name-like payload fields are ever passed through `str`, and
those are strings or `None` in practice.) -/
def floatRepr (m e : ℤ) : String :=
  if 0 ≤ e then intRepr (m * tenPow e.toNat) ++ ".0"
  else
    let q := m.tdiv (tenPow (-e).toNat)
    let r := m - q * tenPow (-e).toNat
    intRepr q ++ "." ++ natRepr r.natAbs

/-- Python `str(value)` for the modelled scalars. -/
def pyStr : PyVal → String
  | .none => "None"
  | .bool b => if b then "True" else "False"
  | .int n => intRepr n
  | .float .nan => "nan"
  | .float (.val m e) => floatRepr m e
  | .str s => s

/-- Python truthiness of a modelled scalar. -/
def pyTruthy : PyVal → Bool
  | .none => false
  | .bool b => b
  | .int n => n ≠ 0
  | .float .nan => true
  | .float (.val m _) => m ≠ 0
  | .str s => s ≠ ""

/-- `DataService._normalise_string`: `""` for `None`, else `str(value).strip()`. -/
def normaliseString : PyVal → String
  | .none => ""
  | v => pyStrip (pyStr v)

/-- Python `s or None` on a normalised string (blank collapses to `None`). -/
def strOrNone (s : String) : Option String :=
  if s = "" then Option.none else some s

/-- Python `s or d` on strings (falsy empty string picks the default). -/
def strOrDefault (s d : String) : String := if s = "" then d else s

/-! ## Python `float(str)` -/

/-- Leading sign of a numeric literal; returns (is-negative, rest). -/
def parseSign : List Char → Bool × List Char
  | '+' :: rest => (false, rest)
  | '-' :: rest => (true, rest)
  | l => (false, l)

/-- Split a leading run of decimal digits. -/
def splitDigits (l : List Char) : List Char × List Char :=
  (l.takeWhile Char.isDigit, l.dropWhile Char.isDigit)

/-- Unsigned decimal literal `digits[.digits][(e|E)[±]digits]`, returned as
mantissa and power-of-ten exponent.  Fails unless the whole input is
consumed and at least one mantissa digit is present. -/
def parseDecimal (l : List Char) : Option (ℤ × ℤ) :=
  let ip := splitDigits l
  let fp :=
    match ip.2 with
    | '.' :: rest => splitDigits rest
    | _ => ([], ip.2)
  if ip.1 = [] ∧ fp.1 = [] then Option.none
  else
    let m := digitsVal (ip.1 ++ fp.1)
    match fp.2 with
    | [] => some (m, -(fp.1.length : ℤ))
    | c :: rest =>
      if c = 'e' ∨ c = 'E' then
        let sg := parseSign rest
        let ed := splitDigits sg.2
        if ed.1 = [] ∨ ed.2 ≠ [] then Option.none
        else
          some (m, (if sg.1 then -digitsVal ed.1 else digitsVal ed.1) -
                    (fp.1.length : ℤ))
      else Option.none

/-- Python `float(str)` on the modelled domain: optional sign, `nan`
(case-insensitive), or a decimal literal.  `inf`/`infinity` and underscore
separators are outside the modelled domain and parse as failures. -/
def pyFloatOfString (s : String) : Option PyFloat :=
  let l := stripL s.data
  let sg := parseSign l
  let low := sg.2.map lowerChar
  if low = "nan".data then some .nan
  else
    match parseDecimal sg.2 with
    | some (m, e) => some (.val (if sg.1 then -m else m) e)
    | Option.none => Option.none

/-! ## `DataService` numeric coercion (`repository.py` lines 253-320) -/

/-- `DataService._coerce_int`, case by case in the source's order:
`None` → default; `bool` → 0/1; `int` → itself; NaN float → default; float →
truncate; string → strip commas and whitespace, blank → default, parse as
float (unparsable or NaN → default), truncate. -/
def coerceInt (value : PyVal) (default : Option ℤ) : Option ℤ :=
  match value with
  | .none => default
  | .bool b => some (if b then 1 else 0)
  | .int n => some n
  | .float .nan => default
  | .float (.val m e) => some (decTrunc m e)
  | .str s =>
    let cleaned := pyStrip (remCommas s)
    if cleaned = "" then default
    else
      match pyFloatOfString cleaned with
      | Option.none => default
      | some .nan => default
      | some (.val m e) => some (decTrunc m e)

/-- `DataService._coerce_float`: same parsing path as `_coerce_int`, without
truncation; `bool` counts as numeric (`float(True) = 1.0`); NaN collapses to
the default. -/
def coerceFloat (value : PyVal) (default : PyFloat) : PyFloat :=
  match value with
  | .none => default
  | .bool b => .val (if b then 1 else 0) 0
  | .int n => .val n 0
  | .float .nan => default
  | .float f => f
  | .str s =>
    let cleaned := pyStrip (remCommas s)
    if cleaned = "" then default
    else
      match pyFloatOfString cleaned with
      | Option.none => default
      | some .nan => default
      | some f => f

/-- Python `v or 0` applied to `_coerce_int`'s optional result. -/
def orZeroInt (v : Option ℤ) : ℤ :=
  match v with
  | Option.none => 0
  | some n => if n = 0 then 0 else n

/-! ## `DataService._parse_season_bounds` (`repository.py` lines 309-320) -/

/-- Exactly four decimal digits at the head of the input (`\d{4}`). -/
def takeYear4 (l : List Char) : Option (ℤ × List Char) :=
  match l with
  | a :: b :: c :: d :: rest =>
    if a.isDigit && b.isDigit && c.isDigit && d.isDigit then
      some (digitsVal [a, b, c, d], rest)
    else Option.none
  | _ => Option.none

/-- Match of `(\d{4})\s*[-–]\s*(\d{4})` anchored at the head. -/
def pairMatchAt (l : List Char) : Option (ℤ × ℤ) :=
  match takeYear4 l with
  | some (a, rest) =>
    match rest.dropWhile pyIsSpace with
    | c :: r2 =>
      if c = '-' ∨ c = '–' then
        match takeYear4 (r2.dropWhile pyIsSpace) with
        | some (b, _) => some (a, b)
        | Option.none => Option.none
      else Option.none
    | [] => Option.none
  | Option.none => Option.none

/-- `re.search` of the year-pair pattern: leftmost starting position wins. -/
def searchPairYears : List Char → Option (ℤ × ℤ)
  | [] => Option.none
  | c :: rest =>
    match pairMatchAt (c :: rest) with
    | some p => some p
    | Option.none => searchPairYears rest

/-- `re.search` of the single-year pattern `(\d{4})`. -/
def searchYear : List Char → Option ℤ
  | [] => Option.none
  | c :: rest =>
    match takeYear4 (c :: rest) with
    | some (y, _) => some y
    | Option.none => searchYear rest

/-- `DataService._parse_season_bounds`.  The source reads the current year
from the wall clock (`datetime.utcnow().year`); the model passes it in
explicitly. -/
def parseSeasonBounds (currentYear : ℤ) (seasonName : String) : ℤ × ℤ :=
  let cleaned := pyStrip seasonName
  match searchPairYears cleaned.data with
  | some p => p
  | Option.none =>
    match searchYear cleaned.data with
    | some y => (y, y + 1)
    | Option.none => (currentYear, currentYear + 1)

/-- Four consecutive decimal digits sit at the head of the list. -/
def fourDigitAt (t : List Char) : Bool :=
  (t.take 4).length == 4 && (t.take 4).all Char.isDigit

/-- Claim-side predicate: the text contains a run of four consecutive
decimal digits (a "four-digit year") somewhere. -/
def hasFourDigitRun (s : String) : Bool :=
  s.data.tails.any fourDigitAt

/-! ## Supporting lemmas for season-bound parsing -/

theorem takeYear4_eq_none (l : List Char) (h : fourDigitAt l = false) :
    takeYear4 l = Option.none := by
  match l with
  | [] => rfl
  | [a] => rfl
  | [a, b] => rfl
  | [a, b, c] => rfl
  | a :: b :: c :: d :: rest =>
    rw [takeYear4]
    cases ha : a.isDigit <;> cases hb : b.isDigit <;> cases hc : c.isDigit <;>
      cases hd : d.isDigit <;> simp_all [fourDigitAt]

theorem searchYear_eq_none (l : List Char) (h : l.tails.any fourDigitAt = false) :
    searchYear l = Option.none := by
  induction l with
  | nil => rfl
  | cons c rest ih =>
    rw [List.tails_cons, List.any_cons, Bool.or_eq_false_iff] at h
    rw [searchYear, takeYear4_eq_none _ h.1, ih h.2]

theorem pairMatchAt_eq_none (l : List Char) (h : takeYear4 l = Option.none) :
    pairMatchAt l = Option.none := by
  rw [pairMatchAt, h]

theorem searchPairYears_eq_none (l : List Char)
    (h : l.tails.any fourDigitAt = false) :
    searchPairYears l = Option.none := by
  induction l with
  | nil => rfl
  | cons c rest ih =>
    rw [List.tails_cons, List.any_cons, Bool.or_eq_false_iff] at h
    rw [searchPairYears, pairMatchAt_eq_none _ (takeYear4_eq_none _ h.1), ih h.2]

theorem dropWhile_eq_append (p : Char → Bool) (l : List Char) :
    ∃ u, l = u ++ l.dropWhile p := by
  induction l with
  | nil => exact ⟨[], rfl⟩
  | cons c rest ih =>
    by_cases h : p c
    · rcases ih with ⟨u, hu⟩
      refine ⟨c :: u, ?_⟩
      rw [List.dropWhile_cons, if_pos h, List.cons_append, ← hu]
    · exact ⟨[], by simp [List.dropWhile_cons, h]⟩

theorem stripL_infix (l : List Char) : ∃ u v, l = u ++ stripL l ++ v := by
  obtain ⟨u, hu⟩ := dropWhile_eq_append pyIsSpace l
  obtain ⟨w, hw⟩ := dropWhile_eq_append pyIsSpace (l.dropWhile pyIsSpace).reverse
  have hd : l.dropWhile pyIsSpace = stripL l ++ w.reverse := by
    have h2 := congrArg List.reverse hw
    rw [List.reverse_reverse, List.reverse_append] at h2
    exact h2
  exact ⟨u, w.reverse, by rw [List.append_assoc, ← hd, ← hu]⟩

theorem hasRun_of_stripL (l : List Char)
    (h : (stripL l).tails.any fourDigitAt = true) :
    l.tails.any fourDigitAt = true := by
  rw [List.any_eq_true] at h ⊢
  obtain ⟨t, ht, hf⟩ := h
  rw [List.mem_tails] at ht
  obtain ⟨u, v, huv⟩ := stripL_infix l
  obtain ⟨w, hw⟩ := ht
  refine ⟨t ++ v, ?_, ?_⟩
  · rw [List.mem_tails, huv, ← hw]
    exact ⟨u ++ w, by simp [List.append_assoc]⟩
  · have hlen : 4 ≤ t.length := by
      simp only [fourDigitAt, Bool.and_eq_true, beq_iff_eq, List.length_take] at hf
      omega
    simpa only [fourDigitAt, List.take_append_of_le_length hlen] using hf

/-! ## Claim theorems C5 and C6 -/

/-- C5: integer coercion maps `"1,234"`, `"1234.0"`, `None`, `float("nan")`
and `42` to `1234`, `1234`, the default, the default and `42`; float
coercion follows the same parsing path without truncation (values shown via
their exact rational denotation) and collapses NaN to its default. -/
theorem claim_c5_numeric_coercion (d : Option ℤ) (df : PyFloat) :
    coerceInt (.str "1,234") d = some 1234 ∧
    coerceInt (.str "1234.0") d = some 1234 ∧
    coerceInt .none d = d ∧
    coerceInt (.float .nan) d = d ∧
    coerceInt (.int 42) d = some 42 ∧
    pyFloatDenote (coerceFloat (.str "1,234") df) = some 1234 ∧
    pyFloatDenote (coerceFloat (.str "1234.0") df) = some 1234 ∧
    coerceFloat .none df = df ∧
    coerceFloat (.float .nan) df = df ∧
    coerceFloat (.int 42) df = .val 42 0 := by
  refine ⟨rfl, rfl, rfl, rfl, rfl, ?_, ?_, rfl, rfl, rfl⟩
  · show pyFloatDenote (.val 1234 0) = some 1234
    simp [pyFloatDenote, tenPow]
  · show pyFloatDenote (.val 12340 (-1)) = some 1234
    rw [pyFloatDenote]
    norm_num [tenPow]

/-- C6: season-bound parsing sends `"2024-2025"` to `(2024, 2025)`, `"2024"`
to `(2024, 2025)`, and the empty string or any text containing no four-digit
year to `(current_year, current_year + 1)`, trying the year-pair pattern,
the single-year pattern and the current-year fallback in that order. -/
theorem claim_c6_season_bounds (y : ℤ) :
    parseSeasonBounds y "2024-2025" = (2024, 2025) ∧
    parseSeasonBounds y "2024" = (2024, 2025) ∧
    parseSeasonBounds y "" = (y, y + 1) ∧
    ∀ s : String, hasFourDigitRun s = false →
      parseSeasonBounds y s = (y, y + 1) := by
  refine ⟨rfl, rfl, rfl, ?_⟩
  intro s hs
  have hstrip : (stripL s.data).tails.any fourDigitAt = false := by
    cases h : (stripL s.data).tails.any fourDigitAt
    · rfl
    · rw [hasFourDigitRun] at hs
      rw [hasRun_of_stripL s.data h] at hs
      exact Bool.noConfusion hs
  have hdata : (pyStrip s).data = stripL s.data := rfl
  simp only [parseSeasonBounds]
  rw [hdata, searchPairYears_eq_none _ hstrip, searchYear_eq_none _ hstrip]

/-- Witness for C6's fallback clause at the concrete input `"abc"`. -/
theorem claim_c6_season_bounds_witness :
    hasFourDigitRun "abc" = false ∧ parseSeasonBounds 2026 "abc" = (2026, 2027) :=
  ⟨by decide, (claim_c6_season_bounds 2026).2.2.2 "abc" (by decide)⟩

/-! ## `FBRefScraper._clean_column_names` (`fbref_scraper.py` lines 117-145) -/

/-- A header cell of a scraped table: a scalar label or a tuple of labels
from a multi-level header. -/
inductive HeaderCell where
  | scalar (s : String) : HeaderCell
  | tup (parts : List String) : HeaderCell
deriving DecidableEq

/-- The raw name taken from one header cell: for a tuple, drop falsy and
`Unnamed`-prefixed segments, strip the kept ones and keep the last; if
nothing is kept, strip the tuple's last segment.  (On the empty tuple the
source raises `IndexError`; the model totalises that case to `""`, which is
outside the claim's domain of tuple cells.)  For a scalar, its stripped
text. -/
def cellRawName : HeaderCell → String
  | .scalar s => pyStrip s
  | .tup parts =>
    let kept := (parts.filter
      (fun part => part ≠ "" && !(pyStartsWith part "Unnamed"))).map pyStrip
    match kept.getLast? with
    | some n => n
    | Option.none => pyStrip ((parts.getLast?).getD "")

/-- Lookup in the `seen` dict. -/
def lookupSeen (seen : List (String × Nat)) (k : String) : Option Nat :=
  (seen.find? (fun e => e.1 == k)).map (fun e => e.2)

/-- Assignment `seen[k] = v` on the dict modelled as an association list. -/
def assocSet : List (String × Nat) → String → Nat → List (String × Nat)
  | [], k, v => [(k, v)]
  | e :: rest, k, v =>
    if e.1 = k then (k, v) :: rest else e :: assocSet rest k v

/-- The loop of `_clean_column_names`: `idx` is the number of names already
produced (the source uses `len(cleaned_columns)` for synthesised names),
`seen` the collision-counter dict. -/
def cleanColumnsGo : List HeaderCell → Nat → List (String × Nat) → List String
  | [], _, _ => []
  | c :: rest, idx, seen =>
    let name0 := cellRawName c
    let name1 := if name0 = "" then "column_" ++ natRepr idx else name0
    match lookupSeen seen name1 with
    | some k =>
      (name1 ++ "_" ++ natRepr (k + 1)) ::
        cleanColumnsGo rest (idx + 1) (assocSet seen name1 (k + 1))
    | Option.none =>
      name1 :: cleanColumnsGo rest (idx + 1) (assocSet seen name1 0)

/-- `FBRefScraper._clean_column_names`. -/
def cleanColumnNames (cols : List HeaderCell) : List String :=
  cleanColumnsGo cols 0 []

/-- The effective base name of a cell at position `idx` (raw name, or the
synthesised positional name when the raw name is blank). -/
def effBase (c : HeaderCell) (idx : Nat) : String :=
  if cellRawName c = "" then "column_" ++ natRepr idx else cellRawName c

/-- Output name for the `cnt`-th occurrence of base name `b` (0-based):
the first occurrence keeps the bare name, later ones get `_cnt`. -/
def outName (b : String) (cnt : Nat) : String :=
  if cnt = 0 then b else b ++ "_" ++ natRepr cnt

/-- Closed form of the cleaning loop, annotated with each position's
effective base name; `hist` is the list of base names already processed. -/
def closedAnn : List HeaderCell → Nat → List String → List (String × String)
  | [], _, _ => []
  | c :: rest, idx, hist =>
    (effBase c idx, outName (effBase c idx) (hist.count (effBase c idx))) ::
      closedAnn rest (idx + 1) (hist ++ [effBase c idx])

/-! ### Decimal representation is injective -/

def decodeDigits (ds : List Char) : Nat :=
  ds.foldl (fun a c => a * 10 + (c.toNat - 48)) 0

theorem decDigit_toNat (n : Nat) (h : n < 10) : (decDigit n).toNat = 48 + n := by
  interval_cases n <;> rfl

theorem decodeDigits_append (l : List Char) (c : Char) :
    decodeDigits (l ++ [c]) = decodeDigits l * 10 + (c.toNat - 48) := by
  simp [decodeDigits, List.foldl_append]

theorem natDigits_decode : ∀ fuel n, n < fuel →
    decodeDigits (natDigits fuel n) = n := by
  intro fuel
  induction fuel with
  | zero => intro n h; omega
  | succ fuel ih =>
    intro n h
    rw [natDigits]
    by_cases h10 : n < 10
    · rw [if_pos h10]
      show 0 * 10 + ((decDigit n).toNat - 48) = n
      rw [decDigit_toNat n h10]; omega
    · rw [if_neg h10, decodeDigits_append,
        ih (n / 10) (by have := Nat.div_lt_self (by omega : 0 < n) (by omega : 1 < 10); omega),
        decDigit_toNat (n % 10) (Nat.mod_lt n (by omega))]
      omega

theorem natRepr_inj {m n : Nat} (h : natRepr m = natRepr n) : m = n := by
  have hd : natDigits (m + 1) m = natDigits (n + 1) n := congrArg String.data h
  have hm := natDigits_decode (m + 1) m (Nat.lt_succ_self m)
  have hn := natDigits_decode (n + 1) n (Nat.lt_succ_self n)
  rw [hd, hn] at hm
  exact hm.symm

theorem natDigits_ne_nil (fuel n : Nat) (h : n < fuel) :
    natDigits fuel n ≠ [] := by
  match fuel with
  | fuel + 1 =>
    rw [natDigits]
    by_cases h10 : n < 10
    · rw [if_pos h10]; exact List.cons_ne_nil _ _
    · rw [if_neg h10]; exact List.append_ne_nil_of_right_ne_nil _ (List.cons_ne_nil _ _)

theorem natRepr_length_pos (n : Nat) : 0 < (natRepr n).length := by
  have h := natDigits_ne_nil (n + 1) n (Nat.lt_succ_self n)
  have : (natRepr n).data = natDigits (n + 1) n := rfl
  rw [String.length, this]
  cases hd : natDigits (n + 1) n with
  | nil => exact absurd hd h
  | cons c cs => simp

theorem string_ne_of_data_ne {s t : String} (h : s.data ≠ t.data) : s ≠ t :=
  fun he => h (congrArg String.data he)

theorem outName_inj (b : String) {c c' : Nat} (h : outName b c = outName b c') :
    c = c' := by
  rw [outName, outName] at h
  by_cases hc : c = 0 <;> by_cases hc' : c' = 0
  · omega
  · rw [if_pos hc, if_neg hc'] at h
    have := congrArg String.length h
    rw [String.length_append, String.length_append] at this
    have h1 := natRepr_length_pos c'
    have h2 : ("_" : String).length = 1 := rfl
    omega
  · rw [if_neg hc, if_pos hc'] at h
    have := congrArg String.length h
    rw [String.length_append, String.length_append] at this
    have h1 := natRepr_length_pos c
    have h2 : ("_" : String).length = 1 := rfl
    omega
  · rw [if_neg hc, if_neg hc'] at h
    have hd := congrArg String.data h
    rw [String.data_append, String.data_append] at hd
    have h3 : natRepr c = natRepr c' :=
      congrArg String.mk (List.append_cancel_left hd)
    exact natRepr_inj h3

theorem lookupSeen_assocSet (seen : List (String × Nat)) (k : String) (v : Nat)
    (k' : String) :
    lookupSeen (assocSet seen k v) k' =
      if k' = k then some v else lookupSeen seen k' := by
  induction seen with
  | nil =>
    simp only [assocSet, lookupSeen, List.find?]
    by_cases h : k' = k
    · have hk : (k == k') = true := by simp [h]
      simp [hk, if_pos h]
    · have hk : (k == k') = false := by
        simp only [beq_eq_false_iff_ne]
        exact fun a => h a.symm
      simp [hk, if_neg h]
  | cons e rest ih =>
    simp only [assocSet]
    by_cases he : e.1 = k
    · rw [if_pos he]
      simp only [lookupSeen, List.find?]
      by_cases h : k' = k
      · have hk : (k == k') = true := by simp [h]
        simp [hk, if_pos h]
      · have hk : (k == k') = false := by
          simp only [beq_eq_false_iff_ne]
          exact fun a => h a.symm
        have hek : (e.1 == k') = false := by
          simp only [beq_eq_false_iff_ne]
          rw [he]
          exact fun a => h a.symm
        simp [hk, hek, if_neg h]
    · rw [if_neg he]
      simp only [lookupSeen, List.find?]
      by_cases h3 : e.1 = k'
      · have hkk : ¬ k' = k := fun hc => he (by rw [h3, hc])
        have hek : (e.1 == k') = true := by simp [h3]
        simp [hek, if_neg hkk]
      · have hek : (e.1 == k') = false := by
          simp only [beq_eq_false_iff_ne]
          exact h3
        have ih' := ih
        simp only [lookupSeen] at ih'
        simp [hek, ih']

theorem cleanColumnsGo_eq_closed : ∀ (cols : List HeaderCell) (idx : Nat)
    (seen : List (String × Nat)) (hist : List String),
    (∀ b, lookupSeen seen b =
        if hist.count b = 0 then Option.none else some (hist.count b - 1)) →
    cleanColumnsGo cols idx seen = (closedAnn cols idx hist).map Prod.snd := by
  intro cols
  induction cols with
  | nil => intro idx seen hist _; rfl
  | cons c rest ih =>
    intro idx seen hist hseen
    simp only [cleanColumnsGo, closedAnn, List.map_cons]
    have hb : (if cellRawName c = "" then "column_" ++ natRepr idx
        else cellRawName c) = effBase c idx := rfl
    rw [hb, hseen (effBase c idx)]
    by_cases h0 : hist.count (effBase c idx) = 0
    · rw [if_pos h0, h0]
      have hout : outName (effBase c idx) 0 = effBase c idx := rfl
      rw [hout]
      show effBase c idx ::
          cleanColumnsGo rest (idx + 1) (assocSet seen (effBase c idx) 0) =
        effBase c idx ::
          (closedAnn rest (idx + 1) (hist ++ [effBase c idx])).map Prod.snd
      congr 1
      apply ih
      intro b'
      rw [lookupSeen_assocSet]
      by_cases hb' : b' = effBase c idx
      · rw [if_pos hb', hb', List.count_append]
        have hc1 : List.count (effBase c idx) [effBase c idx] = 1 := by simp
        rw [hc1, h0]
        simp
      · rw [if_neg hb', hseen b']
        have hc0 : List.count b' [effBase c idx] = 0 :=
          List.count_eq_zero_of_not_mem (by simp [hb'])
        rw [List.count_append, hc0]
        simp
    · rw [if_neg h0]
      have hcnt : hist.count (effBase c idx) - 1 + 1 =
          hist.count (effBase c idx) := by
        omega
      show (effBase c idx ++ "_" ++
            natRepr (hist.count (effBase c idx) - 1 + 1)) ::
          cleanColumnsGo rest (idx + 1)
            (assocSet seen (effBase c idx)
              (hist.count (effBase c idx) - 1 + 1)) =
        outName (effBase c idx) (hist.count (effBase c idx)) ::
          (closedAnn rest (idx + 1) (hist ++ [effBase c idx])).map Prod.snd
      rw [hcnt]
      have hout : outName (effBase c idx) (hist.count (effBase c idx)) =
          effBase c idx ++ "_" ++ natRepr (hist.count (effBase c idx)) := by
        rw [outName, if_neg h0]
      rw [hout]
      congr 1
      apply ih
      intro b'
      rw [lookupSeen_assocSet]
      by_cases hb' : b' = effBase c idx
      · rw [if_pos hb', hb', List.count_append]
        have hc1 : List.count (effBase c idx) [effBase c idx] = 1 := by simp
        rw [hc1, if_neg (by omega)]
        congr 1
      · rw [if_neg hb', hseen b']
        have hc0 : List.count b' [effBase c idx] = 0 :=
          List.count_eq_zero_of_not_mem (by simp [hb'])
        rw [List.count_append, hc0]
        simp

theorem closedAnn_length : ∀ (cols : List HeaderCell) (idx : Nat)
    (hist : List String), (closedAnn cols idx hist).length = cols.length := by
  intro cols
  induction cols with
  | nil => intro idx hist; rfl
  | cons c rest ih =>
    intro idx hist
    rw [closedAnn, List.length_cons, List.length_cons, ih]

theorem closedAnn_mem_count : ∀ (cols : List HeaderCell) (idx : Nat)
    (hist : List String) (x : String × String), x ∈ closedAnn cols idx hist →
    ∃ cnt, x.2 = outName x.1 cnt ∧ hist.count x.1 ≤ cnt := by
  intro cols
  induction cols with
  | nil => intro idx hist x hx; cases hx
  | cons c rest ih =>
    intro idx hist x hx
    rw [closedAnn, List.mem_cons] at hx
    rcases hx with hx | hx
    · subst hx
      exact ⟨hist.count (effBase c idx), rfl, le_refl _⟩
    · obtain ⟨cnt, h1, h2⟩ := ih (idx + 1) (hist ++ [effBase c idx]) x hx
      refine ⟨cnt, h1, le_trans ?_ h2⟩
      rw [List.count_append]
      omega

theorem closedAnn_pairwise : ∀ (cols : List HeaderCell) (idx : Nat)
    (hist : List String),
    (closedAnn cols idx hist).Pairwise (fun x y => x.1 = y.1 → x.2 ≠ y.2) := by
  intro cols
  induction cols with
  | nil => intro idx hist; exact List.Pairwise.nil
  | cons c rest ih =>
    intro idx hist
    rw [closedAnn]
    refine List.Pairwise.cons ?_ (ih (idx + 1) (hist ++ [effBase c idx]))
    intro y hy h1 h2
    have h1' : effBase c idx = y.1 := h1
    have h2' : outName (effBase c idx) (hist.count (effBase c idx)) = y.2 := h2
    obtain ⟨cnt, hcnt, hle⟩ := closedAnn_mem_count rest (idx + 1)
      (hist ++ [effBase c idx]) y hy
    rw [← h1'] at hcnt hle
    have hc1 : List.count (effBase c idx) [effBase c idx] = 1 := by simp
    rw [List.count_append, hc1] at hle
    have hne : hist.count (effBase c idx) ≠ cnt := by omega
    rw [hcnt] at h2'
    exact hne (outName_inj (effBase c idx) h2')

theorem closedAnn_fst_ne_empty : ∀ (cols : List HeaderCell) (idx : Nat)
    (hist : List String) (x : String × String), x ∈ closedAnn cols idx hist →
    x.1 ≠ "" := by
  intro cols
  induction cols with
  | nil => intro idx hist x hx; cases hx
  | cons c rest ih =>
    intro idx hist x hx
    rw [closedAnn, List.mem_cons] at hx
    rcases hx with hx | hx
    · subst hx
      rw [effBase]
      by_cases h : cellRawName c = ""
      · rw [if_pos h]
        intro he
        have hl := congrArg String.length he
        rw [String.length_append] at hl
        have h7 : ("column_" : String).length = 7 := rfl
        have h0 : ("" : String).length = 0 := rfl
        omega
      · rw [if_neg h]; exact h
    · exact ih (idx + 1) (hist ++ [effBase c idx]) x hx

theorem outName_ne_empty (b : String) (hb : b ≠ "") (cnt : Nat) :
    outName b cnt ≠ "" := by
  rw [outName]
  by_cases h0 : cnt = 0
  · rw [if_pos h0]; exact hb
  · rw [if_neg h0]
    intro he
    have hl := congrArg String.length he
    rw [String.length_append, String.length_append] at hl
    have h1 : ("_" : String).length = 1 := rfl
    have h0' : ("" : String).length = 0 := rfl
    omega

/-! ## Claim theorems C4 -/

/-- C4 counterexample: on the header `("A", "A", "A_1")` the cleaner
produces `["A", "A_1", "A_1"]` — a duplicate — refuting the claim that the
output names are always pairwise distinct. -/
theorem claim_c4_column_names_counterexample :
    cleanColumnNames [.scalar "A", .scalar "A", .scalar "A_1"] =
      ["A", "A_1", "A_1"] ∧
    ¬ (cleanColumnNames [.scalar "A", .scalar "A", .scalar "A_1"]).Nodup := by
  exact ⟨by decide, by decide⟩

/-- C4, amended: the Column Normalizer returns a sequence of the same
length whose names are all non-empty; it is deterministic; each position's
output is `outName b c` where `b` is the cell's effective base name and `c`
counts earlier occurrences of `b`, so the first occurrence keeps the
unsuffixed name and later occurrences of the same base name get the
suffixes `_1`, `_2`, … and are pairwise distinct within that group.  (Full
pairwise distinctness across different base names fails, see the
counterexample.) -/
theorem claim_c4_column_names_amended (cols : List HeaderCell) :
    (cleanColumnNames cols).length = cols.length ∧
    (∀ name ∈ cleanColumnNames cols, name ≠ "") ∧
    cleanColumnNames cols = cleanColumnNames cols ∧
    cleanColumnNames cols = (closedAnn cols 0 []).map Prod.snd ∧
    (closedAnn cols 0 []).Pairwise (fun x y => x.1 = y.1 → x.2 ≠ y.2) := by
  have hseen : ∀ b, lookupSeen [] b =
      if ([] : List String).count b = 0 then Option.none
      else some (([] : List String).count b - 1) := by
    intro b; simp [lookupSeen, List.find?]
  have heq := cleanColumnsGo_eq_closed cols 0 [] [] hseen
  refine ⟨?_, ?_, rfl, heq, closedAnn_pairwise cols 0 []⟩
  · rw [cleanColumnNames, heq, List.length_map, closedAnn_length]
  · intro name hmem
    rw [cleanColumnNames, heq, List.mem_map] at hmem
    obtain ⟨x, hx, hx2⟩ := hmem
    obtain ⟨cnt, hcnt, _⟩ := closedAnn_mem_count cols 0 [] x hx
    rw [← hx2, hcnt]
    exact outName_ne_empty x.1 (closedAnn_fst_ne_empty cols 0 [] x hx) cnt

/-! ## `FBRefScraper` row sanitisation (`fbref_scraper.py` lines 78, 147-156, 191-196) -/

/-- `FBRefScraper.INVALID_PLAYER_NAMES`. -/
def INVALID_PLAYER_NAMES : List String :=
  ["squad total", "squad total 2", "opponent total", "opponent", "matches"]

/-- `FBRefScraper._clean_player_name`: `""` for missing/NaN, else strip,
blank → `""`, replace no-break spaces by spaces, delete every `+` and `*`.
(A `None`/NaN cell is `Option.none`; non-string cell values are outside the
modelled domain of the name column.) -/
def cleanPlayerName (name : Option String) : String :=
  match name with
  | Option.none => ""
  | some s =>
    let cleaned := pyStrip s
    if cleaned = "" then ""
    else
      ⟨(cleaned.data.map (fun c => if c = '\xa0' then ' ' else c)).filter
        (fun c => c ≠ '+' && c ≠ '*')⟩

/-- The pandas filter `str.contains(r"total$", case=False)`: in Python's
`re`, `$` matches at the end of the string or just before a single final
newline, so the lowered name must end in `total` or in `total` followed by
one final newline. -/
def totalEndMatch (s : String) : Bool :=
  pyEndsWith (pyLower s) "total" || pyEndsWith (pyLower s) "total\n"

/-- The keep-decision of `_normalise_squad_dataframe` lines 192-196 for one
row of the name column: drop NaN names, clean, then require a
non-whitespace cleaned name that is not block-listed and does not match
`total$` case-insensitively. -/
def rowKept (name : Option String) : Bool :=
  match name with
  | Option.none => false
  | some s =>
    let c := cleanPlayerName (some s)
    (pyStrip c ≠ "") &&
    !(INVALID_PLAYER_NAMES.contains (pyLower c)) &&
    !(totalEndMatch c)

/-- Lines 192-196 applied to the whole name column, in the source's order:
drop NaN, clean each name, then the three successive row filters. -/
def sanitizeNames (names : List (Option String)) : List String :=
  ((((names.filterMap id).map (fun s => cleanPlayerName (some s))).filter
      (fun c => pyStrip c ≠ "")).filter
      (fun c => !(INVALID_PLAYER_NAMES.contains (pyLower c)))).filter
      (fun c => !(totalEndMatch c))

/-- The rejection rule exactly as the claim states it: cleaned name empty,
or lower-cased name block-listed, or name ends with the suffix `total`
case-insensitively. -/
def claimRejectC7 (name : Option String) : Bool :=
  let c := cleanPlayerName name
  c = "" || INVALID_PLAYER_NAMES.contains (pyLower c) ||
    pyEndsWith (pyLower c) "total"

/-- The rejection rule as the code implements it: cleaned name empty or
whitespace-only, or lower-cased name block-listed, or the regex `total$`
matches case-insensitively (also just before one final newline). -/
def amendedRejectC7 (name : Option String) : Bool :=
  let c := cleanPlayerName name
  (match name with | Option.none => true | some _ => false) ||
  pyStrip c = "" || INVALID_PLAYER_NAMES.contains (pyLower c) ||
    totalEndMatch c

theorem sanitizeNames_eq_filter (names : List (Option String)) :
    sanitizeNames names = (names.filter rowKept).map cleanPlayerName := by
  induction names with
  | nil => rfl
  | cons n rest ih =>
    cases n with
    | none =>
      simpa [sanitizeNames, List.filter_cons, rowKept] using ih
    | some s =>
      by_cases h1 : pyStrip (cleanPlayerName (some s)) = "" <;>
      by_cases h2 :
        INVALID_PLAYER_NAMES.contains (pyLower (cleanPlayerName (some s))) = true <;>
      by_cases h3 : totalEndMatch (cleanPlayerName (some s)) = true <;>
        simp_all [sanitizeNames, List.filter_cons, rowKept]

/-! ## Claim theorems C7 -/

/-- C7 counterexample: the raw name `"+ +"` cleans to the single space
`" "` — non-empty, not block-listed, not ending in `total` — so the claim's
rejection rule keeps the row, yet the code rejects it (its stripped cleaned
name is empty), excluding it from the sanitised output. -/
theorem claim_c7_row_sanitizer_counterexample :
    cleanPlayerName (some "+ +") = " " ∧
    claimRejectC7 (some "+ +") = false ∧
    rowKept (some "+ +") = false ∧
    sanitizeNames [some "+ +"] = [] := by
  exact ⟨by decide, by decide, by decide, by decide⟩

/-- C7, amended: a row is rejected iff its name cell is missing/NaN, or the
cleaned name strips to the empty string (empty or whitespace-only), or its
lower-cased form is block-listed, or the regex `total$` matches it
case-insensitively (which also fires just before one final trailing
newline); all other rows are kept, and the sanitised column consists of the
cleaned names of exactly the kept rows. -/
theorem claim_c7_row_sanitizer_amended (name : Option String)
    (names : List (Option String)) :
    rowKept name = !(amendedRejectC7 name) ∧
    sanitizeNames names = (names.filter rowKept).map cleanPlayerName := by
  refine ⟨?_, sanitizeNames_eq_filter names⟩
  cases name with
  | none => rfl
  | some s =>
    by_cases h1 : pyStrip (cleanPlayerName (some s)) = "" <;>
    by_cases h2 :
      INVALID_PLAYER_NAMES.contains (pyLower (cleanPlayerName (some s))) = true <;>
    by_cases h3 : totalEndMatch (cleanPlayerName (some s)) = true <;>
      simp_all [rowKept, amendedRejectC7]

/-! ## Per-player detail-link resolution (`fbref_scraper.py` lines 267-281) -/

/-- One `<tr>` of the squad table's body, as the link-resolution loop sees
it: whether its class list contains `thead`, and the `href` of an anchor
inside its player-name cell (`th[data-stat=player]`), when that cell and
anchor exist. -/
structure TRow where
  theadClass : Bool
  anchorHref : Option String
deriving DecidableEq

/-- The link appended for one non-header row: the absolute URL when an
anchor with a truthy `href` exists, else the `None` placeholder. -/
def rowLink (r : TRow) : Option String :=
  match r.anchorHref with
  | some h => if h = "" then Option.none else some ("https://fbref.com" ++ h)
  | Option.none => Option.none

/-- The collection loop over the table body: header-styled rows are
skipped, every other row contributes its link or a `None` placeholder, in
row order.  A missing `tbody` is the empty row list. -/
def collectLinks : List TRow → List (Option String)
  | [] => []
  | r :: rest =>
    if r.theadClass then collectLinks rest
    else rowLink r :: collectLinks rest

/-- Lines 280-281: the `player_url` column is assigned (as the collected
list truncated to the dataframe length) only when at least one entry was
collected and there are at least as many entries as dataframe rows;
otherwise no column is assigned at all. -/
def assignLinks (rows : List TRow) (dfLen : Nat) : Option (List (Option String)) :=
  let links := collectLinks rows
  if links ≠ [] ∧ dfLen ≤ links.length then some (links.take dfLen)
  else Option.none

/-! ## Claim theorems C8 -/

/-- C8 counterexample: one table row carrying a link but a dataframe of two
rows (fewer links than rows): the code assigns no `player_url` column at
all, so the row whose link was found does not receive it — refuting "the
rows with links still do". -/
theorem claim_c8_player_links_counterexample :
    collectLinks [⟨false, some "/p1"⟩] = [some "https://fbref.com/p1"] ∧
    assignLinks [⟨false, some "/p1"⟩] 2 = Option.none := by
  exact ⟨by decide, by decide⟩

/-- C8, amended: links are collected in row order, one entry per
non-header-styled body row (the anchor's absolute URL, or a `None`
placeholder); when at least one entry is collected and there are at least
as many entries as dataframe rows, the column is assigned as the entry list
truncated to the dataframe length; when fewer entries than rows are
collected (or none at all) **no** row receives a link — the column is left
unassigned — but the operation never errors. -/
theorem claim_c8_player_links_amended (rows : List TRow) (dfLen : Nat) :
    collectLinks rows = (rows.filter (fun r => !r.theadClass)).map rowLink ∧
    (collectLinks rows = [] ∨ (collectLinks rows).length < dfLen →
      assignLinks rows dfLen = Option.none) ∧
    (collectLinks rows ≠ [] → dfLen ≤ (collectLinks rows).length →
      assignLinks rows dfLen = some ((collectLinks rows).take dfLen)) := by
  refine ⟨?_, ?_, ?_⟩
  · induction rows with
    | nil => rfl
    | cons r rest ih =>
      rw [collectLinks, List.filter_cons]
      cases h : r.theadClass
      · simp [ih]
      · simp [ih]
  · intro h
    rw [assignLinks, if_neg]
    intro hc
    rcases h with h | h
    · exact hc.1 h
    · omega
  · intro h1 h2
    rw [assignLinks, if_pos ⟨h1, h2⟩]

/-- Witness for C8's amended clauses at concrete inputs: with one collected
link and two dataframe rows no column is assigned; with one collected link
and one dataframe row the column is assigned. -/
theorem claim_c8_player_links_amended_witness :
    assignLinks [⟨false, some "/a"⟩] 2 = Option.none ∧
    assignLinks [⟨false, some "/a"⟩] 1 = some [some "https://fbref.com/a"] := by
  constructor
  · exact (claim_c8_player_links_amended [⟨false, some "/a"⟩] 2).2.1
      (Or.inr (by decide))
  · have h := (claim_c8_player_links_amended [⟨false, some "/a"⟩] 1).2.2
      (by decide) (by decide)
    rw [h]
    rfl

/-! ## The relational store (`models.py`, restricted to the columns the
save path touches; timestamps omitted) -/

/-- A `teams` row. -/
structure Team where
  id : Nat
  name : String
  fbref_url : Option String
deriving DecidableEq

/-- A `seasons` row. -/
structure Season where
  id : Nat
  name : String
  start_year : ℤ
  end_year : ℤ
deriving DecidableEq

/-- A `players` row (the columns `save_player_data` reads or writes). -/
structure Player where
  id : Nat
  name : String
  team_id : Nat
  position : Option String
  age : Option ℤ
  nationality : Option String
  fbref_url : Option String
deriving DecidableEq

/-- The stored raw-payload snapshot: `json.dumps` of the NaN-sanitised raw
payload, modelled as the sanitised value itself (a scalar when the payload
carried a truthy `raw_data` entry, else the whole payload dict). -/
inductive RawSnap where
  | scalar (v : PyVal) : RawSnap
  | dict (d : List (String × PyVal)) : RawSnap
deriving DecidableEq

/-- The `stats_values` bundle written into a `player_stats` row
(`repository.py` lines 409-425). -/
structure StatsVals where
  team_id : Nat
  matches_played : ℤ
  starts : ℤ
  minutes_played : ℤ
  goals : ℤ
  assists : ℤ
  penalties_scored : ℤ
  penalties_attempted : ℤ
  yellow_cards : ℤ
  red_cards : ℤ
  expected_goals : PyFloat
  expected_assists : PyFloat
  progressive_carries : ℤ
  progressive_passes : ℤ
  raw_data : RawSnap
deriving DecidableEq

/-- A `player_stats` row. -/
structure PlayerStats where
  id : Nat
  player_id : Nat
  season_id : Nat
  vals : StatsVals
deriving DecidableEq

/-- The database state: the four tables the save path touches plus their
autoincrement counters.  (Sequences are modelled inside the state; a
rollback in the model therefore also rewinds them, which real sequences do
not do — the difference only renames unused ids.) -/
structure DB where
  teams : List Team
  seasons : List Season
  players : List Player
  stats : List PlayerStats
  nextTeamId : Nat
  nextSeasonId : Nat
  nextPlayerId : Nat
  nextStatsId : Nat
deriving DecidableEq

/-- The modelled exception raised by a failing `flush` inside
`BaseRepository.create`. -/
inductive PyExn where
  | integrityError : PyExn
deriving DecidableEq

/-- A SQLAlchemy session inside `get_db_session_context`: the pending
database state, the state the transactional scope started from (restored by
`session.rollback()`), and the fault oracle: the set of `create`-call
sequence numbers whose `flush` raises `IntegrityError` (failures come from
constraint races with concurrent runs — §5 of the spec — or other external
causes; the sequential model itself never produces one). -/
structure Sess where
  db : DB
  scopeStart : DB
  faults : List Nat
  calls : Nat
deriving DecidableEq

/-- A scraped payload dict. -/
abbrev Payload := List (String × PyVal)

/-- Python `player_data.get(k)` (missing key gives `None`). -/
def pget (p : Payload) (k : String) : PyVal :=
  match p.find? (fun e => e.1 == k) with
  | some e => e.2
  | Option.none => .none

/-- Python `player_data.get(k, d)` (two-argument `dict.get`). -/
def pgetD (p : Payload) (k : String) (d : PyVal) : PyVal :=
  match p.find? (fun e => e.1 == k) with
  | some e => e.2
  | Option.none => d

/-- `DataService._replace_nan` on a modelled scalar (NaN collapses to
`None`; the recursion into nested dicts/lists reaches one level on the
modelled flat payloads). -/
def replaceNanV : PyVal → PyVal
  | .float .nan => .none
  | v => v

/-- `raw_payload = player_data.get("raw_data") or player_data`, then
`_replace_nan`, then `json.dumps` (modelled as the identity embedding into
`RawSnap`). -/
def rawSnapshot (p : Payload) : RawSnap :=
  if pyTruthy (pget p "raw_data") then .scalar (replaceNanV (pget p "raw_data"))
  else .dict (p.map (fun e => (e.1, replaceNanV e.2)))

/-- Replace the first list element satisfying the predicate (SQLAlchemy
object mutation through the identity map / `query.first()`). -/
def updateFirst (pred : α → Bool) (f : α → α) : List α → List α
  | [] => []
  | x :: xs => if pred x then f x :: xs else x :: updateFirst pred f xs

/-! ## Repositories (`repository.py` lines 17-233) -/

/-- `BaseRepository.create` for `Team`: `flush` either raises
`IntegrityError` — in which case `create` itself calls `session.rollback()`
(restoring the scope-start state) and re-raises — or inserts the row. -/
def createTeam (s : Sess) (name : String) (url : Option String) :
    Except PyExn Team × Sess :=
  if s.faults.contains s.calls then
    (.error .integrityError, { s with db := s.scopeStart, calls := s.calls + 1 })
  else
    let t : Team := ⟨s.db.nextTeamId, name, url⟩
    (.ok t,
      { s with
        db := { s.db with teams := s.db.teams ++ [t],
                          nextTeamId := s.db.nextTeamId + 1 },
        calls := s.calls + 1 })

/-- `BaseRepository.create` for `Season`. -/
def createSeason (s : Sess) (name : String) (sy ey : ℤ) :
    Except PyExn Season × Sess :=
  if s.faults.contains s.calls then
    (.error .integrityError, { s with db := s.scopeStart, calls := s.calls + 1 })
  else
    let r : Season := ⟨s.db.nextSeasonId, name, sy, ey⟩
    (.ok r,
      { s with
        db := { s.db with seasons := s.db.seasons ++ [r],
                          nextSeasonId := s.db.nextSeasonId + 1 },
        calls := s.calls + 1 })

/-- `BaseRepository.create` for `Player`. -/
def createPlayer (s : Sess) (name : String) (teamId : Nat)
    (position : Option String) (age : Option ℤ) (nationality : Option String)
    (url : Option String) : Except PyExn Player × Sess :=
  if s.faults.contains s.calls then
    (.error .integrityError, { s with db := s.scopeStart, calls := s.calls + 1 })
  else
    let r : Player :=
      ⟨s.db.nextPlayerId, name, teamId, position, age, nationality, url⟩
    (.ok r,
      { s with
        db := { s.db with players := s.db.players ++ [r],
                          nextPlayerId := s.db.nextPlayerId + 1 },
        calls := s.calls + 1 })

/-- `BaseRepository.create` for `PlayerStats`. -/
def createStats (s : Sess) (pid sid : Nat) (vals : StatsVals) :
    Except PyExn PlayerStats × Sess :=
  if s.faults.contains s.calls then
    (.error .integrityError, { s with db := s.scopeStart, calls := s.calls + 1 })
  else
    let r : PlayerStats := ⟨s.db.nextStatsId, pid, sid, vals⟩
    (.ok r,
      { s with
        db := { s.db with stats := s.db.stats ++ [r],
                          nextStatsId := s.db.nextStatsId + 1 },
        calls := s.calls + 1 })

/-- `TeamRepository.get_or_create`: first row with the exact name, else
create. -/
def teamGetOrCreate (s : Sess) (name : String) (url : Option String) :
    Except PyExn Team × Sess :=
  match s.db.teams.find? (fun t => t.name == name) with
  | some t => (.ok t, s)
  | Option.none => createTeam s name url

/-- `SeasonRepository.get_or_create`. -/
def seasonGetOrCreate (s : Sess) (name : String) (sy ey : ℤ) :
    Except PyExn Season × Sess :=
  match s.db.seasons.find? (fun r => r.name == name) with
  | some r => (.ok r, s)
  | Option.none => createSeason s name sy ey

/-- `PlayerRepository.get_or_create`: identity key is `(name, team_id)`. -/
def playerGetOrCreate (s : Sess) (name : String) (teamId : Nat)
    (position : Option String) (age : Option ℤ) (nationality : Option String)
    (url : Option String) : Except PyExn Player × Sess :=
  match s.db.players.find? (fun r => r.name == name && r.team_id == teamId) with
  | some r => (.ok r, s)
  | Option.none => createPlayer s name teamId position age nationality url

/-- `PlayerStatsRepository.get_by_player_and_season`. -/
def statsGetByPS (db : DB) (pid sid : Nat) : Option PlayerStats :=
  db.stats.find? (fun r => r.player_id == pid && r.season_id == sid)

/-- Lines 376-387: the conditional partial update of the player row:
entries are added to `player_updates` only for truthy scraped values that
differ from the stored ones, and applied (via `BaseRepository.update`, i.e.
to the first row with the player's id) only when non-empty. -/
def applyPlayerUpdates (db : DB) (pl : Player) (position : Option String)
    (nationality : Option String) (age : Option ℤ) (url : Option String) : DB :=
  let uPos := position.isSome && decide (pl.position ≠ position)
  let uNat := nationality.isSome && decide (pl.nationality ≠ nationality)
  let uAge := age.isSome && decide (pl.age ≠ age)
  let uUrl := url.isSome && decide (pl.fbref_url ≠ url)
  if uPos || uNat || uAge || uUrl then
    let f : Player → Player := fun q =>
      let q := if uPos then { q with position := position } else q
      let q := if uNat then { q with nationality := nationality } else q
      let q := if uAge then { q with age := age } else q
      if uUrl then { q with fbref_url := url } else q
    { db with players := updateFirst (fun q => q.id == pl.id) f db.players }
  else db

/-- Lines 389-406: the coerced counter bundle plus the raw snapshot. -/
def statsValuesOf (p : Payload) (teamId : Nat) : StatsVals :=
  { team_id := teamId
  , matches_played := orZeroInt (coerceInt (pget p "matches_played") (some 0))
  , starts := orZeroInt (coerceInt (pget p "starts") (some 0))
  , minutes_played :=
      orZeroInt (coerceInt (pgetD p "minutes_played" (pget p "minutes")) (some 0))
  , goals := orZeroInt (coerceInt (pget p "goals") (some 0))
  , assists := orZeroInt (coerceInt (pget p "assists") (some 0))
  , penalties_scored := orZeroInt (coerceInt (pget p "penalties_scored") (some 0))
  , penalties_attempted :=
      orZeroInt (coerceInt (pget p "penalties_attempted") (some 0))
  , yellow_cards := orZeroInt (coerceInt (pget p "yellow_cards") (some 0))
  , red_cards := orZeroInt (coerceInt (pget p "red_cards") (some 0))
  , expected_goals := coerceFloat (pget p "expected_goals") (.val 0 0)
  , expected_assists := coerceFloat (pget p "expected_assists") (.val 0 0)
  , progressive_carries :=
      orZeroInt (coerceInt (pget p "progressive_carries") (some 0))
  , progressive_passes :=
      orZeroInt (coerceInt (pget p "progressive_passes") (some 0))
  , raw_data := rawSnapshot p }

/-- Lines 427-437: overwrite the existing `(player, season)` stats row in
place, or create a new one. -/
def statsUpsert (s : Sess) (pid sid : Nat) (vals : StatsVals) :
    Except PyExn Unit × Sess :=
  match statsGetByPS s.db pid sid with
  | some _ =>
    let st := updateFirst (fun r => r.player_id == pid && r.season_id == sid)
      (fun r => { r with vals := vals }) s.db.stats
    (.ok (), { s with db := { s.db with stats := st } })
  | Option.none =>
    match createStats s pid sid vals with
    | (.ok _, s') => (.ok (), s')
    | (.error e, s') => (.error e, s')

/-! ## `DataService.save_player_data` (`repository.py` lines 322-447) -/

/-- The summary counters and the two processed-id sets of one batch. -/
structure SaveAcc where
  sess : Sess
  teamsSeen : List Nat
  playersSeen : List Nat
  cTeams : Nat
  cPlayers : Nat
  cStats : Nat
  cErrors : Nat
deriving DecidableEq

/-- The body of the per-payload `try` block.  An `.ok` result covers both a
fully processed payload and the two validation skips (blank team or player
name, which count as errors and `continue`); an `.error` result is a raised
exception carrying the state at the raise point (Python's mutations up to
the raise persist). -/
def tryProcess (y : ℤ) (acc : SaveAcc) (p : Payload) :
    Except (PyExn × SaveAcc) SaveAcc :=
  let team_name := normaliseString (pget p "team_name")
  if team_name = "" then .ok { acc with cErrors := acc.cErrors + 1 }
  else
    match teamGetOrCreate acc.sess team_name
        (strOrNone (normaliseString (pget p "team_url"))) with
    | (.error e, s') => .error (e, { acc with sess := s' })
    | (.ok team, s1) =>
      let acc := { acc with sess := s1 }
      let acc :=
        if acc.teamsSeen.contains team.id then acc
        else { acc with teamsSeen := team.id :: acc.teamsSeen,
                        cTeams := acc.cTeams + 1 }
      let season_name := strOrDefault (normaliseString (pget p "season")) "2024-2025"
      let bounds := parseSeasonBounds y season_name
      match seasonGetOrCreate acc.sess season_name bounds.1 bounds.2 with
      | (.error e, s') => .error (e, { acc with sess := s' })
      | (.ok season, s2) =>
        let acc := { acc with sess := s2 }
        let player_name := normaliseString (pget p "player_name")
        if player_name = "" then .ok { acc with cErrors := acc.cErrors + 1 }
        else
          let position := strOrNone (normaliseString (pget p "position"))
          let nationality := strOrNone (normaliseString (pget p "nationality"))
          let purl := strOrNone (normaliseString (pget p "player_url"))
          let age := coerceInt (pget p "age") Option.none
          match playerGetOrCreate acc.sess player_name team.id position age
              nationality purl with
          | (.error e, s') => .error (e, { acc with sess := s' })
          | (.ok player, s3) =>
            let acc := { acc with sess := s3 }
            let acc :=
              if acc.playersSeen.contains player.id then acc
              else { acc with playersSeen := player.id :: acc.playersSeen,
                              cPlayers := acc.cPlayers + 1 }
            let dbU := applyPlayerUpdates acc.sess.db player position
              nationality age purl
            let acc := { acc with sess := { acc.sess with db := dbU } }
            match statsUpsert acc.sess player.id season.id
                (statsValuesOf p team.id) with
            | (.error e, s') => .error (e, { acc with sess := s' })
            | (.ok _, s4) =>
              .ok { acc with sess := s4, cStats := acc.cStats + 1 }

/-- One iteration of the payload loop: the `except Exception` handler
counts the failure and continues. -/
def saveStep (y : ℤ) (acc : SaveAcc) (p : Payload) : SaveAcc :=
  match tryProcess y acc p with
  | .ok a => a
  | .error (_, a) => { a with cErrors := a.cErrors + 1 }

/-- `DataService.save_player_data`: one transactional scope per batch
(committed at scope exit; the final pending state is the committed state),
payload-by-payload processing.  `y` is the wall-clock year and `faults` the
fault oracle for `create` flushes. -/
def savePlayerData (y : ℤ) (faults : List Nat) (db : DB)
    (payloads : List Payload) : SaveAcc :=
  payloads.foldl (saveStep y) ⟨⟨db, db, faults, 0⟩, [], [], 0, 0, 0, 0⟩

/-- The empty database. -/
def emptyDB : DB := ⟨[], [], [], [], 0, 0, 0, 0⟩

/-! ## Pure database-level semantics of one payload (no faults)

Under an empty fault oracle every `create` succeeds, and the database
component of the session evolves by the pure functions below; the
correspondence is proved in `saveStep_db_eq`. -/

/-- `teamGetOrCreate`, database level. -/
def teamGOCdb (db : DB) (name : String) (url : Option String) : Team × DB :=
  match db.teams.find? (fun t => t.name == name) with
  | some t => (t, db)
  | Option.none =>
    (⟨db.nextTeamId, name, url⟩,
     { db with teams := db.teams ++ [⟨db.nextTeamId, name, url⟩],
               nextTeamId := db.nextTeamId + 1 })

/-- `seasonGetOrCreate`, database level. -/
def seasonGOCdb (db : DB) (name : String) (sy ey : ℤ) : Season × DB :=
  match db.seasons.find? (fun r => r.name == name) with
  | some r => (r, db)
  | Option.none =>
    (⟨db.nextSeasonId, name, sy, ey⟩,
     { db with seasons := db.seasons ++ [⟨db.nextSeasonId, name, sy, ey⟩],
               nextSeasonId := db.nextSeasonId + 1 })

/-- `playerGetOrCreate`, database level. -/
def playerGOCdb (db : DB) (name : String) (teamId : Nat)
    (position : Option String) (age : Option ℤ) (nationality : Option String)
    (url : Option String) : Player × DB :=
  match db.players.find? (fun r => r.name == name && r.team_id == teamId) with
  | some r => (r, db)
  | Option.none =>
    let r : Player :=
      ⟨db.nextPlayerId, name, teamId, position, age, nationality, url⟩
    (r, { db with players := db.players ++ [r],
                  nextPlayerId := db.nextPlayerId + 1 })

/-- `statsUpsert`, database level. -/
def statsUpsertDb (db : DB) (pid sid : Nat) (vals : StatsVals) : DB :=
  match statsGetByPS db pid sid with
  | some _ =>
    let st := updateFirst (fun r => r.player_id == pid && r.season_id == sid)
      (fun r => { r with vals := vals }) db.stats
    { db with stats := st }
  | Option.none =>
    { db with stats := db.stats ++ [⟨db.nextStatsId, pid, sid, vals⟩],
              nextStatsId := db.nextStatsId + 1 }

/-- The database effect of one payload under no faults. -/
def stepDB (y : ℤ) (p : Payload) (db : DB) : DB :=
  let team_name := normaliseString (pget p "team_name")
  if team_name = "" then db
  else
    let tr := teamGOCdb db team_name (strOrNone (normaliseString (pget p "team_url")))
    let season_name := strOrDefault (normaliseString (pget p "season")) "2024-2025"
    let bounds := parseSeasonBounds y season_name
    let sr := seasonGOCdb tr.2 season_name bounds.1 bounds.2
    let player_name := normaliseString (pget p "player_name")
    if player_name = "" then sr.2
    else
      let position := strOrNone (normaliseString (pget p "position"))
      let nationality := strOrNone (normaliseString (pget p "nationality"))
      let purl := strOrNone (normaliseString (pget p "player_url"))
      let age := coerceInt (pget p "age") Option.none
      let pr := playerGOCdb sr.2 player_name tr.1.id position age nationality purl
      let db3 := applyPlayerUpdates pr.2 pr.1 position nationality age purl
      statsUpsertDb db3 pr.1.id sr.1.id (statsValuesOf p tr.1.id)

theorem teamGOC_noFault (db scopeStart : DB) (cl : Nat) (n : String)
    (u : Option String) :
    ∃ k, teamGetOrCreate ⟨db, scopeStart, [], cl⟩ n u =
      (.ok (teamGOCdb db n u).1, ⟨(teamGOCdb db n u).2, scopeStart, [], k⟩) := by
  rw [teamGetOrCreate, teamGOCdb]
  cases hfind : db.teams.find? (fun t => t.name == n) with
  | some t => exact ⟨cl, rfl⟩
  | none => exact ⟨cl + 1, rfl⟩

theorem seasonGOC_noFault (db scopeStart : DB) (cl : Nat) (n : String)
    (sy ey : ℤ) :
    ∃ k, seasonGetOrCreate ⟨db, scopeStart, [], cl⟩ n sy ey =
      (.ok (seasonGOCdb db n sy ey).1,
       ⟨(seasonGOCdb db n sy ey).2, scopeStart, [], k⟩) := by
  rw [seasonGetOrCreate, seasonGOCdb]
  cases hfind : db.seasons.find? (fun r => r.name == n) with
  | some r => exact ⟨cl, rfl⟩
  | none => exact ⟨cl + 1, rfl⟩

theorem playerGOC_noFault (db scopeStart : DB) (cl : Nat) (n : String)
    (tid : Nat) (pos : Option String) (age : Option ℤ) (nat : Option String)
    (u : Option String) :
    ∃ k, playerGetOrCreate ⟨db, scopeStart, [], cl⟩ n tid pos age nat u =
      (.ok (playerGOCdb db n tid pos age nat u).1,
       ⟨(playerGOCdb db n tid pos age nat u).2, scopeStart, [], k⟩) := by
  rw [playerGetOrCreate, playerGOCdb]
  cases hfind : db.players.find? (fun r => r.name == n && r.team_id == tid) with
  | some r => exact ⟨cl, rfl⟩
  | none => exact ⟨cl + 1, rfl⟩

theorem statsUpsert_noFault (db scopeStart : DB) (cl : Nat) (pid sid : Nat)
    (vals : StatsVals) :
    ∃ k, statsUpsert ⟨db, scopeStart, [], cl⟩ pid sid vals =
      (.ok (), ⟨statsUpsertDb db pid sid vals, scopeStart, [], k⟩) := by
  rw [statsUpsert, statsUpsertDb]
  cases hfind : statsGetByPS db pid sid with
  | some r => exact ⟨cl, rfl⟩
  | none => exact ⟨cl + 1, rfl⟩

theorem saveStep_db_eq (y : ℤ) (acc : SaveAcc) (p : Payload)
    (hf : acc.sess.faults = []) :
    (saveStep y acc p).sess.db = stepDB y p acc.sess.db ∧
    (saveStep y acc p).sess.faults = [] ∧
    (saveStep y acc p).sess.scopeStart = acc.sess.scopeStart := by
  obtain ⟨⟨db, st, fl, cl⟩, ts, ps, c1, c2, c3, c4⟩ := acc
  have hf' : fl = [] := hf
  subst hf'
  by_cases h1 : normaliseString (pget p "team_name") = ""
  · simp [saveStep, tryProcess, stepDB, h1]
  · obtain ⟨k1, hk1⟩ := teamGOC_noFault db st cl
      (normaliseString (pget p "team_name"))
      (strOrNone (normaliseString (pget p "team_url")))
    obtain ⟨k2, hk2⟩ := seasonGOC_noFault
      (teamGOCdb db (normaliseString (pget p "team_name"))
        (strOrNone (normaliseString (pget p "team_url")))).2 st k1
      (strOrDefault (normaliseString (pget p "season")) "2024-2025")
      (parseSeasonBounds y
        (strOrDefault (normaliseString (pget p "season")) "2024-2025")).1
      (parseSeasonBounds y
        (strOrDefault (normaliseString (pget p "season")) "2024-2025")).2
    by_cases h2 : normaliseString (pget p "player_name") = ""
    · by_cases h3 : (teamGOCdb db (normaliseString (pget p "team_name"))
          (strOrNone (normaliseString (pget p "team_url")))).1.id ∈ ts <;>
        simp [saveStep, tryProcess, stepDB, h1, h2, h3, hk1, hk2]
    · obtain ⟨k3, hk3⟩ := playerGOC_noFault
        (seasonGOCdb
          (teamGOCdb db (normaliseString (pget p "team_name"))
            (strOrNone (normaliseString (pget p "team_url")))).2
          (strOrDefault (normaliseString (pget p "season")) "2024-2025")
          (parseSeasonBounds y
            (strOrDefault (normaliseString (pget p "season")) "2024-2025")).1
          (parseSeasonBounds y
            (strOrDefault (normaliseString (pget p "season")) "2024-2025")).2).2
        st k2
        (normaliseString (pget p "player_name"))
        (teamGOCdb db (normaliseString (pget p "team_name"))
          (strOrNone (normaliseString (pget p "team_url")))).1.id
        (strOrNone (normaliseString (pget p "position")))
        (coerceInt (pget p "age") Option.none)
        (strOrNone (normaliseString (pget p "nationality")))
        (strOrNone (normaliseString (pget p "player_url")))
      obtain ⟨k4, hk4⟩ := statsUpsert_noFault
        (applyPlayerUpdates
          (playerGOCdb
            (seasonGOCdb
              (teamGOCdb db (normaliseString (pget p "team_name"))
                (strOrNone (normaliseString (pget p "team_url")))).2
              (strOrDefault (normaliseString (pget p "season")) "2024-2025")
              (parseSeasonBounds y
                (strOrDefault (normaliseString (pget p "season")) "2024-2025")).1
              (parseSeasonBounds y
                (strOrDefault (normaliseString (pget p "season")) "2024-2025")).2).2
            (normaliseString (pget p "player_name"))
            (teamGOCdb db (normaliseString (pget p "team_name"))
              (strOrNone (normaliseString (pget p "team_url")))).1.id
            (strOrNone (normaliseString (pget p "position")))
            (coerceInt (pget p "age") Option.none)
            (strOrNone (normaliseString (pget p "nationality")))
            (strOrNone (normaliseString (pget p "player_url")))).2
          (playerGOCdb
            (seasonGOCdb
              (teamGOCdb db (normaliseString (pget p "team_name"))
                (strOrNone (normaliseString (pget p "team_url")))).2
              (strOrDefault (normaliseString (pget p "season")) "2024-2025")
              (parseSeasonBounds y
                (strOrDefault (normaliseString (pget p "season")) "2024-2025")).1
              (parseSeasonBounds y
                (strOrDefault (normaliseString (pget p "season")) "2024-2025")).2).2
            (normaliseString (pget p "player_name"))
            (teamGOCdb db (normaliseString (pget p "team_name"))
              (strOrNone (normaliseString (pget p "team_url")))).1.id
            (strOrNone (normaliseString (pget p "position")))
            (coerceInt (pget p "age") Option.none)
            (strOrNone (normaliseString (pget p "nationality")))
            (strOrNone (normaliseString (pget p "player_url")))).1
          (strOrNone (normaliseString (pget p "position")))
          (strOrNone (normaliseString (pget p "nationality")))
          (coerceInt (pget p "age") Option.none)
          (strOrNone (normaliseString (pget p "player_url"))))
        st k3
        (playerGOCdb
          (seasonGOCdb
            (teamGOCdb db (normaliseString (pget p "team_name"))
              (strOrNone (normaliseString (pget p "team_url")))).2
            (strOrDefault (normaliseString (pget p "season")) "2024-2025")
            (parseSeasonBounds y
              (strOrDefault (normaliseString (pget p "season")) "2024-2025")).1
            (parseSeasonBounds y
              (strOrDefault (normaliseString (pget p "season")) "2024-2025")).2).2
          (normaliseString (pget p "player_name"))
          (teamGOCdb db (normaliseString (pget p "team_name"))
            (strOrNone (normaliseString (pget p "team_url")))).1.id
          (strOrNone (normaliseString (pget p "position")))
          (coerceInt (pget p "age") Option.none)
          (strOrNone (normaliseString (pget p "nationality")))
          (strOrNone (normaliseString (pget p "player_url")))).1.id
        (seasonGOCdb
          (teamGOCdb db (normaliseString (pget p "team_name"))
            (strOrNone (normaliseString (pget p "team_url")))).2
          (strOrDefault (normaliseString (pget p "season")) "2024-2025")
          (parseSeasonBounds y
            (strOrDefault (normaliseString (pget p "season")) "2024-2025")).1
          (parseSeasonBounds y
            (strOrDefault (normaliseString (pget p "season")) "2024-2025")).2).1.id
        (statsValuesOf p
          (teamGOCdb db (normaliseString (pget p "team_name"))
            (strOrNone (normaliseString (pget p "team_url")))).1.id)
      by_cases h3 : (teamGOCdb db (normaliseString (pget p "team_name"))
            (strOrNone (normaliseString (pget p "team_url")))).1.id ∈ ts <;>
      by_cases h4 : ((playerGOCdb
            (seasonGOCdb
              (teamGOCdb db (normaliseString (pget p "team_name"))
                (strOrNone (normaliseString (pget p "team_url")))).2
              (strOrDefault (normaliseString (pget p "season")) "2024-2025")
              (parseSeasonBounds y
                (strOrDefault (normaliseString (pget p "season")) "2024-2025")).1
              (parseSeasonBounds y
                (strOrDefault (normaliseString (pget p "season")) "2024-2025")).2).2
            (normaliseString (pget p "player_name"))
            (teamGOCdb db (normaliseString (pget p "team_name"))
              (strOrNone (normaliseString (pget p "team_url")))).1.id
            (strOrNone (normaliseString (pget p "position")))
            (coerceInt (pget p "age") Option.none)
            (strOrNone (normaliseString (pget p "nationality")))
            (strOrNone (normaliseString (pget p "player_url")))).1.id ∈ ps) <;>
        simp [saveStep, tryProcess, stepDB, h1, h2, h3, h4, hk1, hk2, hk3, hk4]

/-! ## Error-path characterisation (for C2) -/

theorem createTeam_error {s : Sess} {n : String} {u : Option String} {e : PyExn}
    {s' : Sess} (h : createTeam s n u = (.error e, s')) :
    s'.db = s.scopeStart ∧ s'.scopeStart = s.scopeStart := by
  rw [createTeam] at h
  split at h
  · exact ⟨congrArg Sess.db (congrArg Prod.snd h).symm ▸ rfl,
      congrArg Sess.scopeStart (congrArg Prod.snd h).symm ▸ rfl⟩
  · simp at h

theorem createSeason_error {s : Sess} {n : String} {sy ey : ℤ} {e : PyExn}
    {s' : Sess} (h : createSeason s n sy ey = (.error e, s')) :
    s'.db = s.scopeStart ∧ s'.scopeStart = s.scopeStart := by
  rw [createSeason] at h
  split at h
  · exact ⟨congrArg Sess.db (congrArg Prod.snd h).symm ▸ rfl,
      congrArg Sess.scopeStart (congrArg Prod.snd h).symm ▸ rfl⟩
  · simp at h

theorem createPlayer_error {s : Sess} {n : String} {tid : Nat}
    {pos : Option String} {age : Option ℤ} {nat : Option String}
    {u : Option String} {e : PyExn} {s' : Sess}
    (h : createPlayer s n tid pos age nat u = (.error e, s')) :
    s'.db = s.scopeStart ∧ s'.scopeStart = s.scopeStart := by
  rw [createPlayer] at h
  split at h
  · exact ⟨congrArg Sess.db (congrArg Prod.snd h).symm ▸ rfl,
      congrArg Sess.scopeStart (congrArg Prod.snd h).symm ▸ rfl⟩
  · simp at h

theorem createStats_error {s : Sess} {pid sid : Nat} {v : StatsVals}
    {e : PyExn} {s' : Sess} (h : createStats s pid sid v = (.error e, s')) :
    s'.db = s.scopeStart ∧ s'.scopeStart = s.scopeStart := by
  rw [createStats] at h
  split at h
  · exact ⟨congrArg Sess.db (congrArg Prod.snd h).symm ▸ rfl,
      congrArg Sess.scopeStart (congrArg Prod.snd h).symm ▸ rfl⟩
  · simp at h

theorem teamGOC_error {s : Sess} {n : String} {u : Option String} {e : PyExn}
    {s' : Sess} (h : teamGetOrCreate s n u = (.error e, s')) :
    s'.db = s.scopeStart ∧ s'.scopeStart = s.scopeStart := by
  rw [teamGetOrCreate] at h
  split at h
  · simp at h
  · exact createTeam_error h

theorem seasonGOC_error {s : Sess} {n : String} {sy ey : ℤ} {e : PyExn}
    {s' : Sess} (h : seasonGetOrCreate s n sy ey = (.error e, s')) :
    s'.db = s.scopeStart ∧ s'.scopeStart = s.scopeStart := by
  rw [seasonGetOrCreate] at h
  split at h
  · simp at h
  · exact createSeason_error h

theorem playerGOC_error {s : Sess} {n : String} {tid : Nat}
    {pos : Option String} {age : Option ℤ} {nat : Option String}
    {u : Option String} {e : PyExn} {s' : Sess}
    (h : playerGetOrCreate s n tid pos age nat u = (.error e, s')) :
    s'.db = s.scopeStart ∧ s'.scopeStart = s.scopeStart := by
  rw [playerGetOrCreate] at h
  split at h
  · simp at h
  · exact createPlayer_error h

theorem statsUpsert_error {s : Sess} {pid sid : Nat} {v : StatsVals}
    {e : PyExn} {s' : Sess} (h : statsUpsert s pid sid v = (.error e, s')) :
    s'.db = s.scopeStart ∧ s'.scopeStart = s.scopeStart := by
  rw [statsUpsert] at h
  split at h
  · simp at h
  · split at h
    · simp at h
    · rename_i heq
      simp only [Prod.mk.injEq, Except.error.injEq] at h
      obtain ⟨-, ha⟩ := h
      subst ha
      exact createStats_error heq

theorem teamGOC_ok_scope {s : Sess} {n : String} {u : Option String} {t : Team}
    {s1 : Sess} (h : teamGetOrCreate s n u = (.ok t, s1)) :
    s1.scopeStart = s.scopeStart := by
  rw [teamGetOrCreate] at h
  split at h
  · simp only [Prod.mk.injEq] at h
    rw [← h.2]
  · rw [createTeam] at h
    split at h
    · simp at h
    · simp only [Prod.mk.injEq] at h
      rw [← h.2]

theorem seasonGOC_ok_scope {s : Sess} {n : String} {sy ey : ℤ} {r : Season}
    {s1 : Sess} (h : seasonGetOrCreate s n sy ey = (.ok r, s1)) :
    s1.scopeStart = s.scopeStart := by
  rw [seasonGetOrCreate] at h
  split at h
  · simp only [Prod.mk.injEq] at h
    rw [← h.2]
  · rw [createSeason] at h
    split at h
    · simp at h
    · simp only [Prod.mk.injEq] at h
      rw [← h.2]

theorem playerGOC_ok_scope {s : Sess} {n : String} {tid : Nat}
    {pos : Option String} {age : Option ℤ} {nat : Option String}
    {u : Option String} {r : Player} {s1 : Sess}
    (h : playerGetOrCreate s n tid pos age nat u = (.ok r, s1)) :
    s1.scopeStart = s.scopeStart := by
  rw [playerGetOrCreate] at h
  split at h
  · simp only [Prod.mk.injEq] at h
    rw [← h.2]
  · rw [createPlayer] at h
    split at h
    · simp at h
    · simp only [Prod.mk.injEq] at h
      rw [← h.2]

theorem tryProcess_error_rollback (y : ℤ) (acc : SaveAcc) (p : Payload)
    (e : PyExn) (a : SaveAcc) (herr : tryProcess y acc p = .error (e, a)) :
    a.sess.db = acc.sess.scopeStart ∧
    a.sess.scopeStart = acc.sess.scopeStart := by
  simp only [tryProcess] at herr
  split at herr
  · simp at herr
  · split at herr
    · rename_i heq
      simp only [Except.error.injEq, Prod.mk.injEq] at herr
      obtain ⟨-, ha⟩ := herr
      subst ha
      exact teamGOC_error heq
    · rename_i team s1 heq1
      have hscope1 : s1.scopeStart = acc.sess.scopeStart := teamGOC_ok_scope heq1
      by_cases hc1 : acc.teamsSeen.contains team.id = true
      · simp only [if_pos hc1] at herr
        split at herr
        · rename_i heq2
          simp only [Except.error.injEq, Prod.mk.injEq] at herr
          obtain ⟨-, ha⟩ := herr
          subst ha
          obtain ⟨h1, h2⟩ := seasonGOC_error heq2
          exact ⟨h1.trans hscope1, h2.trans hscope1⟩
        · rename_i season s2 heq2
          have hscope2 : s2.scopeStart = acc.sess.scopeStart :=
            (seasonGOC_ok_scope heq2).trans hscope1
          split at herr
          · simp at herr
          · split at herr
            · rename_i heq3
              simp only [Except.error.injEq, Prod.mk.injEq] at herr
              obtain ⟨-, ha⟩ := herr
              subst ha
              obtain ⟨h1, h2⟩ := playerGOC_error heq3
              exact ⟨h1.trans hscope2, h2.trans hscope2⟩
            · rename_i player s3 heq3
              have hscope3 : s3.scopeStart = acc.sess.scopeStart :=
                (playerGOC_ok_scope heq3).trans hscope2
              by_cases hc2 : acc.playersSeen.contains player.id = true
              · simp only [if_pos hc2] at herr
                split at herr
                · rename_i heq4
                  simp only [Except.error.injEq, Prod.mk.injEq] at herr
                  obtain ⟨-, ha⟩ := herr
                  subst ha
                  obtain ⟨h1, h2⟩ := statsUpsert_error heq4
                  exact ⟨h1.trans hscope3, h2.trans hscope3⟩
                · simp at herr
              · simp only [if_neg hc2] at herr
                split at herr
                · rename_i heq4
                  simp only [Except.error.injEq, Prod.mk.injEq] at herr
                  obtain ⟨-, ha⟩ := herr
                  subst ha
                  obtain ⟨h1, h2⟩ := statsUpsert_error heq4
                  exact ⟨h1.trans hscope3, h2.trans hscope3⟩
                · simp at herr
      · simp only [if_neg hc1] at herr
        split at herr
        · rename_i heq2
          simp only [Except.error.injEq, Prod.mk.injEq] at herr
          obtain ⟨-, ha⟩ := herr
          subst ha
          obtain ⟨h1, h2⟩ := seasonGOC_error heq2
          exact ⟨h1.trans hscope1, h2.trans hscope1⟩
        · rename_i season s2 heq2
          have hscope2 : s2.scopeStart = acc.sess.scopeStart :=
            (seasonGOC_ok_scope heq2).trans hscope1
          split at herr
          · simp at herr
          · split at herr
            · rename_i heq3
              simp only [Except.error.injEq, Prod.mk.injEq] at herr
              obtain ⟨-, ha⟩ := herr
              subst ha
              obtain ⟨h1, h2⟩ := playerGOC_error heq3
              exact ⟨h1.trans hscope2, h2.trans hscope2⟩
            · rename_i player s3 heq3
              have hscope3 : s3.scopeStart = acc.sess.scopeStart :=
                (playerGOC_ok_scope heq3).trans hscope2
              by_cases hc2 : acc.playersSeen.contains player.id = true
              · simp only [if_pos hc2] at herr
                split at herr
                · rename_i heq4
                  simp only [Except.error.injEq, Prod.mk.injEq] at herr
                  obtain ⟨-, ha⟩ := herr
                  subst ha
                  obtain ⟨h1, h2⟩ := statsUpsert_error heq4
                  exact ⟨h1.trans hscope3, h2.trans hscope3⟩
                · simp at herr
              · simp only [if_neg hc2] at herr
                split at herr
                · rename_i heq4
                  simp only [Except.error.injEq, Prod.mk.injEq] at herr
                  obtain ⟨-, ha⟩ := herr
                  subst ha
                  obtain ⟨h1, h2⟩ := statsUpsert_error heq4
                  exact ⟨h1.trans hscope3, h2.trans hscope3⟩
                · simp at herr

/-! ## Claim theorems C2 -/

/-- First counterexample payload: a complete record for one team. -/
def cxP1 : Payload :=
  [("team_name", .str "Arsenal"), ("player_name", .str "Bukayo Saka"),
   ("season", .str "2024-2025"), ("goals", .int 16), ("assists", .str "9")]

/-- Second counterexample payload, for a different team. -/
def cxP2 : Payload :=
  [("team_name", .str "Chelsea"), ("player_name", .str "Cole Palmer")]

/-- C2 counterexample: processing `[cxP1, cxP2]` where the second payload's
team insert raises `IntegrityError` (`create`-call number 4).  The
exception is caught and counted — but `create`'s own `session.rollback()`
has discarded the first payload's pending writes, so the batch ends with
empty tables even though the first payload had been fully processed
(`stats` was already counted): the claim that previously processed
payloads' writes remain intact is false. -/
theorem claim_c2_payload_errors_counterexample :
    (savePlayerData 2026 [] emptyDB [cxP1, cxP2]).sess.db.teams.length = 2 ∧
    (savePlayerData 2026 [] emptyDB [cxP1, cxP2]).sess.db.stats.length = 2 ∧
    (savePlayerData 2026 [4] emptyDB [cxP1, cxP2]).cErrors = 1 ∧
    (savePlayerData 2026 [4] emptyDB [cxP1, cxP2]).cStats = 1 ∧
    (savePlayerData 2026 [4] emptyDB [cxP1, cxP2]).sess.db.teams = [] ∧
    (savePlayerData 2026 [4] emptyDB [cxP1, cxP2]).sess.db.stats = [] := by
  refine ⟨by decide, by decide, by decide, by decide, by decide, by decide⟩

/-- C2, amended: an exception while processing one payload increments the
returned `errors` count by exactly one and processing continues with the
next payload (the batch is never aborted, and the batch-scope rollback in
`session_scope` is not triggered); however such an exception — an
`IntegrityError` raised by a `flush` inside `BaseRepository.create` — makes
`create` call `session.rollback()` before re-raising, which resets the
session to the scope-start state, so the pending writes of previously
processed payloads in the same batch are discarded rather than kept. -/
theorem claim_c2_payload_errors_amended (y : ℤ) (acc : SaveAcc) (p : Payload)
    (e : PyExn) (a : SaveAcc) (herr : tryProcess y acc p = .error (e, a)) :
    saveStep y acc p = { a with cErrors := a.cErrors + 1 } ∧
    (∀ rest : List Payload, List.foldl (saveStep y) acc (p :: rest) =
      List.foldl (saveStep y) { a with cErrors := a.cErrors + 1 } rest) ∧
    a.sess.db = acc.sess.scopeStart ∧
    a.sess.scopeStart = acc.sess.scopeStart := by
  have hstep : saveStep y acc p = { a with cErrors := a.cErrors + 1 } := by
    rw [saveStep, herr]
  obtain ⟨h1, h2⟩ := tryProcess_error_rollback y acc p e a herr
  exact ⟨hstep, fun rest => by rw [List.foldl_cons, hstep], h1, h2⟩

/-- The accumulator state at the start of a batch whose very first
`create` flush is set to fail. -/
def c2acc : SaveAcc := ⟨⟨emptyDB, emptyDB, [0], 0⟩, [], [], 0, 0, 0, 0⟩

/-- The state `tryProcess` hands to the exception handler in that run:
the session rolled back to the scope start, one call consumed. -/
def c2err : SaveAcc := ⟨⟨emptyDB, emptyDB, [0], 1⟩, [], [], 0, 0, 0, 0⟩

/-- Witness for C2's amended theorem at a concrete faulting run. -/
theorem claim_c2_payload_errors_amended_witness :
    saveStep 2026 c2acc cxP2 = { c2err with cErrors := c2err.cErrors + 1 } ∧
    c2err.sess.db = c2acc.sess.scopeStart := by
  have h := claim_c2_payload_errors_amended 2026 c2acc cxP2
    .integrityError c2err (by rfl)
  exact ⟨h.1, h.2.2.1⟩


theorem saveStep_valid (y : ℤ) (acc : SaveAcc) (p : Payload)
    (hf : acc.sess.faults = [])
    (ht : ¬ normaliseString (pget p "team_name") = "")
    (hp : ¬ normaliseString (pget p "player_name") = "") :
    (saveStep y acc p).sess.db = stepDB y p acc.sess.db ∧
    (saveStep y acc p).cStats = acc.cStats + 1 ∧
    (saveStep y acc p).cErrors = acc.cErrors := by
  obtain ⟨⟨db, st, fl, cl⟩, ts, ps, c1, c2, c3, c4⟩ := acc
  have hf2 : fl = [] := hf
  subst hf2
  obtain ⟨k1, hk1⟩ := teamGOC_noFault db st cl
    (normaliseString (pget p "team_name"))
    (strOrNone (normaliseString (pget p "team_url")))
  obtain ⟨k2, hk2⟩ := seasonGOC_noFault
    (teamGOCdb db (normaliseString (pget p "team_name")) (strOrNone (normaliseString (pget p "team_url")))).2 st k1
    (strOrDefault (normaliseString (pget p "season")) "2024-2025")
    (parseSeasonBounds y (strOrDefault (normaliseString (pget p "season")) "2024-2025")).1
    (parseSeasonBounds y (strOrDefault (normaliseString (pget p "season")) "2024-2025")).2
  obtain ⟨k3, hk3⟩ := playerGOC_noFault
    (seasonGOCdb (teamGOCdb db (normaliseString (pget p "team_name")) (strOrNone (normaliseString (pget p "team_url")))).2 (strOrDefault (normaliseString (pget p "season")) "2024-2025") (parseSeasonBounds y (strOrDefault (normaliseString (pget p "season")) "2024-2025")).1 (parseSeasonBounds y (strOrDefault (normaliseString (pget p "season")) "2024-2025")).2).2
    st k2
    (normaliseString (pget p "player_name"))
    (teamGOCdb db (normaliseString (pget p "team_name")) (strOrNone (normaliseString (pget p "team_url")))).1.id
    (strOrNone (normaliseString (pget p "position")))
    (coerceInt (pget p "age") Option.none)
    (strOrNone (normaliseString (pget p "nationality")))
    (strOrNone (normaliseString (pget p "player_url")))
  obtain ⟨k4, hk4⟩ := statsUpsert_noFault
    (applyPlayerUpdates (playerGOCdb (seasonGOCdb (teamGOCdb db (normaliseString (pget p "team_name")) (strOrNone (normaliseString (pget p "team_url")))).2 (strOrDefault (normaliseString (pget p "season")) "2024-2025") (parseSeasonBounds y (strOrDefault (normaliseString (pget p "season")) "2024-2025")).1 (parseSeasonBounds y (strOrDefault (normaliseString (pget p "season")) "2024-2025")).2).2 (normaliseString (pget p "player_name")) (teamGOCdb db (normaliseString (pget p "team_name")) (strOrNone (normaliseString (pget p "team_url")))).1.id (strOrNone (normaliseString (pget p "position"))) (coerceInt (pget p "age") Option.none) (strOrNone (normaliseString (pget p "nationality"))) (strOrNone (normaliseString (pget p "player_url")))).2 (playerGOCdb (seasonGOCdb (teamGOCdb db (normaliseString (pget p "team_name")) (strOrNone (normaliseString (pget p "team_url")))).2 (strOrDefault (normaliseString (pget p "season")) "2024-2025") (parseSeasonBounds y (strOrDefault (normaliseString (pget p "season")) "2024-2025")).1 (parseSeasonBounds y (strOrDefault (normaliseString (pget p "season")) "2024-2025")).2).2 (normaliseString (pget p "player_name")) (teamGOCdb db (normaliseString (pget p "team_name")) (strOrNone (normaliseString (pget p "team_url")))).1.id (strOrNone (normaliseString (pget p "position"))) (coerceInt (pget p "age") Option.none) (strOrNone (normaliseString (pget p "nationality"))) (strOrNone (normaliseString (pget p "player_url")))).1 (strOrNone (normaliseString (pget p "position"))) (strOrNone (normaliseString (pget p "nationality"))) (coerceInt (pget p "age") Option.none) (strOrNone (normaliseString (pget p "player_url"))))
    st k3
    (playerGOCdb (seasonGOCdb (teamGOCdb db (normaliseString (pget p "team_name")) (strOrNone (normaliseString (pget p "team_url")))).2 (strOrDefault (normaliseString (pget p "season")) "2024-2025") (parseSeasonBounds y (strOrDefault (normaliseString (pget p "season")) "2024-2025")).1 (parseSeasonBounds y (strOrDefault (normaliseString (pget p "season")) "2024-2025")).2).2 (normaliseString (pget p "player_name")) (teamGOCdb db (normaliseString (pget p "team_name")) (strOrNone (normaliseString (pget p "team_url")))).1.id (strOrNone (normaliseString (pget p "position"))) (coerceInt (pget p "age") Option.none) (strOrNone (normaliseString (pget p "nationality"))) (strOrNone (normaliseString (pget p "player_url")))).1.id
    (seasonGOCdb (teamGOCdb db (normaliseString (pget p "team_name")) (strOrNone (normaliseString (pget p "team_url")))).2 (strOrDefault (normaliseString (pget p "season")) "2024-2025") (parseSeasonBounds y (strOrDefault (normaliseString (pget p "season")) "2024-2025")).1 (parseSeasonBounds y (strOrDefault (normaliseString (pget p "season")) "2024-2025")).2).1.id
    (statsValuesOf p
      (teamGOCdb db (normaliseString (pget p "team_name")) (strOrNone (normaliseString (pget p "team_url")))).1.id)
  by_cases h3 : (teamGOCdb db (normaliseString (pget p "team_name")) (strOrNone (normaliseString (pget p "team_url")))).1.id ∈ ts <;>
  by_cases h4 : ((playerGOCdb (seasonGOCdb (teamGOCdb db (normaliseString (pget p "team_name")) (strOrNone (normaliseString (pget p "team_url")))).2 (strOrDefault (normaliseString (pget p "season")) "2024-2025") (parseSeasonBounds y (strOrDefault (normaliseString (pget p "season")) "2024-2025")).1 (parseSeasonBounds y (strOrDefault (normaliseString (pget p "season")) "2024-2025")).2).2 (normaliseString (pget p "player_name")) (teamGOCdb db (normaliseString (pget p "team_name")) (strOrNone (normaliseString (pget p "team_url")))).1.id (strOrNone (normaliseString (pget p "position"))) (coerceInt (pget p "age") Option.none) (strOrNone (normaliseString (pget p "nationality"))) (strOrNone (normaliseString (pget p "player_url")))).1.id ∈ ps) <;>
    simp [saveStep, tryProcess, stepDB, ht, hp, h3, h4, hk1, hk2, hk3, hk4]

theorem saveStep_blank_player (y : ℤ) (acc : SaveAcc) (p : Payload)
    (hf : acc.sess.faults = [])
    (ht : ¬ normaliseString (pget p "team_name") = "")
    (hp : normaliseString (pget p "player_name") = "") :
    (saveStep y acc p).sess.db = stepDB y p acc.sess.db ∧
    (saveStep y acc p).cErrors = acc.cErrors + 1 ∧
    (saveStep y acc p).cStats = acc.cStats ∧
    (saveStep y acc p).playersSeen = acc.playersSeen ∧
    (saveStep y acc p).cPlayers = acc.cPlayers ∧
    (saveStep y acc p).teamsSeen = (if (teamGOCdb acc.sess.db (normaliseString (pget p "team_name")) (strOrNone (normaliseString (pget p "team_url")))).1.id ∈ acc.teamsSeen then acc.teamsSeen else (teamGOCdb acc.sess.db (normaliseString (pget p "team_name")) (strOrNone (normaliseString (pget p "team_url")))).1.id :: acc.teamsSeen) ∧
    (saveStep y acc p).cTeams = (if (teamGOCdb acc.sess.db (normaliseString (pget p "team_name")) (strOrNone (normaliseString (pget p "team_url")))).1.id ∈ acc.teamsSeen then acc.cTeams else acc.cTeams + 1) := by
  obtain ⟨⟨db, st, fl, cl⟩, ts, ps, c1, c2, c3, c4⟩ := acc
  have hf2 : fl = [] := hf
  subst hf2
  obtain ⟨k1, hk1⟩ := teamGOC_noFault db st cl
    (normaliseString (pget p "team_name"))
    (strOrNone (normaliseString (pget p "team_url")))
  obtain ⟨k2, hk2⟩ := seasonGOC_noFault
    (teamGOCdb db (normaliseString (pget p "team_name")) (strOrNone (normaliseString (pget p "team_url")))).2 st k1
    (strOrDefault (normaliseString (pget p "season")) "2024-2025")
    (parseSeasonBounds y (strOrDefault (normaliseString (pget p "season")) "2024-2025")).1
    (parseSeasonBounds y (strOrDefault (normaliseString (pget p "season")) "2024-2025")).2
  by_cases h3 : (teamGOCdb db (normaliseString (pget p "team_name")) (strOrNone (normaliseString (pget p "team_url")))).1.id ∈ ts <;>
    simp [saveStep, tryProcess, stepDB, ht, hp, h3, hk1, hk2]

/-! ## Database-level projection and membership lemmas -/

theorem teamGOCdb_players (db : DB) (n : String) (u : Option String) :
    (teamGOCdb db n u).2.players = db.players := by
  unfold teamGOCdb; split <;> rfl

theorem teamGOCdb_stats (db : DB) (n : String) (u : Option String) :
    (teamGOCdb db n u).2.stats = db.stats := by
  unfold teamGOCdb; split <;> rfl

theorem teamGOCdb_seasons (db : DB) (n : String) (u : Option String) :
    (teamGOCdb db n u).2.seasons = db.seasons := by
  unfold teamGOCdb; split <;> rfl

theorem seasonGOCdb_players (db : DB) (n : String) (sy ey : ℤ) :
    (seasonGOCdb db n sy ey).2.players = db.players := by
  unfold seasonGOCdb; split <;> rfl

theorem seasonGOCdb_stats (db : DB) (n : String) (sy ey : ℤ) :
    (seasonGOCdb db n sy ey).2.stats = db.stats := by
  unfold seasonGOCdb; split <;> rfl

theorem playerGOCdb_seasons (db : DB) (n : String) (tid : Nat)
    (pos : Option String) (age : Option ℤ) (nat u : Option String) :
    (playerGOCdb db n tid pos age nat u).2.seasons = db.seasons := by
  unfold playerGOCdb; split <;> rfl

theorem applyPlayerUpdates_seasons (db : DB) (pl : Player)
    (pos nat : Option String) (age : Option ℤ) (u : Option String) :
    (applyPlayerUpdates db pl pos nat age u).seasons = db.seasons := by
  simp only [applyPlayerUpdates]
  split <;> rfl

theorem statsUpsertDb_seasons (db : DB) (pid sid : Nat) (v : StatsVals) :
    (statsUpsertDb db pid sid v).seasons = db.seasons := by
  unfold statsUpsertDb; split <;> rfl

theorem seasonGOCdb_fst_name (db : DB) (n : String) (sy ey : ℤ) :
    (seasonGOCdb db n sy ey).1.name = n := by
  unfold seasonGOCdb
  split
  · rename_i r heq
    have hb := List.find?_some heq
    exact eq_of_beq hb
  · rfl

theorem seasonGOCdb_fst_mem (db : DB) (n : String) (sy ey : ℤ) :
    (seasonGOCdb db n sy ey).1 ∈ (seasonGOCdb db n sy ey).2.seasons := by
  unfold seasonGOCdb
  split
  · rename_i r heq
    exact List.mem_of_find?_eq_some heq
  · exact List.mem_append_right _ (List.mem_singleton.mpr rfl)

theorem mem_updateFirst_of_find? (pred : α → Bool) (f : α → α) :
    ∀ (l : List α) (x : α), l.find? pred = some x →
      f x ∈ updateFirst pred f l := by
  intro l
  induction l with
  | nil => intro x hx; simp [List.find?] at hx
  | cons a t ih =>
    intro x hx
    rw [updateFirst]
    cases hp : pred a
    · rw [List.find?_cons_of_neg _ (by simp [hp])] at hx
      simp only [hp, Bool.false_eq_true, if_false]
      exact List.mem_cons_of_mem _ (ih x hx)
    · rw [List.find?_cons_of_pos _ hp] at hx
      cases hx
      simp only [hp, if_true]
      exact List.mem_cons_self _ _

theorem statsUpsertDb_mem (db : DB) (pid sid : Nat) (v : StatsVals) :
    ∃ r ∈ (statsUpsertDb db pid sid v).stats,
      r.player_id = pid ∧ r.season_id = sid ∧ r.vals = v := by
  unfold statsUpsertDb
  split
  · rename_i r0 heq
    rw [statsGetByPS] at heq
    refine ⟨{ r0 with vals := v }, mem_updateFirst_of_find? _ _ _ _ heq, ?_, ?_, rfl⟩
    · have hp := List.find?_some heq
      rw [Bool.and_eq_true] at hp
      exact eq_of_beq hp.1
    · have hp := List.find?_some heq
      rw [Bool.and_eq_true] at hp
      exact eq_of_beq hp.2
  · exact ⟨⟨db.nextStatsId, pid, sid, v⟩,
      List.mem_append_right _ (List.mem_singleton.mpr rfl), rfl, rfl, rfl⟩

/-- The season row and stats row produced by the season/player/upsert
chain of one valid payload. -/
theorem upsert_chain_season_row (db1 : DB) (sn : String) (sy ey : ℤ)
    (pn : String) (tid : Nat) (pos : Option String) (age : Option ℤ)
    (nat u : Option String) (v : StatsVals) :
    ∃ se ∈ (statsUpsertDb
        (applyPlayerUpdates
          (playerGOCdb (seasonGOCdb db1 sn sy ey).2 pn tid pos age nat u).2
          (playerGOCdb (seasonGOCdb db1 sn sy ey).2 pn tid pos age nat u).1
          pos nat age u)
        (playerGOCdb (seasonGOCdb db1 sn sy ey).2 pn tid pos age nat u).1.id
        (seasonGOCdb db1 sn sy ey).1.id v).seasons,
      se.name = sn ∧
      ∃ r ∈ (statsUpsertDb
        (applyPlayerUpdates
          (playerGOCdb (seasonGOCdb db1 sn sy ey).2 pn tid pos age nat u).2
          (playerGOCdb (seasonGOCdb db1 sn sy ey).2 pn tid pos age nat u).1
          pos nat age u)
        (playerGOCdb (seasonGOCdb db1 sn sy ey).2 pn tid pos age nat u).1.id
        (seasonGOCdb db1 sn sy ey).1.id v).stats, r.season_id = se.id := by
  refine ⟨(seasonGOCdb db1 sn sy ey).1, ?_, seasonGOCdb_fst_name db1 sn sy ey, ?_⟩
  · rw [statsUpsertDb_seasons, applyPlayerUpdates_seasons, playerGOCdb_seasons]
    exact seasonGOCdb_fst_mem db1 sn sy ey
  · obtain ⟨r, hmem, hp1, hp2, hp3⟩ := statsUpsertDb_mem
      (applyPlayerUpdates
        (playerGOCdb (seasonGOCdb db1 sn sy ey).2 pn tid pos age nat u).2
        (playerGOCdb (seasonGOCdb db1 sn sy ey).2 pn tid pos age nat u).1
        pos nat age u)
      (playerGOCdb (seasonGOCdb db1 sn sy ey).2 pn tid pos age nat u).1.id
      (seasonGOCdb db1 sn sy ey).1.id v
    exact ⟨r, hmem, hp2⟩

/-- The stats row written by `stepDB` for a valid payload references a
season row carrying the resolved season label. -/
theorem stepDB_season_row (y : ℤ) (p : Payload) (db : DB)
    (ht : ¬ normaliseString (pget p "team_name") = "")
    (hp : ¬ normaliseString (pget p "player_name") = "") :
    ∃ se ∈ (stepDB y p db).seasons,
      se.name = strOrDefault (normaliseString (pget p "season")) "2024-2025" ∧
      ∃ r ∈ (stepDB y p db).stats, r.season_id = se.id := by
  simp only [stepDB, if_neg ht, if_neg hp]
  exact upsert_chain_season_row _ _ _ _ _ _ _ _ _ _ _

/-! ## Claim theorems C1, C9, C10 -/

/-- A payload whose player name is whitespace-only (normalizes to blank)
but whose team name is valid. -/
def c1p : Payload :=
  [("team_name", .str "Arsenal"), ("season", .str "2024-2025"),
   ("player_name", .str "  ")]

/-- The accumulator at the start of a fault-free batch over the empty
database. -/
def c0acc : SaveAcc := ⟨⟨emptyDB, emptyDB, [], 0⟩, [], [], 0, 0, 0, 0⟩

/-- C1 counterexample: a payload with a blank player name and team name
"Arsenal" is counted as an error and produces no Player or PlayerStats
row — but the claim's "no entity (Team, Season, Player, or PlayerStats)
is created for it" is false: the Team and Season rows are created before
the player-name check runs, leaving orphan Team/Season rows. -/
theorem claim_c1_blank_name_counterexample :
    (savePlayerData 2026 [] emptyDB [c1p]).cErrors = 1 ∧
    (savePlayerData 2026 [] emptyDB [c1p]).sess.db.players = [] ∧
    (savePlayerData 2026 [] emptyDB [c1p]).sess.db.stats = [] ∧
    (savePlayerData 2026 [] emptyDB [c1p]).sess.db.teams ≠ [] ∧
    (savePlayerData 2026 [] emptyDB [c1p]).sess.db.seasons ≠ [] := by
  refine ⟨by decide, by decide, by decide, by decide, by decide⟩

/-- C1, amended: a payload whose player name normalizes to blank is
counted as an error and produces no Player or PlayerStats row (players
and stats tables are unchanged and `stats` is not counted); when the team
name also normalizes to blank the payload is rejected before any entity
is created.  (When only the player name is blank, Team and Season rows
may still be created before the rejection.) -/
theorem claim_c1_blank_name_amended (y : ℤ) (acc : SaveAcc) (p : Payload)
    (hf : acc.sess.faults = [])
    (hp : normaliseString (pget p "player_name") = "") :
    ((saveStep y acc p).cErrors = acc.cErrors + 1 ∧
     (saveStep y acc p).cStats = acc.cStats ∧
     (saveStep y acc p).sess.db.players = acc.sess.db.players ∧
     (saveStep y acc p).sess.db.stats = acc.sess.db.stats) ∧
    (normaliseString (pget p "team_name") = "" →
      saveStep y acc p = { acc with cErrors := acc.cErrors + 1 }) := by
  by_cases ht : normaliseString (pget p "team_name") = ""
  · constructor
    · simp [saveStep, tryProcess, ht]
    · intro _
      simp [saveStep, tryProcess, ht]
  · obtain ⟨hdb, herr, hst, hseen⟩ := saveStep_blank_player y acc p hf ht hp
    refine ⟨⟨herr, hst, ?_, ?_⟩, fun h => absurd h ht⟩
    · rw [hdb]
      simp [stepDB, ht, hp, seasonGOCdb_players, teamGOCdb_players]
    · rw [hdb]
      simp [stepDB, ht, hp, seasonGOCdb_stats, teamGOCdb_stats]

/-- Witness for C1's amended theorem: the blank-player payload over the
empty database. -/
theorem claim_c1_blank_name_amended_witness :
    (saveStep 2026 c0acc c1p).cErrors = c0acc.cErrors + 1 ∧
    (saveStep 2026 c0acc c1p).cStats = c0acc.cStats ∧
    (saveStep 2026 c0acc c1p).sess.db.players = c0acc.sess.db.players ∧
    (saveStep 2026 c0acc c1p).sess.db.stats = c0acc.sess.db.stats :=
  (claim_c1_blank_name_amended 2026 c0acc c1p (by rfl) (by decide)).1

/-- The scraper's season resolution (`fbref_scraper.py` line 440):
`seasons[0] if seasons else inferred_season or "2024-2025"`. -/
def seasonValue (seasons : List String) (inferred : Option String) : String :=
  match seasons with
  | s :: _ => s
  | [] =>
    match inferred with
    | some s => if s = "" then "2024-2025" else s
    | Option.none => "2024-2025"

/-- C9: a valid payload whose season field is absent or normalizes to
blank is not rejected (the error count is unchanged and `stats` is
counted); its stats row references a Season row named "2024-2025", the
same hard-coded default the scraper's season resolution falls back to
when no season list is given and none is inferred. -/
theorem claim_c9_blank_season (y : ℤ) (acc : SaveAcc) (p : Payload)
    (hf : acc.sess.faults = [])
    (ht : ¬ normaliseString (pget p "team_name") = "")
    (hp : ¬ normaliseString (pget p "player_name") = "")
    (hs : normaliseString (pget p "season") = "") :
    ((saveStep y acc p).cErrors = acc.cErrors ∧
     (saveStep y acc p).cStats = acc.cStats + 1 ∧
     ∃ se ∈ (saveStep y acc p).sess.db.seasons,
       se.name = "2024-2025" ∧
       ∃ r ∈ (saveStep y acc p).sess.db.stats, r.season_id = se.id) ∧
    seasonValue [] Option.none = "2024-2025" ∧
    seasonValue [] (some "") = "2024-2025" := by
  obtain ⟨hdb, hst, herr⟩ := saveStep_valid y acc p hf ht hp
  refine ⟨⟨herr, hst, ?_⟩, rfl, rfl⟩
  rw [hdb]
  have h := stepDB_season_row y p acc.sess.db ht hp
  rw [hs] at h
  simpa [strOrDefault] using h

/-- A valid payload with no season field at all. -/
def c9p : Payload :=
  [("team_name", .str "Arsenal"), ("player_name", .str "Bukayo Saka")]

/-- Witness for C9: a season-less payload over the empty database. -/
theorem claim_c9_blank_season_witness :
    ((saveStep 2026 c0acc c9p).cErrors = c0acc.cErrors ∧
     (saveStep 2026 c0acc c9p).cStats = c0acc.cStats + 1 ∧
     ∃ se ∈ (saveStep 2026 c0acc c9p).sess.db.seasons,
       se.name = "2024-2025" ∧
       ∃ r ∈ (saveStep 2026 c0acc c9p).sess.db.stats, r.season_id = se.id) ∧
    seasonValue [] Option.none = "2024-2025" ∧
    seasonValue [] (some "") = "2024-2025" :=
  claim_c9_blank_season 2026 c0acc c9p (by rfl) (by decide) (by decide) (by rfl)

/-- C10: every successfully processed valid payload increments the
returned `stats` count by exactly one, even when it repeats an earlier
payload of the same batch; concretely the batch `[cxP1, cxP1]` reports
`stats = 2` while writing a single PlayerStats row, and its `teams` and
`players` counts stay at the distinct-id value 1. -/
theorem claim_c10_stats_count (y : ℤ) (acc : SaveAcc) (p : Payload)
    (hf : acc.sess.faults = [])
    (ht : ¬ normaliseString (pget p "team_name") = "")
    (hp : ¬ normaliseString (pget p "player_name") = "") :
    (saveStep y acc p).cStats = acc.cStats + 1 ∧
    ((savePlayerData 2026 [] emptyDB [cxP1, cxP1]).cStats = 2 ∧
     (savePlayerData 2026 [] emptyDB [cxP1, cxP1]).sess.db.stats.length = 1 ∧
     (savePlayerData 2026 [] emptyDB [cxP1, cxP1]).cTeams = 1 ∧
     (savePlayerData 2026 [] emptyDB [cxP1, cxP1]).cPlayers = 1) :=
  ⟨(saveStep_valid y acc p hf ht hp).2.1, by decide, by decide, by decide, by decide⟩

/-- Witness for C10 at a concrete payload and start state. -/
theorem claim_c10_stats_count_witness :
    (saveStep 2026 c0acc cxP1).cStats = c0acc.cStats + 1 :=
  (claim_c10_stats_count 2026 c0acc cxP1 (by rfl) (by decide) (by decide)).1

/-! ## C3: idempotence machinery — generic list lemmas -/

theorem find?_append_some {l l2 : List α} {p : α → Bool} {x : α}
    (h : l.find? p = some x) : (l ++ l2).find? p = some x := by
  induction l with
  | nil => simp at h
  | cons a as ih =>
    simp only [List.cons_append, List.find?_cons] at h ⊢
    cases hpa : p a
    · simp only [hpa, cond_false] at h ⊢
      exact ih h
    · simp only [hpa, cond_true] at h ⊢
      exact h

theorem find?_append_sing {l : List α} {p : α → Bool} {x : α}
    (h : l.find? p = none) (hx : p x = true) :
    (l ++ [x]).find? p = some x := by
  induction l with
  | nil => simp [List.find?_cons, hx]
  | cons a as ih =>
    simp only [List.find?_cons] at h
    split at h
    · simp at h
    · rename_i hp
      simp only [List.cons_append, List.find?_cons, hp]
      exact ih h

theorem find?_append_not {l : List α} {p : α → Bool} {x : α}
    (hx : p x = false) : (l ++ [x]).find? p = l.find? p := by
  induction l with
  | nil => simp [List.find?_cons, hx]
  | cons a as ih =>
    simp only [List.cons_append, List.find?_cons]
    split
    · rfl
    · exact ih

theorem find?_map_eq (f : α → β) (P : β → Bool) (l : List α) :
    (l.map f).find? P = (l.find? (fun a => P (f a))).map f := by
  induction l with
  | nil => rfl
  | cons a as ih =>
    simp only [List.map_cons, List.find?_cons]
    split
    · rfl
    · exact ih

theorem updateFirst_map_eq {l : List α} {pred : α → Bool} {f : α → α}
    {g : α → β} {x0 : α} (hfind : l.find? pred = some x0)
    (h : g (f x0) = g x0) : (updateFirst pred f l).map g = l.map g := by
  induction l with
  | nil => simp at hfind
  | cons a as ih =>
    simp only [List.find?_cons] at hfind
    simp only [updateFirst]
    split
    · rename_i hp
      rw [hp] at hfind
      simp only [Option.some.injEq] at hfind
      subst hfind
      simp [h]
    · rename_i hp
      simp only [Bool.not_eq_true] at hp
      rw [hp] at hfind
      simp [ih hfind]

theorem updateFirst_find?_other {l : List α} {P Q : α → Bool} {f : α → α}
    (h : ∀ x, Q x = true → (P x = false ∧ P (f x) = false)) :
    (updateFirst Q f l).find? P = l.find? P := by
  induction l with
  | nil => rfl
  | cons a as ih =>
    simp only [updateFirst]
    split
    · rename_i hq
      obtain ⟨h1, h2⟩ := h a hq
      simp [List.find?_cons, h1, h2]
    · simp only [List.find?_cons]
      split
      · rfl
      · exact ih

theorem updateFirst_find?_self {l : List α} {P : α → Bool} {f : α → α}
    {x0 : α} (hfind : l.find? P = some x0) (hf : P (f x0) = true) :
    (updateFirst P f l).find? P = some (f x0) := by
  induction l with
  | nil => simp at hfind
  | cons a as ih =>
    simp only [List.find?_cons] at hfind
    simp only [updateFirst]
    split
    · rename_i hp
      rw [hp] at hfind
      simp only [Option.some.injEq] at hfind
      subst hfind
      simp [List.find?_cons, hf]
    · rename_i hp
      simp only [Bool.not_eq_true] at hp
      rw [hp] at hfind
      simp only [List.find?_cons, hp, cond_false]
      exact ih hfind

theorem updateFirst_eq_self {l : List α} {P : α → Bool} {f : α → α}
    (h : ∀ x, P x = true → f x = x) : updateFirst P f l = l := by
  induction l with
  | nil => rfl
  | cons a as ih =>
    simp only [updateFirst]
    split
    · rename_i hp
      rw [h a hp]
    · rw [ih]

theorem updateFirst_congr {l : List α} {P : α → Bool} {f g : α → α}
    {x0 : α} (hfind : l.find? P = some x0) (h : f x0 = g x0) :
    updateFirst P f l = updateFirst P g l := by
  induction l with
  | nil => rfl
  | cons a as ih =>
    simp only [List.find?_cons] at hfind
    simp only [updateFirst]
    split
    · rename_i hp
      rw [hp] at hfind
      simp only [Option.some.injEq] at hfind
      subst hfind
      rw [h]
    · rename_i hp
      simp only [Bool.not_eq_true] at hp
      rw [hp] at hfind
      rw [ih hfind]

theorem forall2_of_all_off {R C : α → α → Prop} {P : α → Bool}
    {l l2 : List α} (hR : List.Forall₂ R l l2)
    (hoff : ∀ a b, R a b → P a = false → C a b)
    (hall : ∀ x ∈ l, P x = false) : List.Forall₂ C l l2 := by
  induction hR with
  | nil => exact List.Forall₂.nil
  | cons hab hrest ih =>
    rename_i a b as bs
    exact List.Forall₂.cons (hoff a b hab (hall a (by simp)))
      (ih (fun x hx => hall x (by simp [hx])))

theorem nodup_pairwise_once {l : List α} {g : α → β} [DecidableEq β]
    (hnd : (l.map g).Nodup) (v : β) :
    List.Pairwise (fun a b => ¬((g a == v) = true ∧ (g b == v) = true)) l := by
  have h := (List.pairwise_map).mp hnd
  exact h.imp (fun hne hc => hne (by
    have h1 := eq_of_beq hc.1
    have h2 := eq_of_beq hc.2
    rw [h1, h2]))

theorem forall2_updateFirst {R C : α → α → Prop} {P : α → Bool} {f g : α → α}
    {l l2 : List α} (hR : List.Forall₂ R l l2)
    (hP : ∀ a b, R a b → P a = P b)
    (hfire : ∀ a b, R a b → P a = true → C (f a) (g b))
    (hoff : ∀ a b, R a b → P a = false → C a b)
    (hpair : List.Pairwise (fun a b => ¬(P a = true ∧ P b = true)) l) :
    List.Forall₂ C (updateFirst P f l) (updateFirst P g l2) := by
  induction hR with
  | nil => exact List.Forall₂.nil
  | cons hab hrest ih =>
    rename_i a b as bs
    simp only [updateFirst]
    rw [List.pairwise_cons] at hpair
    by_cases hp : P a = true
    · rw [if_pos hp, if_pos ((hP a b hab) ▸ hp)]
      refine List.Forall₂.cons (hfire a b hab hp) ?_
      refine forall2_of_all_off hrest hoff (fun x hx => ?_)
      have := hpair.1 x hx
      by_cases hq : P x = true
      · exact absurd ⟨hp, hq⟩ this
      · simpa using hq
    · rw [if_neg hp, if_neg (by rw [← hP a b hab]; exact hp)]
      exact List.Forall₂.cons (hoff a b hab (by simpa using hp)) (ih hpair.2)

theorem forall2_find? {R : α → α → Prop} {P : α → Bool} {l l2 : List α}
    (hR : List.Forall₂ R l l2) (hP : ∀ a b, R a b → P a = P b) :
    (∀ x, l.find? P = some x → ∃ y, l2.find? P = some y ∧ R x y) ∧
    (l.find? P = none → l2.find? P = none) := by
  induction hR with
  | nil => simp
  | cons hab hrest ih =>
    rename_i a b as bs
    constructor
    · intro x hx
      simp only [List.find?_cons] at hx ⊢
      by_cases hp : P a = true
      · have hpb : P b = true := by rw [← hP a b hab]; exact hp
        rw [hp] at hx
        simp only [cond_true, Option.some.injEq] at hx
        subst hx
        simp only [hpb, cond_true]
        exact ⟨b, rfl, hab⟩
      · simp only [Bool.not_eq_true] at hp
        have hpb : P b = false := by rw [← hP a b hab]; exact hp
        rw [hp] at hx
        simp only [cond_false] at hx
        simp only [hpb, cond_false]
        exact ih.1 x hx
    · intro hx
      simp only [List.find?_cons] at hx ⊢
      by_cases hp : P a = true
      · rw [hp] at hx
        simp at hx
      · simp only [Bool.not_eq_true] at hp
        have hpb : P b = false := by rw [← hP a b hab]; exact hp
        rw [hp] at hx
        simp only [cond_false] at hx
        simp only [hpb, cond_false]
        exact ih.2 hx

theorem forall2_updateFirst_left {C : α → α → Prop} {P : α → Bool} {f : α → α}
    {l : List α} {x0 : α} (hfind : l.find? P = some x0)
    (hfire : C (f x0) x0) (hrefl : ∀ a, C a a) :
    List.Forall₂ C (updateFirst P f l) l := by
  induction l with
  | nil => simp at hfind
  | cons a as ih =>
    simp only [List.find?_cons] at hfind
    simp only [updateFirst]
    split
    · rename_i hp
      rw [hp] at hfind
      simp only [Option.some.injEq] at hfind
      subst hfind
      exact List.Forall₂.cons hfire (List.forall₂_same.mpr (fun x _ => hrefl x))
    · rename_i hp
      simp only [Bool.not_eq_true] at hp
      rw [hp] at hfind
      exact List.Forall₂.cons (hrefl a) (ih hfind)

theorem find?_eq_none_of_all {l : List α} {p : α → Bool}
    (h : ∀ x ∈ l, p x = false) : l.find? p = none := by
  induction l with
  | nil => rfl
  | cons a as ih =>
    simp only [List.find?_cons, h a (by simp), cond_false]
    exact ih (fun x hx => h x (by simp [hx]))

theorem nodup_find?_eq {l : List α} {g : α → β} [DecidableEq β]
    (hnd : (l.map g).Nodup) {x : α} (hx : x ∈ l) :
    l.find? (fun q => g q == g x) = some x := by
  induction l with
  | nil => simp at hx
  | cons a as ih =>
    simp only [List.map_cons, List.nodup_cons] at hnd
    simp only [List.find?_cons]
    rcases List.mem_cons.mp hx with h | h
    · subst h
      simp
    · have hne : (g a == g x) = false := by
        simp only [beq_eq_false_iff_ne]
        intro hc
        exact hnd.1 (hc ▸ List.mem_map_of_mem g h)
      rw [hne]
      simpa using ih hnd.2 h

/-! ## C3: payload descriptors and structured step equations -/

/-- The normalized team name of a payload. -/
def pTeam (p : Payload) : String := normaliseString (pget p "team_name")

/-- The team-url argument of a payload. -/
def pTurl (p : Payload) : Option String := strOrNone (normaliseString (pget p "team_url"))

/-- The resolved season label of a payload. -/
def pSeasonN (p : Payload) : String :=
  strOrDefault (normaliseString (pget p "season")) "2024-2025"

/-- The normalized player name of a payload. -/
def pPlayer (p : Payload) : String := normaliseString (pget p "player_name")

/-- The position argument of a payload. -/
def pPos (p : Payload) : Option String := strOrNone (normaliseString (pget p "position"))

/-- The nationality argument of a payload. -/
def pNatl (p : Payload) : Option String := strOrNone (normaliseString (pget p "nationality"))

/-- The player-url argument of a payload. -/
def pPUrl (p : Payload) : Option String := strOrNone (normaliseString (pget p "player_url"))

/-- The coerced age argument of a payload. -/
def pAge (p : Payload) : Option ℤ := coerceInt (pget p "age") Option.none

/-- The identity-relevant projection of a player row: the columns
`save_player_data` never mutates. -/
def pKey (r : Player) : Nat × String × Nat := (r.id, r.name, r.team_id)

/-- The identity-relevant projection of a stats row. -/
def stKey (r : PlayerStats) : Nat × Nat × Nat := (r.id, r.player_id, r.season_id)

/-- The fold of the pure per-payload database step over a batch. -/
def foldDB (y : ℤ) (l : List Payload) (db : DB) : DB :=
  l.foldl (fun d p => stepDB y p d) db

theorem stepDB_blank_team {y : ℤ} {p : Payload} {db : DB}
    (h : pTeam p = "") : stepDB y p db = db := by
  simp [stepDB, pTeam] at h ⊢
  simp [h]

theorem stepDB_blank_player {y : ℤ} {p : Payload} {db : DB}
    (ht : ¬ pTeam p = "") (hp : pPlayer p = "") :
    stepDB y p db =
      (seasonGOCdb (teamGOCdb db (pTeam p) (pTurl p)).2 (pSeasonN p)
        (parseSeasonBounds y (pSeasonN p)).1
        (parseSeasonBounds y (pSeasonN p)).2).2 := by
  simp only [pTeam, pPlayer] at ht hp
  simp only [stepDB, if_neg ht, if_pos hp]
  rfl

theorem stepDB_valid_eq {y : ℤ} {p : Payload} {db : DB}
    (ht : ¬ pTeam p = "") (hp : ¬ pPlayer p = "") :
    stepDB y p db =
      statsUpsertDb
        (applyPlayerUpdates
          (playerGOCdb
            (seasonGOCdb (teamGOCdb db (pTeam p) (pTurl p)).2 (pSeasonN p)
              (parseSeasonBounds y (pSeasonN p)).1
              (parseSeasonBounds y (pSeasonN p)).2).2
            (pPlayer p) (teamGOCdb db (pTeam p) (pTurl p)).1.id
            (pPos p) (pAge p) (pNatl p) (pPUrl p)).2
          (playerGOCdb
            (seasonGOCdb (teamGOCdb db (pTeam p) (pTurl p)).2 (pSeasonN p)
              (parseSeasonBounds y (pSeasonN p)).1
              (parseSeasonBounds y (pSeasonN p)).2).2
            (pPlayer p) (teamGOCdb db (pTeam p) (pTurl p)).1.id
            (pPos p) (pAge p) (pNatl p) (pPUrl p)).1
          (pPos p) (pNatl p) (pAge p) (pPUrl p))
        (playerGOCdb
          (seasonGOCdb (teamGOCdb db (pTeam p) (pTurl p)).2 (pSeasonN p)
            (parseSeasonBounds y (pSeasonN p)).1
            (parseSeasonBounds y (pSeasonN p)).2).2
          (pPlayer p) (teamGOCdb db (pTeam p) (pTurl p)).1.id
          (pPos p) (pAge p) (pNatl p) (pPUrl p)).1.id
        (seasonGOCdb (teamGOCdb db (pTeam p) (pTurl p)).2 (pSeasonN p)
          (parseSeasonBounds y (pSeasonN p)).1
          (parseSeasonBounds y (pSeasonN p)).2).1.id
        (statsValuesOf p (teamGOCdb db (pTeam p) (pTurl p)).1.id) := by
  simp only [pTeam, pPlayer] at ht hp
  simp only [stepDB, if_neg ht, if_neg hp]
  rfl

theorem teamGOCdb_found {db : DB} {n : String} {u : Option String} {t : Team}
    (h : db.teams.find? (fun t => t.name == n) = some t) :
    teamGOCdb db n u = (t, db) := by
  unfold teamGOCdb
  rw [h]

theorem teamGOCdb_create {db : DB} {n : String} {u : Option String}
    (h : db.teams.find? (fun t => t.name == n) = none) :
    teamGOCdb db n u =
      (⟨db.nextTeamId, n, u⟩,
       { db with teams := db.teams ++ [⟨db.nextTeamId, n, u⟩],
                 nextTeamId := db.nextTeamId + 1 }) := by
  unfold teamGOCdb
  rw [h]

theorem seasonGOCdb_found {db : DB} {n : String} {sy ey : ℤ} {s : Season}
    (h : db.seasons.find? (fun r => r.name == n) = some s) :
    seasonGOCdb db n sy ey = (s, db) := by
  unfold seasonGOCdb
  rw [h]

theorem seasonGOCdb_create {db : DB} {n : String} {sy ey : ℤ}
    (h : db.seasons.find? (fun r => r.name == n) = none) :
    seasonGOCdb db n sy ey =
      (⟨db.nextSeasonId, n, sy, ey⟩,
       { db with seasons := db.seasons ++ [⟨db.nextSeasonId, n, sy, ey⟩],
                 nextSeasonId := db.nextSeasonId + 1 }) := by
  unfold seasonGOCdb
  rw [h]

theorem playerGOCdb_found {db : DB} {n : String} {tid : Nat}
    {pos : Option String} {age : Option ℤ} {nat u : Option String} {r : Player}
    (h : db.players.find? (fun r => r.name == n && r.team_id == tid) = some r) :
    playerGOCdb db n tid pos age nat u = (r, db) := by
  unfold playerGOCdb
  rw [h]

theorem playerGOCdb_create {db : DB} {n : String} {tid : Nat}
    {pos : Option String} {age : Option ℤ} {nat u : Option String}
    (h : db.players.find? (fun r => r.name == n && r.team_id == tid) = none) :
    playerGOCdb db n tid pos age nat u =
      (⟨db.nextPlayerId, n, tid, pos, age, nat, u⟩,
       { db with players := db.players ++ [⟨db.nextPlayerId, n, tid, pos, age, nat, u⟩],
                 nextPlayerId := db.nextPlayerId + 1 }) := by
  unfold playerGOCdb
  rw [h]

theorem statsUpsertDb_found {db : DB} {pid sid : Nat} {v : StatsVals} {w : PlayerStats}
    (h : statsGetByPS db pid sid = some w) :
    statsUpsertDb db pid sid v =
      { db with stats := updateFirst (fun r => r.player_id == pid && r.season_id == sid) (fun r => { r with vals := v }) db.stats } := by
  unfold statsUpsertDb
  rw [h]

theorem statsUpsertDb_create {db : DB} {pid sid : Nat} {v : StatsVals}
    (h : statsGetByPS db pid sid = none) :
    statsUpsertDb db pid sid v =
      { db with stats := db.stats ++ [⟨db.nextStatsId, pid, sid, v⟩],
                nextStatsId := db.nextStatsId + 1 } := by
  unfold statsUpsertDb
  rw [h]

/-! ## C3: remaining projection lemmas for the four db-level operations -/

theorem teamGOCdb_nextPlayerId (db : DB) (n : String) (u : Option String) :
    (teamGOCdb db n u).2.nextPlayerId = db.nextPlayerId := by
  unfold teamGOCdb; split <;> rfl

theorem teamGOCdb_nextSeasonId (db : DB) (n : String) (u : Option String) :
    (teamGOCdb db n u).2.nextSeasonId = db.nextSeasonId := by
  unfold teamGOCdb; split <;> rfl

theorem teamGOCdb_nextStatsId (db : DB) (n : String) (u : Option String) :
    (teamGOCdb db n u).2.nextStatsId = db.nextStatsId := by
  unfold teamGOCdb; split <;> rfl

theorem seasonGOCdb_teams (db : DB) (n : String) (sy ey : ℤ) :
    (seasonGOCdb db n sy ey).2.teams = db.teams := by
  unfold seasonGOCdb; split <;> rfl

theorem seasonGOCdb_nextTeamId (db : DB) (n : String) (sy ey : ℤ) :
    (seasonGOCdb db n sy ey).2.nextTeamId = db.nextTeamId := by
  unfold seasonGOCdb; split <;> rfl

theorem seasonGOCdb_nextPlayerId (db : DB) (n : String) (sy ey : ℤ) :
    (seasonGOCdb db n sy ey).2.nextPlayerId = db.nextPlayerId := by
  unfold seasonGOCdb; split <;> rfl

theorem seasonGOCdb_nextStatsId (db : DB) (n : String) (sy ey : ℤ) :
    (seasonGOCdb db n sy ey).2.nextStatsId = db.nextStatsId := by
  unfold seasonGOCdb; split <;> rfl

theorem playerGOCdb_teams (db : DB) (n : String) (tid : Nat)
    (pos : Option String) (age : Option ℤ) (nat u : Option String) :
    (playerGOCdb db n tid pos age nat u).2.teams = db.teams := by
  unfold playerGOCdb; split <;> rfl

theorem playerGOCdb_stats (db : DB) (n : String) (tid : Nat)
    (pos : Option String) (age : Option ℤ) (nat u : Option String) :
    (playerGOCdb db n tid pos age nat u).2.stats = db.stats := by
  unfold playerGOCdb; split <;> rfl

theorem playerGOCdb_nextTeamId (db : DB) (n : String) (tid : Nat)
    (pos : Option String) (age : Option ℤ) (nat u : Option String) :
    (playerGOCdb db n tid pos age nat u).2.nextTeamId = db.nextTeamId := by
  unfold playerGOCdb; split <;> rfl

theorem playerGOCdb_nextSeasonId (db : DB) (n : String) (tid : Nat)
    (pos : Option String) (age : Option ℤ) (nat u : Option String) :
    (playerGOCdb db n tid pos age nat u).2.nextSeasonId = db.nextSeasonId := by
  unfold playerGOCdb; split <;> rfl

theorem playerGOCdb_nextStatsId (db : DB) (n : String) (tid : Nat)
    (pos : Option String) (age : Option ℤ) (nat u : Option String) :
    (playerGOCdb db n tid pos age nat u).2.nextStatsId = db.nextStatsId := by
  unfold playerGOCdb; split <;> rfl

theorem applyPlayerUpdates_teams (db : DB) (pl : Player)
    (pos nat : Option String) (age : Option ℤ) (u : Option String) :
    (applyPlayerUpdates db pl pos nat age u).teams = db.teams := by
  simp only [applyPlayerUpdates]
  split <;> rfl

theorem applyPlayerUpdates_stats (db : DB) (pl : Player)
    (pos nat : Option String) (age : Option ℤ) (u : Option String) :
    (applyPlayerUpdates db pl pos nat age u).stats = db.stats := by
  simp only [applyPlayerUpdates]
  split <;> rfl

theorem applyPlayerUpdates_nextTeamId (db : DB) (pl : Player)
    (pos nat : Option String) (age : Option ℤ) (u : Option String) :
    (applyPlayerUpdates db pl pos nat age u).nextTeamId = db.nextTeamId := by
  simp only [applyPlayerUpdates]
  split <;> rfl

theorem applyPlayerUpdates_nextSeasonId (db : DB) (pl : Player)
    (pos nat : Option String) (age : Option ℤ) (u : Option String) :
    (applyPlayerUpdates db pl pos nat age u).nextSeasonId = db.nextSeasonId := by
  simp only [applyPlayerUpdates]
  split <;> rfl

theorem applyPlayerUpdates_nextPlayerId (db : DB) (pl : Player)
    (pos nat : Option String) (age : Option ℤ) (u : Option String) :
    (applyPlayerUpdates db pl pos nat age u).nextPlayerId = db.nextPlayerId := by
  simp only [applyPlayerUpdates]
  split <;> rfl

theorem applyPlayerUpdates_nextStatsId (db : DB) (pl : Player)
    (pos nat : Option String) (age : Option ℤ) (u : Option String) :
    (applyPlayerUpdates db pl pos nat age u).nextStatsId = db.nextStatsId := by
  simp only [applyPlayerUpdates]
  split <;> rfl

theorem statsUpsertDb_teams (db : DB) (pid sid : Nat) (v : StatsVals) :
    (statsUpsertDb db pid sid v).teams = db.teams := by
  unfold statsUpsertDb; split <;> rfl

theorem statsUpsertDb_players (db : DB) (pid sid : Nat) (v : StatsVals) :
    (statsUpsertDb db pid sid v).players = db.players := by
  unfold statsUpsertDb; split <;> rfl

theorem statsUpsertDb_nextTeamId (db : DB) (pid sid : Nat) (v : StatsVals) :
    (statsUpsertDb db pid sid v).nextTeamId = db.nextTeamId := by
  unfold statsUpsertDb; split <;> rfl

theorem statsUpsertDb_nextSeasonId (db : DB) (pid sid : Nat) (v : StatsVals) :
    (statsUpsertDb db pid sid v).nextSeasonId = db.nextSeasonId := by
  unfold statsUpsertDb; split <;> rfl

theorem statsUpsertDb_nextPlayerId (db : DB) (pid sid : Nat) (v : StatsVals) :
    (statsUpsertDb db pid sid v).nextPlayerId = db.nextPlayerId := by
  unfold statsUpsertDb; split <;> rfl

/-! ## C3: the net effect of the conditional player update -/

/-- The absorbed player row: every field whose scraped value is present is
overwritten, the rest keep their stored values.  This is the net effect of
the conditional `player_updates` block of `save_player_data`. -/
def absorbP (pl : Player) (pos nat : Option String) (age : Option ℤ)
    (url : Option String) : Player :=
  ⟨pl.id, pl.name, pl.team_id,
   if pos.isSome then pos else pl.position,
   if age.isSome then age else pl.age,
   if nat.isSome then nat else pl.nationality,
   if url.isSome then url else pl.fbref_url⟩

theorem absorbP_pKey (pl : Player) (pos nat : Option String) (age : Option ℤ)
    (url : Option String) : pKey (absorbP pl pos nat age url) = pKey pl := rfl

theorem overrideOpt_eq {α : Type _} [DecidableEq α] (a b : Option α) :
    (if b.isSome && decide (a ≠ b) then b else a) = if b.isSome then b else a := by
  cases b with
  | none => simp
  | some x =>
    by_cases h : a = some x
    · simp [h]
    · simp [h]

theorem absorbP_flagform (pl : Player) (pos nat : Option String)
    (age : Option ℤ) (url : Option String) :
    absorbP pl pos nat age url =
      ⟨pl.id, pl.name, pl.team_id,
       if pos.isSome && decide (pl.position ≠ pos) then pos else pl.position,
       if age.isSome && decide (pl.age ≠ age) then age else pl.age,
       if nat.isSome && decide (pl.nationality ≠ nat) then nat else pl.nationality,
       if url.isSome && decide (pl.fbref_url ≠ url) then url else pl.fbref_url⟩ := by
  unfold absorbP
  rw [← overrideOpt_eq pl.position pos, ← overrideOpt_eq pl.age age,
      ← overrideOpt_eq pl.nationality nat, ← overrideOpt_eq pl.fbref_url url]

theorem applyPlayerUpdates_absorb {db : DB} {pl : Player}
    {pos nat : Option String} {age : Option ℤ} {url : Option String}
    (h : db.players.find? (fun q => q.id == pl.id) = some pl) :
    applyPlayerUpdates db pl pos nat age url =
      { db with players := updateFirst (fun q => q.id == pl.id) (fun _ => absorbP pl pos nat age url) db.players } := by
  simp only [applyPlayerUpdates]
  split
  · refine congrArg (fun l => { db with players := l }) ?_
    refine updateFirst_congr h ?_
    rw [absorbP_flagform]
    by_cases h1 : (pos.isSome && decide (pl.position ≠ pos)) = true <;>
    by_cases h2 : (nat.isSome && decide (pl.nationality ≠ nat)) = true <;>
    by_cases h3 : (age.isSome && decide (pl.age ≠ age)) = true <;>
    by_cases h4 : (url.isSome && decide (pl.fbref_url ≠ url)) = true <;>
      simp only [h1, h2, h3, h4, if_true, if_false] <;> rfl
  · rename_i hc
    have hc0 : (pos.isSome && decide (pl.position ≠ pos) || nat.isSome && decide (pl.nationality ≠ nat) || age.isSome && decide (pl.age ≠ age) || url.isSome && decide (pl.fbref_url ≠ url)) = false := by
      simpa using hc
    simp only [Bool.or_eq_false_iff] at hc0
    obtain ⟨⟨⟨hc1, hc2⟩, hc3⟩, hc4⟩ := hc0
    have habs : absorbP pl pos nat age url = pl := by
      rw [absorbP_flagform]
      simp only [hc1, hc2, hc3, hc4, Bool.false_eq_true, if_false]
    have hcg : updateFirst (fun q => q.id == pl.id) (fun _ => absorbP pl pos nat age url) db.players = updateFirst (fun q => q.id == pl.id) (fun x => x) db.players :=
      updateFirst_congr h habs
    rw [hcg, updateFirst_eq_self (fun x _ => rfl)]

/-! ## C3: store well-formedness -/

/-- Store well-formedness: player ids are pairwise distinct and below the
autoincrement counter, and `(player_id, season_id)` pairs of stats rows are
pairwise distinct (the application-level uniqueness `save_player_data`
maintains through its get-or-create / upsert discipline). -/
def WFdb (db : DB) : Prop :=
  (db.players.map Player.id).Nodup ∧
  (∀ r ∈ db.players, r.id < db.nextPlayerId) ∧
  (db.stats.map (fun r => (r.player_id, r.season_id))).Nodup

theorem WFdb_of_eq {db db2 : DB} (h : WFdb db)
    (hp : db2.players = db.players) (hn : db2.nextPlayerId = db.nextPlayerId)
    (hs : db2.stats = db.stats) : WFdb db2 := by
  unfold WFdb at h ⊢
  rw [hp, hn, hs]
  exact h

theorem updateFirst_map_all {l : List α} {P : α → Bool} {f : α → α} {g : α → β}
    (h : ∀ x, g (f x) = g x) : (updateFirst P f l).map g = l.map g := by
  induction l with
  | nil => rfl
  | cons a as ih =>
    simp only [updateFirst]
    split
    · simp [h]
    · simp [ih]

theorem applyPlayerUpdates_map_pKey (db : DB) (pl : Player)
    (pos nat : Option String) (age : Option ℤ) (u : Option String) :
    (applyPlayerUpdates db pl pos nat age u).players.map pKey = db.players.map pKey := by
  simp only [applyPlayerUpdates]
  split
  · exact updateFirst_map_all (fun x => by
      simp only [pKey]
      split <;> split <;> split <;> split <;> rfl)
  · rfl

theorem bound_of_map_id_eq {l l2 : List Player} {n : Nat}
    (hmap : l2.map Player.id = l.map Player.id)
    (h : ∀ r ∈ l, r.id < n) : ∀ r ∈ l2, r.id < n := by
  intro r hr
  have hmem : r.id ∈ l2.map Player.id := List.mem_map_of_mem Player.id hr
  rw [hmap] at hmem
  obtain ⟨r2, hr2, he⟩ := List.mem_map.mp hmem
  exact he ▸ h r2 hr2

theorem map_id_of_map_pKey {l l2 : List Player}
    (hmap : l2.map pKey = l.map pKey) :
    l2.map Player.id = l.map Player.id := by
  have h1 : l2.map Player.id = (l2.map pKey).map Prod.fst := by
    rw [List.map_map]; rfl
  have h2 : l.map Player.id = (l.map pKey).map Prod.fst := by
    rw [List.map_map]; rfl
  rw [h1, h2, hmap]

theorem WFdb_teamGOCdb {db : DB} (h : WFdb db) (n : String) (u : Option String) :
    WFdb (teamGOCdb db n u).2 :=
  WFdb_of_eq h (teamGOCdb_players db n u) (teamGOCdb_nextPlayerId db n u)
    (teamGOCdb_stats db n u)

theorem WFdb_seasonGOCdb {db : DB} (h : WFdb db) (n : String) (sy ey : ℤ) :
    WFdb (seasonGOCdb db n sy ey).2 :=
  WFdb_of_eq h (seasonGOCdb_players db n sy ey) (seasonGOCdb_nextPlayerId db n sy ey)
    (seasonGOCdb_stats db n sy ey)

theorem WFdb_playerGOCdb {db : DB} (h : WFdb db) (n : String) (tid : Nat)
    (pos : Option String) (age : Option ℤ) (nat u : Option String) :
    WFdb (playerGOCdb db n tid pos age nat u).2 := by
  cases hf : db.players.find? (fun r => r.name == n && r.team_id == tid) with
  | some r => rw [playerGOCdb_found hf]; exact h
  | none =>
    rw [playerGOCdb_create hf]
    obtain ⟨h1, h2, h3⟩ := h
    refine ⟨?_, ?_, h3⟩
    · simp only [List.map_append, List.map_cons, List.map_nil]
      rw [List.nodup_append]
      refine ⟨h1, List.nodup_singleton _, ?_⟩
      intro x hx
      simp only [List.mem_singleton]
      obtain ⟨r2, hr2, he⟩ := List.mem_map.mp hx
      intro hc
      exact absurd (he ▸ hc ▸ h2 r2 hr2) (lt_irrefl _)
    · intro r hr
      rcases List.mem_append.mp hr with hr | hr
      · exact Nat.lt_succ_of_lt (h2 r hr)
      · simp only [List.mem_singleton] at hr
        subst hr
        exact Nat.lt_succ_self _

theorem WFdb_applyPlayerUpdates {db : DB} (h : WFdb db) (pl : Player)
    (pos nat : Option String) (age : Option ℤ) (u : Option String) :
    WFdb (applyPlayerUpdates db pl pos nat age u) := by
  obtain ⟨h1, h2, h3⟩ := h
  have hmap := map_id_of_map_pKey (applyPlayerUpdates_map_pKey db pl pos nat age u)
  refine ⟨hmap ▸ h1, ?_, ?_⟩
  · rw [applyPlayerUpdates_nextPlayerId]
    exact bound_of_map_id_eq hmap h2
  · rw [applyPlayerUpdates_stats]
    exact h3

theorem WFdb_statsUpsertDb {db : DB} (h : WFdb db) (pid sid : Nat) (v : StatsVals) :
    WFdb (statsUpsertDb db pid sid v) := by
  obtain ⟨h1, h2, h3⟩ := h
  cases hf : statsGetByPS db pid sid with
  | some w =>
    rw [statsUpsertDb_found hf]
    refine ⟨h1, h2, ?_⟩
    have hm : (updateFirst (fun r => r.player_id == pid && r.season_id == sid) (fun r => { r with vals := v }) db.stats).map (fun r => (r.player_id, r.season_id)) = db.stats.map (fun r => (r.player_id, r.season_id)) :=
      updateFirst_map_all (fun x => rfl)
    exact hm.symm ▸ h3
  | none =>
    rw [statsUpsertDb_create hf]
    refine ⟨h1, h2, ?_⟩
    simp only [List.map_append, List.map_cons, List.map_nil]
    rw [List.nodup_append]
    refine ⟨h3, List.nodup_singleton _, ?_⟩
    intro x hx
    simp only [List.mem_singleton]
    obtain ⟨r2, hr2, he⟩ := List.mem_map.mp hx
    intro hc
    have := List.find?_eq_none.mp hf r2 hr2
    apply this
    have he2 : (r2.player_id, r2.season_id) = (pid, sid) := by rw [he, hc]
    simp only [Prod.mk.injEq] at he2
    simp [statsGetByPS] at this ⊢
    exact ⟨he2.1, he2.2⟩

theorem WFdb_stepDB {db : DB} (h : WFdb db) (y : ℤ) (p : Payload) :
    WFdb (stepDB y p db) := by
  by_cases ht : pTeam p = ""
  · rw [stepDB_blank_team ht]; exact h
  · by_cases hp : pPlayer p = ""
    · rw [stepDB_blank_player ht hp]
      exact WFdb_seasonGOCdb (WFdb_teamGOCdb h _ _) _ _ _
    · rw [stepDB_valid_eq ht hp]
      exact WFdb_statsUpsertDb
        (WFdb_applyPlayerUpdates
          (WFdb_playerGOCdb (WFdb_seasonGOCdb (WFdb_teamGOCdb h _ _) _ _ _) _ _ _ _ _ _)
          _ _ _ _ _) _ _ _

theorem WFdb_foldDB {db : DB} (h : WFdb db) (y : ℤ) (l : List Payload) :
    WFdb (foldDB y l db) := by
  induction l generalizing db with
  | nil => exact h
  | cons p t ih => exact ih (WFdb_stepDB h y p)

theorem WF_find_id {db : DB} (h : WFdb db) {pl : Player} (hm : pl ∈ db.players) :
    db.players.find? (fun q => q.id == pl.id) = some pl :=
  nodup_find?_eq h.1 hm

/-! ## C3: monotone growth of the store along a batch -/

/-- One store grows from another: teams and seasons only gain appended
rows, player and stats rows keep their identity projections (appends
aside), and the autoincrement counters never decrease. -/
def Grow (a x : DB) : Prop :=
  (∃ u, x.teams = a.teams ++ u) ∧
  (∃ u, x.seasons = a.seasons ++ u) ∧
  (∃ u, x.players.map pKey = a.players.map pKey ++ u) ∧
  (∃ u, x.stats.map stKey = a.stats.map stKey ++ u) ∧
  a.nextTeamId ≤ x.nextTeamId ∧ a.nextSeasonId ≤ x.nextSeasonId ∧
  a.nextPlayerId ≤ x.nextPlayerId ∧ a.nextStatsId ≤ x.nextStatsId

theorem Grow_refl (a : DB) : Grow a a :=
  ⟨⟨[], by simp⟩, ⟨[], by simp⟩, ⟨[], by simp⟩, ⟨[], by simp⟩,
   le_refl _, le_refl _, le_refl _, le_refl _⟩

theorem Grow_trans {a x z : DB} (h1 : Grow a x) (h2 : Grow x z) : Grow a z := by
  obtain ⟨⟨u1, e1⟩, ⟨u2, e2⟩, ⟨u3, e3⟩, ⟨u4, e4⟩, n1, n2, n3, n4⟩ := h1
  obtain ⟨⟨v1, f1⟩, ⟨v2, f2⟩, ⟨v3, f3⟩, ⟨v4, f4⟩, m1, m2, m3, m4⟩ := h2
  exact ⟨⟨u1 ++ v1, by rw [f1, e1, List.append_assoc]⟩,
         ⟨u2 ++ v2, by rw [f2, e2, List.append_assoc]⟩,
         ⟨u3 ++ v3, by rw [f3, e3, List.append_assoc]⟩,
         ⟨u4 ++ v4, by rw [f4, e4, List.append_assoc]⟩,
         le_trans n1 m1, le_trans n2 m2, le_trans n3 m3, le_trans n4 m4⟩

theorem Grow_teamGOCdb (db : DB) (n : String) (u : Option String) :
    Grow db (teamGOCdb db n u).2 := by
  cases hf : db.teams.find? (fun t => t.name == n) with
  | some t => rw [teamGOCdb_found hf]; exact Grow_refl db
  | none =>
    rw [teamGOCdb_create hf]
    exact ⟨⟨[⟨db.nextTeamId, n, u⟩], rfl⟩, ⟨[], by simp⟩, ⟨[], by simp⟩,
           ⟨[], by simp⟩, Nat.le_succ _, le_refl _, le_refl _, le_refl _⟩

theorem Grow_seasonGOCdb (db : DB) (n : String) (sy ey : ℤ) :
    Grow db (seasonGOCdb db n sy ey).2 := by
  cases hf : db.seasons.find? (fun r => r.name == n) with
  | some s => rw [seasonGOCdb_found hf]; exact Grow_refl db
  | none =>
    rw [seasonGOCdb_create hf]
    exact ⟨⟨[], by simp⟩, ⟨[⟨db.nextSeasonId, n, sy, ey⟩], rfl⟩, ⟨[], by simp⟩,
           ⟨[], by simp⟩, le_refl _, Nat.le_succ _, le_refl _, le_refl _⟩

theorem Grow_playerGOCdb (db : DB) (n : String) (tid : Nat)
    (pos : Option String) (age : Option ℤ) (nat u : Option String) :
    Grow db (playerGOCdb db n tid pos age nat u).2 := by
  cases hf : db.players.find? (fun r => r.name == n && r.team_id == tid) with
  | some r => rw [playerGOCdb_found hf]; exact Grow_refl db
  | none =>
    rw [playerGOCdb_create hf]
    refine ⟨⟨[], by simp⟩, ⟨[], by simp⟩,
            ⟨[pKey ⟨db.nextPlayerId, n, tid, pos, age, nat, u⟩], by simp⟩,
            ⟨[], by simp⟩, le_refl _, le_refl _, Nat.le_succ _, le_refl _⟩

theorem Grow_applyPlayerUpdates (db : DB) (pl : Player)
    (pos nat : Option String) (age : Option ℤ) (u : Option String) :
    Grow db (applyPlayerUpdates db pl pos nat age u) := by
  refine ⟨⟨[], by simp [applyPlayerUpdates_teams]⟩,
          ⟨[], by simp [applyPlayerUpdates_seasons]⟩,
          ⟨[], by simp [applyPlayerUpdates_map_pKey]⟩,
          ⟨[], by simp [applyPlayerUpdates_stats]⟩,
          le_of_eq (applyPlayerUpdates_nextTeamId db pl pos nat age u).symm,
          le_of_eq (applyPlayerUpdates_nextSeasonId db pl pos nat age u).symm,
          le_of_eq (applyPlayerUpdates_nextPlayerId db pl pos nat age u).symm,
          le_of_eq (applyPlayerUpdates_nextStatsId db pl pos nat age u).symm⟩

theorem Grow_statsUpsertDb (db : DB) (pid sid : Nat) (v : StatsVals) :
    Grow db (statsUpsertDb db pid sid v) := by
  cases hf : statsGetByPS db pid sid with
  | some w =>
    rw [statsUpsertDb_found hf]
    refine ⟨⟨[], by simp⟩, ⟨[], by simp⟩, ⟨[], by simp⟩, ⟨[], ?_⟩,
            le_refl _, le_refl _, le_refl _, le_refl _⟩
    have hm : (updateFirst (fun r => r.player_id == pid && r.season_id == sid) (fun r => { r with vals := v }) db.stats).map stKey = db.stats.map stKey :=
      updateFirst_map_all (fun x => rfl)
    simp [hm]
  | none =>
    rw [statsUpsertDb_create hf]
    exact ⟨⟨[], by simp⟩, ⟨[], by simp⟩, ⟨[], by simp⟩,
           ⟨[stKey ⟨db.nextStatsId, pid, sid, v⟩], by simp⟩,
           le_refl _, le_refl _, le_refl _, Nat.le_succ _⟩

theorem Grow_stepDB (y : ℤ) (p : Payload) (db : DB) : Grow db (stepDB y p db) := by
  by_cases ht : pTeam p = ""
  · rw [stepDB_blank_team ht]; exact Grow_refl db
  · by_cases hp : pPlayer p = ""
    · rw [stepDB_blank_player ht hp]
      exact Grow_trans (Grow_teamGOCdb db _ _) (Grow_seasonGOCdb _ _ _ _)
    · rw [stepDB_valid_eq ht hp]
      exact Grow_trans (Grow_teamGOCdb db _ _)
        (Grow_trans (Grow_seasonGOCdb _ _ _ _)
          (Grow_trans (Grow_playerGOCdb _ _ _ _ _ _ _)
            (Grow_trans (Grow_applyPlayerUpdates _ _ _ _ _ _)
              (Grow_statsUpsertDb _ _ _ _))))

theorem Grow_foldDB (y : ℤ) (l : List Payload) (db : DB) :
    Grow db (foldDB y l db) := by
  induction l generalizing db with
  | nil => exact Grow_refl db
  | cons p t ih => exact Grow_trans (Grow_stepDB y p db) (ih (stepDB y p db))

theorem Grow_find_team {a x : DB} (h : Grow a x) {pr : Team → Bool} {t : Team}
    (hf : a.teams.find? pr = some t) : x.teams.find? pr = some t := by
  obtain ⟨⟨u, e⟩, -⟩ := h
  rw [e]
  exact find?_append_some hf

theorem Grow_find_season {a x : DB} (h : Grow a x) {pr : Season → Bool} {s : Season}
    (hf : a.seasons.find? pr = some s) : x.seasons.find? pr = some s := by
  obtain ⟨-, ⟨u, e⟩, -⟩ := h
  rw [e]
  exact find?_append_some hf

theorem find_key_transfer {l l2 : List α} {g : α → β} {P : β → Bool}
    {x : α} (hmap : ∃ u, l2.map g = l.map g ++ u)
    (hf : l.find? (fun r => P (g r)) = some x) :
    ∃ x2, l2.find? (fun r => P (g r)) = some x2 ∧ g x2 = g x := by
  obtain ⟨u, e⟩ := hmap
  have h1 : (l.map g).find? P = some (g x) := by
    rw [find?_map_eq]
    rw [hf]
    rfl
  have h2 : (l2.map g).find? P = some (g x) := by
    rw [e]
    exact find?_append_some h1
  rw [find?_map_eq] at h2
  cases hx2 : l2.find? (fun a => P (g a)) with
  | none => rw [hx2] at h2; simp at h2
  | some x2 =>
    rw [hx2] at h2
    have h3 : g x2 = g x := by
      have : some (g x2) = some (g x) := h2
      simpa using this
    exact ⟨x2, rfl, h3⟩

theorem find_key_none_transfer {l l2 : List α} {g : α → β} {P : β → Bool}
    (hmap : l2.map g = l.map g)
    (hf : l.find? (fun r => P (g r)) = none) :
    l2.find? (fun r => P (g r)) = none := by
  have h1 : (l.map g).find? P = none := by
    rw [find?_map_eq, hf]
    rfl
  have h2 : (l2.map g).find? P = none := by rw [hmap]; exact h1
  rw [find?_map_eq] at h2
  cases hx2 : l2.find? (fun a => P (g a)) with
  | none => rfl
  | some x2 => rw [hx2] at h2; simp at h2

/-! ## C3: resolution of a payload against a store and coverage -/

/-- The team row a payload resolves to (the lookup of `TeamRepository.get_or_create`). -/
def teamRes (db : DB) (p : Payload) : Option Team :=
  db.teams.find? (fun t => t.name == pTeam p)

/-- The team id the payload's step uses: the found row's id, else the id a
created row would get. -/
def resTeamId (db : DB) (p : Payload) : Nat :=
  match teamRes db p with
  | some t => t.id
  | Option.none => db.nextTeamId

/-- The season row a payload resolves to. -/
def seasonRes (db : DB) (p : Payload) : Option Season :=
  db.seasons.find? (fun r => r.name == pSeasonN p)

/-- The season id the payload's step uses. -/
def resSId (db : DB) (p : Payload) : Nat :=
  match seasonRes db p with
  | some s => s.id
  | Option.none => db.nextSeasonId

/-- The player row a payload resolves to. -/
def playerRes (db : DB) (p : Payload) : Option Player :=
  db.players.find? (fun r => r.name == pPlayer p && r.team_id == resTeamId db p)

/-- The player id the payload's step uses. -/
def resPId (db : DB) (p : Payload) : Nat :=
  match playerRes db p with
  | some r => r.id
  | Option.none => db.nextPlayerId

/-- The stats row a payload resolves to. -/
def statsRes (db : DB) (p : Payload) : Option PlayerStats :=
  statsGetByPS db (resPId db p) (resSId db p)

/-- All entities of a payload are already present in the store (true of
every processed payload at every later point of the batch). -/
def CoveredP (X : DB) (p : Payload) : Prop :=
  pTeam p ≠ "" →
    (teamRes X p).isSome = true ∧ (seasonRes X p).isSome = true ∧
    (pPlayer p ≠ "" →
      (playerRes X p).isSome = true ∧ (statsRes X p).isSome = true)

/-- Coverage of a whole remaining batch. -/
def Covered (X : DB) (t : List Payload) : Prop := ∀ q ∈ t, CoveredP X q

/-- Two stores with the same identity skeleton: equal teams and seasons,
player and stats rows with pairwise equal identity projections, and equal
counters.  Resolution only reads the skeleton. -/
def SkelEq (X Y : DB) : Prop :=
  X.teams = Y.teams ∧ X.seasons = Y.seasons ∧
  X.players.map pKey = Y.players.map pKey ∧
  X.stats.map stKey = Y.stats.map stKey ∧
  X.nextTeamId = Y.nextTeamId ∧ X.nextSeasonId = Y.nextSeasonId ∧
  X.nextPlayerId = Y.nextPlayerId ∧ X.nextStatsId = Y.nextStatsId

theorem SkelEq_refl (X : DB) : SkelEq X X :=
  ⟨rfl, rfl, rfl, rfl, rfl, rfl, rfl, rfl⟩

theorem SkelEq_symm {X Y : DB} (h : SkelEq X Y) : SkelEq Y X := by
  obtain ⟨h1, h2, h3, h4, h5, h6, h7, h8⟩ := h
  exact ⟨h1.symm, h2.symm, h3.symm, h4.symm, h5.symm, h6.symm, h7.symm, h8.symm⟩

theorem map_eq_find?_eq {l l2 : List α} {g : α → β} (hmap : l.map g = l2.map g)
    (P : β → Bool) :
    (l.find? (fun r => P (g r))).map g = (l2.find? (fun r => P (g r))).map g := by
  rw [← find?_map_eq, ← find?_map_eq, hmap]

theorem SkelEq_teamRes {X Y : DB} (h : SkelEq X Y) (p : Payload) :
    teamRes X p = teamRes Y p := by
  unfold teamRes
  rw [h.1]

theorem SkelEq_resTeamId {X Y : DB} (h : SkelEq X Y) (p : Payload) :
    resTeamId X p = resTeamId Y p := by
  unfold resTeamId
  rw [SkelEq_teamRes h p, h.2.2.2.2.1]

theorem SkelEq_seasonRes {X Y : DB} (h : SkelEq X Y) (p : Payload) :
    seasonRes X p = seasonRes Y p := by
  unfold seasonRes
  rw [h.2.1]

theorem SkelEq_resSId {X Y : DB} (h : SkelEq X Y) (p : Payload) :
    resSId X p = resSId Y p := by
  unfold resSId
  rw [SkelEq_seasonRes h p, h.2.2.2.2.2.1]

theorem SkelEq_playerRes {X Y : DB} (h : SkelEq X Y) (p : Payload) :
    (playerRes X p).map pKey = (playerRes Y p).map pKey := by
  unfold playerRes
  rw [SkelEq_resTeamId h p]
  exact map_eq_find?_eq h.2.2.1
    (fun k => k.2.1 == pPlayer p && k.2.2 == resTeamId Y p)

theorem SkelEq_resPId {X Y : DB} (h : SkelEq X Y) (p : Payload) :
    resPId X p = resPId Y p := by
  unfold resPId
  have hm := SkelEq_playerRes h p
  cases hx : playerRes X p with
  | none =>
    rw [hx] at hm
    cases hy : playerRes Y p with
    | none => exact h.2.2.2.2.2.2.1
    | some r => rw [hy] at hm; simp at hm
  | some r =>
    rw [hx] at hm
    cases hy : playerRes Y p with
    | none => rw [hy] at hm; simp at hm
    | some r2 =>
      rw [hy] at hm
      have : pKey r = pKey r2 := by
        have h2 : some (pKey r) = some (pKey r2) := hm
        simpa using h2
      have : r.id = r2.id := congrArg (fun k => k.1) this
      exact this

theorem SkelEq_statsRes {X Y : DB} (h : SkelEq X Y) (p : Payload) :
    (statsRes X p).map stKey = (statsRes Y p).map stKey := by
  unfold statsRes statsGetByPS
  rw [SkelEq_resPId h p, SkelEq_resSId h p]
  exact map_eq_find?_eq h.2.2.2.1
    (fun k => k.2.1 == resPId Y p && k.2.2 == resSId Y p)

theorem isSome_of_map_eq {o o2 : Option α} {g : α → β}
    (h : o.map g = o2.map g) : o.isSome = o2.isSome := by
  cases o <;> cases o2 <;> simp_all

theorem SkelEq_CoveredP {X Y : DB} (h : SkelEq X Y) {p : Payload}
    (hc : CoveredP X p) : CoveredP Y p := by
  intro ht
  obtain ⟨h1, h2, h3⟩ := hc ht
  refine ⟨by rw [← SkelEq_teamRes h p]; exact h1,
          by rw [← SkelEq_seasonRes h p]; exact h2, ?_⟩
  intro hp
  obtain ⟨h4, h5⟩ := h3 hp
  exact ⟨by rw [← isSome_of_map_eq (SkelEq_playerRes h p)]; exact h4,
         by rw [← isSome_of_map_eq (SkelEq_statsRes h p)]; exact h5⟩

theorem SkelEq_Covered {X Y : DB} (h : SkelEq X Y) {t : List Payload}
    (hc : Covered X t) : Covered Y t :=
  fun q hq => SkelEq_CoveredP h (hc q hq)

/-! ## C3: self-presence after a step, and coverage of a batch -/

theorem tGOC_self (db : DB) (n : String) (u : Option String) :
    (teamGOCdb db n u).2.teams.find? (fun t => t.name == n) =
      some (teamGOCdb db n u).1 := by
  cases hf : db.teams.find? (fun t => t.name == n) with
  | some t => rw [teamGOCdb_found hf]; exact hf
  | none =>
    rw [teamGOCdb_create hf]
    exact find?_append_sing hf (by simp)

theorem sGOC_self (db : DB) (n : String) (sy ey : ℤ) :
    (seasonGOCdb db n sy ey).2.seasons.find? (fun r => r.name == n) =
      some (seasonGOCdb db n sy ey).1 := by
  cases hf : db.seasons.find? (fun r => r.name == n) with
  | some s => rw [seasonGOCdb_found hf]; exact hf
  | none =>
    rw [seasonGOCdb_create hf]
    exact find?_append_sing hf (by simp)

theorem plGOC_self (db : DB) (n : String) (tid : Nat)
    (pos : Option String) (age : Option ℤ) (nat u : Option String) :
    (playerGOCdb db n tid pos age nat u).2.players.find?
        (fun r => r.name == n && r.team_id == tid) =
      some (playerGOCdb db n tid pos age nat u).1 := by
  cases hf : db.players.find? (fun r => r.name == n && r.team_id == tid) with
  | some r => rw [playerGOCdb_found hf]; exact hf
  | none =>
    rw [playerGOCdb_create hf]
    exact find?_append_sing hf (by simp)

theorem statsUpsertDb_self (db : DB) (pid sid : Nat) (v : StatsVals) :
    ∃ w, statsGetByPS (statsUpsertDb db pid sid v) pid sid = some w ∧
      w.vals = v := by
  cases hf : statsGetByPS db pid sid with
  | some w0 =>
    rw [statsUpsertDb_found hf]
    have hf' : db.stats.find? (fun r => r.player_id == pid && r.season_id == sid) = some w0 := hf
    have hp : (fun (r : PlayerStats) => r.player_id == pid && r.season_id == sid) { w0 with vals := v } = true := by
      have := List.find?_some hf'
      simpa using this
    exact ⟨{ w0 with vals := v },
           updateFirst_find?_self hf' hp, rfl⟩
  | none =>
    rw [statsUpsertDb_create hf]
    have hf' : db.stats.find? (fun r => r.player_id == pid && r.season_id == sid) = none := hf
    exact ⟨⟨db.nextStatsId, pid, sid, v⟩,
           find?_append_sing hf' (by simp), rfl⟩

theorem CoveredP_self (y : ℤ) (p : Payload) (db : DB) :
    CoveredP (stepDB y p db) p := by
  intro ht
  by_cases hp : pPlayer p = ""
  · rw [stepDB_blank_player ht hp]
    set tr := teamGOCdb db (pTeam p) (pTurl p) with htr
    set sr := seasonGOCdb tr.2 (pSeasonN p) (parseSeasonBounds y (pSeasonN p)).1 (parseSeasonBounds y (pSeasonN p)).2 with hsr
    refine ⟨?_, ?_, fun hc => absurd hp hc⟩
    · have h1 : sr.2.teams = tr.2.teams := by rw [hsr, seasonGOCdb_teams]
      unfold teamRes
      rw [h1, htr, tGOC_self]
      rfl
    · unfold seasonRes
      rw [hsr, sGOC_self]
      rfl
  · rw [stepDB_valid_eq ht hp]
    set tr := teamGOCdb db (pTeam p) (pTurl p) with htr
    set sr := seasonGOCdb tr.2 (pSeasonN p) (parseSeasonBounds y (pSeasonN p)).1 (parseSeasonBounds y (pSeasonN p)).2 with hsr
    set pr := playerGOCdb sr.2 (pPlayer p) tr.1.id (pPos p) (pAge p) (pNatl p) (pPUrl p) with hpr
    set ap := applyPlayerUpdates pr.2 pr.1 (pPos p) (pNatl p) (pAge p) (pPUrl p) with hap
    set F := statsUpsertDb ap pr.1.id sr.1.id (statsValuesOf p tr.1.id) with hF
    have hteams : F.teams = tr.2.teams := by
      rw [hF, statsUpsertDb_teams, hap, applyPlayerUpdates_teams, hpr,
          playerGOCdb_teams, hsr, seasonGOCdb_teams]
    have hTfind : teamRes F p = some tr.1 := by
      unfold teamRes
      rw [hteams, htr, tGOC_self]
    have hrt : resTeamId F p = tr.1.id := by
      unfold resTeamId
      rw [hTfind]
    have hseasons : F.seasons = sr.2.seasons := by
      rw [hF, statsUpsertDb_seasons, hap, applyPlayerUpdates_seasons, hpr,
          playerGOCdb_seasons]
    have hSfind : seasonRes F p = some sr.1 := by
      unfold seasonRes
      rw [hseasons, hsr, sGOC_self]
    have hrs : resSId F p = sr.1.id := by
      unfold resSId
      rw [hSfind]
    have hpmap : F.players.map pKey = pr.2.players.map pKey := by
      rw [hF, statsUpsertDb_players, hap, applyPlayerUpdates_map_pKey]
    have hPfind : (playerRes F p).map pKey = some (pKey pr.1) := by
      unfold playerRes
      simp only [hrt]
      have h2 : (F.players.find? (fun r => r.name == pPlayer p && r.team_id == tr.1.id)).map pKey = (pr.2.players.find? (fun r => r.name == pPlayer p && r.team_id == tr.1.id)).map pKey :=
        map_eq_find?_eq hpmap (fun k => k.2.1 == pPlayer p && k.2.2 == tr.1.id)
      rw [h2, hpr, plGOC_self]
      rfl
    have hrp : resPId F p = pr.1.id := by
      unfold resPId
      cases hx : playerRes F p with
      | none => rw [hx] at hPfind; simp at hPfind
      | some r =>
        rw [hx] at hPfind
        have : pKey r = pKey pr.1 := by
          have h2 : some (pKey r) = some (pKey pr.1) := hPfind
          simpa using h2
        exact congrArg (fun k => k.1) this
    refine ⟨by rw [hTfind]; rfl, by rw [hSfind]; rfl, fun hc => ?_⟩
    constructor
    · cases hx : playerRes F p with
      | none => rw [hx] at hPfind; simp at hPfind
      | some r => rfl
    · unfold statsRes
      rw [hrp, hrs]
      obtain ⟨w, hw, -⟩ := statsUpsertDb_self ap pr.1.id sr.1.id (statsValuesOf p tr.1.id)
      rw [hF, hw]
      rfl

theorem Grow_teamRes {a x : DB} (hG : Grow a x) {p : Payload} {t : Team}
    (h : teamRes a p = some t) : teamRes x p = some t :=
  Grow_find_team hG h

theorem Grow_resTeamId {a x : DB} (hG : Grow a x) {p : Payload}
    (h : (teamRes a p).isSome = true) :
    teamRes x p = teamRes a p ∧ resTeamId x p = resTeamId a p := by
  obtain ⟨t, ht⟩ := Option.isSome_iff_exists.mp h
  have h2 : teamRes x p = some t := Grow_teamRes hG ht
  refine ⟨by rw [h2, ht], ?_⟩
  unfold resTeamId
  rw [h2, ht]

theorem Grow_seasonRes {a x : DB} (hG : Grow a x) {p : Payload} {s : Season}
    (h : seasonRes a p = some s) : seasonRes x p = some s :=
  Grow_find_season hG h

theorem Grow_resSId {a x : DB} (hG : Grow a x) {p : Payload}
    (h : (seasonRes a p).isSome = true) :
    seasonRes x p = seasonRes a p ∧ resSId x p = resSId a p := by
  obtain ⟨s, hs⟩ := Option.isSome_iff_exists.mp h
  have h2 : seasonRes x p = some s := Grow_seasonRes hG hs
  refine ⟨by rw [h2, hs], ?_⟩
  unfold resSId
  rw [h2, hs]

theorem Grow_playerRes {a x : DB} (hG : Grow a x) {p : Payload}
    (hT : (teamRes a p).isSome = true) {r : Player}
    (h : playerRes a p = some r) :
    ∃ r2, playerRes x p = some r2 ∧ pKey r2 = pKey r ∧
      resPId x p = resPId a p := by
  have hrt := (Grow_resTeamId hG hT).2
  have hmap : ∃ u, x.players.map pKey = a.players.map pKey ++ u := hG.2.2.1
  obtain ⟨r2, hfind2, hkey⟩ :=
    find_key_transfer (g := pKey) hmap (x := r)
      (P := fun k => k.2.1 == pPlayer p && k.2.2 == resTeamId a p) h
  have hres2 : playerRes x p = some r2 := by
    unfold playerRes
    simp only [hrt]
    exact hfind2
  refine ⟨r2, hres2, hkey, ?_⟩
  unfold resPId
  rw [hres2, h]
  exact congrArg (fun k => k.1) hkey

theorem Grow_CoveredP {a x : DB} (hG : Grow a x) {p : Payload}
    (h : CoveredP a p) : CoveredP x p := by
  intro ht
  obtain ⟨h1, h2, h3⟩ := h ht
  obtain ⟨t, ht1⟩ := Option.isSome_iff_exists.mp h1
  obtain ⟨s, hs1⟩ := Option.isSome_iff_exists.mp h2
  refine ⟨by rw [Grow_teamRes hG ht1]; rfl, by rw [Grow_seasonRes hG hs1]; rfl, ?_⟩
  intro hp
  obtain ⟨h4, h5⟩ := h3 hp
  obtain ⟨r, hr1⟩ := Option.isSome_iff_exists.mp h4
  obtain ⟨r2, hres2, hkey, hrp⟩ := Grow_playerRes hG h1 hr1
  refine ⟨by rw [hres2]; rfl, ?_⟩
  obtain ⟨w, hw1⟩ := Option.isSome_iff_exists.mp h5
  have hrs := (Grow_resSId hG h2).2
  have hw1' : a.stats.find? (fun k => k.player_id == resPId a p && k.season_id == resSId a p) = some w := hw1
  obtain ⟨w2, hw2, hwkey⟩ :=
    find_key_transfer (g := stKey) hG.2.2.2.1 (x := w)
      (P := fun k => k.2.1 == resPId a p && k.2.2 == resSId a p) hw1'
  have : statsRes x p = some w2 := by
    unfold statsRes statsGetByPS
    simp only [hrp, hrs]
    exact hw2
  rw [this]
  rfl

theorem Covered_foldDB (y : ℤ) (t : List Payload) (s : DB) :
    Covered (foldDB y t s) t := by
  induction t generalizing s with
  | nil => intro q hq; simp at hq
  | cons q t2 ih =>
    intro q2 hq2
    have hfold : foldDB y (q :: t2) s = foldDB y t2 (stepDB y q s) := rfl
    rcases List.mem_cons.mp hq2 with h | h
    · subst h
      rw [hfold]
      exact Grow_CoveredP (Grow_foldDB y t2 (stepDB y q2 s)) (CoveredP_self y q2 s)
    · rw [hfold]
      exact ih (stepDB y q s) q2 h

/-! ## C3: the ids a step uses are the resolved ids -/

theorem tGOC_fst_id (db : DB) (q : Payload) :
    (teamGOCdb db (pTeam q) (pTurl q)).1.id = resTeamId db q := by
  unfold resTeamId teamRes
  cases hf : db.teams.find? (fun t => t.name == pTeam q) with
  | some t => rw [teamGOCdb_found hf]
  | none => rw [teamGOCdb_create hf]

theorem sGOC_fst_id {db db2 : DB} (h1 : db2.seasons = db.seasons)
    (h2 : db2.nextSeasonId = db.nextSeasonId) (q : Payload) (sy ey : ℤ) :
    (seasonGOCdb db2 (pSeasonN q) sy ey).1.id = resSId db q := by
  unfold resSId seasonRes
  rw [← h1]
  cases hf : db2.seasons.find? (fun r => r.name == pSeasonN q) with
  | some s => rw [seasonGOCdb_found hf]
  | none => rw [seasonGOCdb_create hf]; exact h2

theorem plGOC_fst_id {db db2 : DB} (h1 : db2.players = db.players)
    (h2 : db2.nextPlayerId = db.nextPlayerId) (q : Payload) {tid : Nat}
    (h3 : tid = resTeamId db q) (pos : Option String) (age : Option ℤ)
    (nat u : Option String) :
    (playerGOCdb db2 (pPlayer q) tid pos age nat u).1.id = resPId db q := by
  unfold resPId playerRes
  rw [← h1, ← h3]
  cases hf : db2.players.find? (fun r => r.name == pPlayer q && r.team_id == tid) with
  | some r => rw [playerGOCdb_found hf]
  | none => rw [playerGOCdb_create hf]; exact h2

/-! ## C3: frame lemma — a step leaves untargeted player fields alone -/

theorem stepDB_player_frame {α : Type _} (y : ℤ) (q : Payload) {db : DB}
    (hWF : WFdb db) {k : Nat} (hk : k < db.nextPlayerId) (fsel : Player → α)
    (hsafe : pTeam q ≠ "" → pPlayer q ≠ "" → resPId db q = k →
      ∀ pl, fsel (absorbP pl (pPos q) (pNatl q) (pAge q) (pPUrl q)) = fsel pl) :
    ((stepDB y q db).players.find? (fun r => r.id == k)).map fsel =
      (db.players.find? (fun r => r.id == k)).map fsel := by
  by_cases ht : pTeam q = ""
  · rw [stepDB_blank_team ht]
  · by_cases hp : pPlayer q = ""
    · rw [stepDB_blank_player ht hp, seasonGOCdb_players, teamGOCdb_players]
    · rw [stepDB_valid_eq ht hp]
      set tr := teamGOCdb db (pTeam q) (pTurl q) with htr
      set sr := seasonGOCdb tr.2 (pSeasonN q) (parseSeasonBounds y (pSeasonN q)).1 (parseSeasonBounds y (pSeasonN q)).2 with hsr
      set pr := playerGOCdb sr.2 (pPlayer q) tr.1.id (pPos q) (pAge q) (pNatl q) (pPUrl q) with hpr
      set ap := applyPlayerUpdates pr.2 pr.1 (pPos q) (pNatl q) (pAge q) (pPUrl q) with hap
      set F := statsUpsertDb ap pr.1.id sr.1.id (statsValuesOf q tr.1.id) with hF
      have hply : sr.2.players = db.players := by
        rw [hsr, seasonGOCdb_players, htr, teamGOCdb_players]
      have hnxt : sr.2.nextPlayerId = db.nextPlayerId := by
        rw [hsr, seasonGOCdb_nextPlayerId, htr, teamGOCdb_nextPlayerId]
      have htid : tr.1.id = resTeamId db q := by rw [htr]; exact tGOC_fst_id db q
      have hWF2 : WFdb sr.2 := WFdb_seasonGOCdb (WFdb_teamGOCdb hWF _ _) _ _ _
      have hFpl : F.players = ap.players := by rw [hF, statsUpsertDb_players]
      rw [hFpl]
      cases hf : sr.2.players.find? (fun r => r.name == pPlayer q && r.team_id == tr.1.id) with
      | some r =>
        have hpr2 : pr = (r, sr.2) := by rw [hpr]; exact playerGOCdb_found hf
        have hf2 : db.players.find? (fun r => r.name == pPlayer q && r.team_id == resTeamId db q) = some r := by
          rw [← hply, ← htid]; exact hf
        have hrid : resPId db q = r.id := by
          unfold resPId playerRes
          rw [hf2]
        have hmem : r ∈ sr.2.players := List.mem_of_find?_eq_some hf
        have hfid : sr.2.players.find? (fun x => x.id == r.id) = some r :=
          WF_find_id hWF2 hmem
        have hap2 : ap = { pr.2 with players := updateFirst (fun x => x.id == pr.1.id) (fun _ => absorbP pr.1 (pPos q) (pNatl q) (pAge q) (pPUrl q)) pr.2.players } := by
          rw [hap]
          refine applyPlayerUpdates_absorb ?_
          rw [hpr2]
          exact hfid
        rw [hap2]
        simp only [hpr2]
        by_cases hrk : r.id = k
        · have hkeep := hsafe ht hp (by rw [hrid, hrk])
          have hfidk : sr.2.players.find? (fun x => x.id == k) = some r := by
            rw [← hrk]; exact hfid
          have habk : ((fun (x : Player) => x.id == k) (absorbP r (pPos q) (pNatl q) (pAge q) (pPUrl q))) = true := by
            show (r.id == k) = true
            rw [hrk]
            exact beq_self_eq_true k
          have hup := updateFirst_find?_self (f := fun _ => absorbP r (pPos q) (pNatl q) (pAge q) (pPUrl q)) hfidk habk
          simp only [hrk]
          rw [hup, ← hply, hfidk]
          simp [hkeep r]
        · have hother : (updateFirst (fun x => x.id == r.id) (fun _ => absorbP r (pPos q) (pNatl q) (pAge q) (pPUrl q)) sr.2.players).find? (fun x => x.id == k) = sr.2.players.find? (fun x => x.id == k) := by
            refine updateFirst_find?_other (fun x hx => ?_)
            have hxr : x.id = r.id := by simpa using hx
            constructor
            · simp [hxr, hrk]
            · show ((absorbP r (pPos q) (pNatl q) (pAge q) (pPUrl q)).id == k) = false
              simp [absorbP, hrk]
          rw [hother, hply]
      | none =>
        have hpr2 : pr = (⟨sr.2.nextPlayerId, pPlayer q, tr.1.id, pPos q, pAge q, pNatl q, pPUrl q⟩, { sr.2 with players := sr.2.players ++ [⟨sr.2.nextPlayerId, pPlayer q, tr.1.id, pPos q, pAge q, pNatl q, pPUrl q⟩], nextPlayerId := sr.2.nextPlayerId + 1 }) := by
          rw [hpr]; exact playerGOCdb_create hf
        have hknew : k ≠ sr.2.nextPlayerId := by
          rw [hnxt]
          exact Nat.ne_of_lt hk
        have hfresh : ∀ x ∈ sr.2.players, (x.id == sr.2.nextPlayerId) = false := by
          intro x hx
          simp only [beq_eq_false_iff_ne]
          exact Nat.ne_of_lt (hWF2.2.1 x hx)
        have hfid : (sr.2.players ++ [(⟨sr.2.nextPlayerId, pPlayer q, tr.1.id, pPos q, pAge q, pNatl q, pPUrl q⟩ : Player)]).find? (fun x => x.id == sr.2.nextPlayerId) = some ⟨sr.2.nextPlayerId, pPlayer q, tr.1.id, pPos q, pAge q, pNatl q, pPUrl q⟩ := by
          refine find?_append_sing (find?_eq_none_of_all hfresh) ?_
          exact beq_self_eq_true _
        have hap2 : ap = { pr.2 with players := updateFirst (fun x => x.id == pr.1.id) (fun _ => absorbP pr.1 (pPos q) (pNatl q) (pAge q) (pPUrl q)) pr.2.players } := by
          rw [hap]
          refine applyPlayerUpdates_absorb ?_
          rw [hpr2]
          exact hfid
        rw [hap2]
        simp only [hpr2]
        have hother : (updateFirst (fun x => x.id == sr.2.nextPlayerId) (fun _ => absorbP ⟨sr.2.nextPlayerId, pPlayer q, tr.1.id, pPos q, pAge q, pNatl q, pPUrl q⟩ (pPos q) (pNatl q) (pAge q) (pPUrl q)) (sr.2.players ++ [⟨sr.2.nextPlayerId, pPlayer q, tr.1.id, pPos q, pAge q, pNatl q, pPUrl q⟩])).find? (fun x => x.id == k) = (sr.2.players ++ [(⟨sr.2.nextPlayerId, pPlayer q, tr.1.id, pPos q, pAge q, pNatl q, pPUrl q⟩ : Player)]).find? (fun x => x.id == k) := by
          refine updateFirst_find?_other (fun x hx => ?_)
          have hxr : x.id = sr.2.nextPlayerId := by simpa using hx
          constructor
          · simp [hxr]
            exact fun hc => hknew hc.symm
          · show ((absorbP _ (pPos q) (pNatl q) (pAge q) (pPUrl q)).id == k) = false
            simp [absorbP]
            exact fun hc => hknew hc.symm
        rw [hother]
        have happ : (sr.2.players ++ [(⟨sr.2.nextPlayerId, pPlayer q, tr.1.id, pPos q, pAge q, pNatl q, pPUrl q⟩ : Player)]).find? (fun x => x.id == k) = sr.2.players.find? (fun x => x.id == k) := by
          refine find?_append_not ?_
          simp
          exact fun hc => hknew hc.symm
        rw [happ, hply]

/-! ## C3: frame lemma — a step leaves untargeted stats rows alone -/

theorem stepDB_stats_frame (y : ℤ) (q : Payload) {db : DB} {pid sid : Nat}
    (hnw : pTeam q ≠ "" → pPlayer q ≠ "" →
      ¬(resPId db q = pid ∧ resSId db q = sid)) :
    ((stepDB y q db).stats.find? (fun r => r.player_id == pid && r.season_id == sid)).map (fun r => r.vals) =
      (db.stats.find? (fun r => r.player_id == pid && r.season_id == sid)).map (fun r => r.vals) := by
  by_cases ht : pTeam q = ""
  · rw [stepDB_blank_team ht]
  · by_cases hp : pPlayer q = ""
    · rw [stepDB_blank_player ht hp, seasonGOCdb_stats, teamGOCdb_stats]
    · rw [stepDB_valid_eq ht hp]
      set tr := teamGOCdb db (pTeam q) (pTurl q) with htr
      set sr := seasonGOCdb tr.2 (pSeasonN q) (parseSeasonBounds y (pSeasonN q)).1 (parseSeasonBounds y (pSeasonN q)).2 with hsr
      set pr := playerGOCdb sr.2 (pPlayer q) tr.1.id (pPos q) (pAge q) (pNatl q) (pPUrl q) with hpr
      set ap := applyPlayerUpdates pr.2 pr.1 (pPos q) (pNatl q) (pAge q) (pPUrl q) with hap
      set F := statsUpsertDb ap pr.1.id sr.1.id (statsValuesOf q tr.1.id) with hF
      have hply : sr.2.players = db.players := by
        rw [hsr, seasonGOCdb_players, htr, teamGOCdb_players]
      have hnxt : sr.2.nextPlayerId = db.nextPlayerId := by
        rw [hsr, seasonGOCdb_nextPlayerId, htr, teamGOCdb_nextPlayerId]
      have htid : tr.1.id = resTeamId db q := by rw [htr]; exact tGOC_fst_id db q
      have hK : pr.1.id = resPId db q := by
        rw [hpr]
        exact plGOC_fst_id hply hnxt q htid (pPos q) (pAge q) (pNatl q) (pPUrl q)
      have hsea : tr.2.seasons = db.seasons := by rw [htr, teamGOCdb_seasons]
      have hsnxt : tr.2.nextSeasonId = db.nextSeasonId := by
        rw [htr, teamGOCdb_nextSeasonId]
      have hS : sr.1.id = resSId db q := by
        rw [hsr]
        exact sGOC_fst_id hsea hsnxt q _ _
      have hKS : ¬(pr.1.id = pid ∧ sr.1.id = sid) := by
        rw [hK, hS]
        exact hnw ht hp
      have hst : ap.stats = db.stats := by
        rw [hap, applyPlayerUpdates_stats, hpr, playerGOCdb_stats, hsr,
            seasonGOCdb_stats, htr, teamGOCdb_stats]
      have hPfalse : ∀ x : PlayerStats, (x.player_id == pr.1.id && x.season_id == sr.1.id) = true →
          (x.player_id == pid && x.season_id == sid) = false := by
        intro x hx
        simp only [Bool.and_eq_true, beq_iff_eq] at hx
        by_cases hkp : pr.1.id = pid
        · have hss : ¬ sr.1.id = sid := fun hc => hKS ⟨hkp, hc⟩
          simp [hx.2, hss]
        · simp [hx.1, hkp]
      rw [hF]
      cases hg : statsGetByPS ap pr.1.id sr.1.id with
      | some w =>
        rw [statsUpsertDb_found hg]
        have hother : (updateFirst (fun r => r.player_id == pr.1.id && r.season_id == sr.1.id) (fun r => { r with vals := statsValuesOf q tr.1.id }) ap.stats).find? (fun r => r.player_id == pid && r.season_id == sid) = ap.stats.find? (fun r => r.player_id == pid && r.season_id == sid) := by
          refine updateFirst_find?_other (fun x hx => ?_)
          refine ⟨hPfalse x hx, ?_⟩
          show (x.player_id == pid && x.season_id == sid) = false
          exact hPfalse x hx
        rw [hother, hst]
      | none =>
        rw [statsUpsertDb_create hg]
        have happ : (ap.stats ++ [(⟨ap.nextStatsId, pr.1.id, sr.1.id, statsValuesOf q tr.1.id⟩ : PlayerStats)]).find? (fun r => r.player_id == pid && r.season_id == sid) = ap.stats.find? (fun r => r.player_id == pid && r.season_id == sid) := by
          refine find?_append_not ?_
          exact hPfalse _ (by simp)
        rw [happ, hst]

/-! ## C3: the values a step writes at its own resolved rows -/

theorem stepDB_player_wrote {α : Type _} (y : ℤ) (p : Payload) {db : DB}
    (hWF : WFdb db) (ht : pTeam p ≠ "") (hp : pPlayer p ≠ "")
    (fsel : Player → α) (v : α)
    (hset : ∀ pl, fsel (absorbP pl (pPos p) (pNatl p) (pAge p) (pPUrl p)) = v) :
    ((stepDB y p db).players.find? (fun r => r.id == resPId db p)).map fsel = some v := by
  rw [stepDB_valid_eq ht hp]
  set tr := teamGOCdb db (pTeam p) (pTurl p) with htr
  set sr := seasonGOCdb tr.2 (pSeasonN p) (parseSeasonBounds y (pSeasonN p)).1 (parseSeasonBounds y (pSeasonN p)).2 with hsr
  set pr := playerGOCdb sr.2 (pPlayer p) tr.1.id (pPos p) (pAge p) (pNatl p) (pPUrl p) with hpr
  set ap := applyPlayerUpdates pr.2 pr.1 (pPos p) (pNatl p) (pAge p) (pPUrl p) with hap
  set F := statsUpsertDb ap pr.1.id sr.1.id (statsValuesOf p tr.1.id) with hF
  have hply : sr.2.players = db.players := by
    rw [hsr, seasonGOCdb_players, htr, teamGOCdb_players]
  have hnxt : sr.2.nextPlayerId = db.nextPlayerId := by
    rw [hsr, seasonGOCdb_nextPlayerId, htr, teamGOCdb_nextPlayerId]
  have htid : tr.1.id = resTeamId db p := by rw [htr]; exact tGOC_fst_id db p
  have hWF2 : WFdb sr.2 := WFdb_seasonGOCdb (WFdb_teamGOCdb hWF _ _) _ _ _
  have hK : pr.1.id = resPId db p := by
    rw [hpr]
    exact plGOC_fst_id hply hnxt p htid (pPos p) (pAge p) (pNatl p) (pPUrl p)
  have hFpl : F.players = ap.players := by rw [hF, statsUpsertDb_players]
  rw [hFpl, ← hK]
  cases hf : sr.2.players.find? (fun r => r.name == pPlayer p && r.team_id == tr.1.id) with
  | some r =>
    have hpr2 : pr = (r, sr.2) := by rw [hpr]; exact playerGOCdb_found hf
    have hmem : r ∈ sr.2.players := List.mem_of_find?_eq_some hf
    have hfid : sr.2.players.find? (fun x => x.id == r.id) = some r :=
      WF_find_id hWF2 hmem
    have hap2 : ap = { pr.2 with players := updateFirst (fun x => x.id == pr.1.id) (fun _ => absorbP pr.1 (pPos p) (pNatl p) (pAge p) (pPUrl p)) pr.2.players } := by
      rw [hap]
      refine applyPlayerUpdates_absorb ?_
      rw [hpr2]
      exact hfid
    rw [hap2]
    simp only [hpr2]
    have habk : ((fun (x : Player) => x.id == r.id) (absorbP r (pPos p) (pNatl p) (pAge p) (pPUrl p))) = true := by
      show (r.id == r.id) = true
      exact beq_self_eq_true _
    have hup := updateFirst_find?_self (f := fun _ => absorbP r (pPos p) (pNatl p) (pAge p) (pPUrl p)) hfid habk
    rw [hup]
    simp [hset r]
  | none =>
    have hpr2 : pr = (⟨sr.2.nextPlayerId, pPlayer p, tr.1.id, pPos p, pAge p, pNatl p, pPUrl p⟩, { sr.2 with players := sr.2.players ++ [⟨sr.2.nextPlayerId, pPlayer p, tr.1.id, pPos p, pAge p, pNatl p, pPUrl p⟩], nextPlayerId := sr.2.nextPlayerId + 1 }) := by
      rw [hpr]; exact playerGOCdb_create hf
    have hfresh : ∀ x ∈ sr.2.players, (x.id == sr.2.nextPlayerId) = false := by
      intro x hx
      simp only [beq_eq_false_iff_ne]
      exact Nat.ne_of_lt (hWF2.2.1 x hx)
    have hfid : (sr.2.players ++ [(⟨sr.2.nextPlayerId, pPlayer p, tr.1.id, pPos p, pAge p, pNatl p, pPUrl p⟩ : Player)]).find? (fun x => x.id == sr.2.nextPlayerId) = some ⟨sr.2.nextPlayerId, pPlayer p, tr.1.id, pPos p, pAge p, pNatl p, pPUrl p⟩ := by
      refine find?_append_sing (find?_eq_none_of_all hfresh) ?_
      exact beq_self_eq_true _
    have hap2 : ap = { pr.2 with players := updateFirst (fun x => x.id == pr.1.id) (fun _ => absorbP pr.1 (pPos p) (pNatl p) (pAge p) (pPUrl p)) pr.2.players } := by
      rw [hap]
      refine applyPlayerUpdates_absorb ?_
      rw [hpr2]
      exact hfid
    rw [hap2]
    simp only [hpr2]
    have habk : ((fun (x : Player) => x.id == sr.2.nextPlayerId) (absorbP ⟨sr.2.nextPlayerId, pPlayer p, tr.1.id, pPos p, pAge p, pNatl p, pPUrl p⟩ (pPos p) (pNatl p) (pAge p) (pPUrl p))) = true := by
      show (sr.2.nextPlayerId == sr.2.nextPlayerId) = true
      exact beq_self_eq_true _
    have hup := updateFirst_find?_self (f := fun _ => absorbP ⟨sr.2.nextPlayerId, pPlayer p, tr.1.id, pPos p, pAge p, pNatl p, pPUrl p⟩ (pPos p) (pNatl p) (pAge p) (pPUrl p)) hfid habk
    rw [hup]
    simp [hset]

theorem stepDB_stats_wrote (y : ℤ) (p : Payload) {db : DB}
    (ht : pTeam p ≠ "") (hp : pPlayer p ≠ "") :
    ((stepDB y p db).stats.find? (fun r => r.player_id == resPId db p && r.season_id == resSId db p)).map (fun r => r.vals) =
      some (statsValuesOf p (resTeamId db p)) := by
  rw [stepDB_valid_eq ht hp]
  set tr := teamGOCdb db (pTeam p) (pTurl p) with htr
  set sr := seasonGOCdb tr.2 (pSeasonN p) (parseSeasonBounds y (pSeasonN p)).1 (parseSeasonBounds y (pSeasonN p)).2 with hsr
  set pr := playerGOCdb sr.2 (pPlayer p) tr.1.id (pPos p) (pAge p) (pNatl p) (pPUrl p) with hpr
  set ap := applyPlayerUpdates pr.2 pr.1 (pPos p) (pNatl p) (pAge p) (pPUrl p) with hap
  set F := statsUpsertDb ap pr.1.id sr.1.id (statsValuesOf p tr.1.id) with hF
  have hply : sr.2.players = db.players := by
    rw [hsr, seasonGOCdb_players, htr, teamGOCdb_players]
  have hnxt : sr.2.nextPlayerId = db.nextPlayerId := by
    rw [hsr, seasonGOCdb_nextPlayerId, htr, teamGOCdb_nextPlayerId]
  have htid : tr.1.id = resTeamId db p := by rw [htr]; exact tGOC_fst_id db p
  have hK : pr.1.id = resPId db p := by
    rw [hpr]
    exact plGOC_fst_id hply hnxt p htid (pPos p) (pAge p) (pNatl p) (pPUrl p)
  have hsea : tr.2.seasons = db.seasons := by rw [htr, teamGOCdb_seasons]
  have hsnxt : tr.2.nextSeasonId = db.nextSeasonId := by
    rw [htr, teamGOCdb_nextSeasonId]
  have hS : sr.1.id = resSId db p := by
    rw [hsr]
    exact sGOC_fst_id hsea hsnxt p _ _
  obtain ⟨w, hw, hwv⟩ := statsUpsertDb_self ap pr.1.id sr.1.id (statsValuesOf p tr.1.id)
  rw [← hK, ← hS, ← htid, hF]
  have hw' : (statsUpsertDb ap pr.1.id sr.1.id (statsValuesOf p tr.1.id)).stats.find? (fun r => r.player_id == pr.1.id && r.season_id == sr.1.id) = some w := hw
  rw [hw']
  simp [hwv]

/-! ## C3: resolved targets are stable across the rest of the batch -/

theorem step_res_self (y : ℤ) (q : Payload) (db : DB)
    (ht : pTeam q ≠ "") (hp : pPlayer q ≠ "") :
    (teamRes (stepDB y q db) q).isSome = true ∧
    (seasonRes (stepDB y q db) q).isSome = true ∧
    (playerRes (stepDB y q db) q).isSome = true ∧
    resSId (stepDB y q db) q = resSId db q ∧
    resPId (stepDB y q db) q = resPId db q ∧
    resTeamId (stepDB y q db) q = resTeamId db q := by
  rw [stepDB_valid_eq ht hp]
  set tr := teamGOCdb db (pTeam q) (pTurl q) with htr
  set sr := seasonGOCdb tr.2 (pSeasonN q) (parseSeasonBounds y (pSeasonN q)).1 (parseSeasonBounds y (pSeasonN q)).2 with hsr
  set pr := playerGOCdb sr.2 (pPlayer q) tr.1.id (pPos q) (pAge q) (pNatl q) (pPUrl q) with hpr
  set ap := applyPlayerUpdates pr.2 pr.1 (pPos q) (pNatl q) (pAge q) (pPUrl q) with hap
  set F := statsUpsertDb ap pr.1.id sr.1.id (statsValuesOf q tr.1.id) with hF
  have hply : sr.2.players = db.players := by
    rw [hsr, seasonGOCdb_players, htr, teamGOCdb_players]
  have hnxt : sr.2.nextPlayerId = db.nextPlayerId := by
    rw [hsr, seasonGOCdb_nextPlayerId, htr, teamGOCdb_nextPlayerId]
  have htid : tr.1.id = resTeamId db q := by rw [htr]; exact tGOC_fst_id db q
  have hK : pr.1.id = resPId db q := by
    rw [hpr]
    exact plGOC_fst_id hply hnxt q htid (pPos q) (pAge q) (pNatl q) (pPUrl q)
  have hsea : tr.2.seasons = db.seasons := by rw [htr, teamGOCdb_seasons]
  have hsnxt : tr.2.nextSeasonId = db.nextSeasonId := by
    rw [htr, teamGOCdb_nextSeasonId]
  have hS : sr.1.id = resSId db q := by
    rw [hsr]
    exact sGOC_fst_id hsea hsnxt q _ _
  have hteams : F.teams = tr.2.teams := by
    rw [hF, statsUpsertDb_teams, hap, applyPlayerUpdates_teams, hpr,
        playerGOCdb_teams, hsr, seasonGOCdb_teams]
  have hTfind : teamRes F q = some tr.1 := by
    unfold teamRes
    rw [hteams, htr, tGOC_self]
  have hrt : resTeamId F q = tr.1.id := by
    unfold resTeamId
    rw [hTfind]
  have hseasons : F.seasons = sr.2.seasons := by
    rw [hF, statsUpsertDb_seasons, hap, applyPlayerUpdates_seasons, hpr,
        playerGOCdb_seasons]
  have hSfind : seasonRes F q = some sr.1 := by
    unfold seasonRes
    rw [hseasons, hsr, sGOC_self]
  have hpmap : F.players.map pKey = pr.2.players.map pKey := by
    rw [hF, statsUpsertDb_players, hap, applyPlayerUpdates_map_pKey]
  have hPfind : (playerRes F q).map pKey = some (pKey pr.1) := by
    unfold playerRes
    simp only [hrt]
    have h2 : (F.players.find? (fun r => r.name == pPlayer q && r.team_id == tr.1.id)).map pKey = (pr.2.players.find? (fun r => r.name == pPlayer q && r.team_id == tr.1.id)).map pKey :=
      map_eq_find?_eq hpmap (fun k => k.2.1 == pPlayer q && k.2.2 == tr.1.id)
    rw [h2, hpr, plGOC_self]
    rfl
  refine ⟨by rw [hTfind]; rfl, by rw [hSfind]; rfl, ?_, ?_, ?_, hrt.trans htid⟩
  · cases hx : playerRes F q with
    | none => rw [hx] at hPfind; simp at hPfind
    | some r => rfl
  · have hL : resSId F q = sr.1.id := by
      unfold resSId
      rw [hSfind]
    exact hL.trans hS
  · have hL : resPId F q = pr.1.id := by
      unfold resPId
      cases hx : playerRes F q with
      | none => rw [hx] at hPfind; simp at hPfind
      | some r =>
        rw [hx] at hPfind
        have hkk : pKey r = pKey pr.1 := by
          have h2 : some (pKey r) = some (pKey pr.1) := hPfind
          simpa using h2
        exact congrArg (fun k => k.1) hkk
    exact hL.trans hK

theorem fold_res_stable (y : ℤ) (q : Payload) {db X : DB}
    (hG : Grow (stepDB y q db) X) (ht : pTeam q ≠ "") (hp : pPlayer q ≠ "") :
    resPId X q = resPId db q ∧ resSId X q = resSId db q := by
  obtain ⟨h1, h2, h3, h4, h5, h6⟩ := step_res_self y q db ht hp
  have hS := Grow_resSId hG h2
  obtain ⟨r, hr⟩ := Option.isSome_iff_exists.mp h3
  obtain ⟨r2, hres2, hkey, hrp⟩ := Grow_playerRes hG h1 hr
  exact ⟨hrp.trans h5, hS.2.trans h4⟩

theorem fold_res_stable_team (y : ℤ) (q : Payload) {db X : DB}
    (hG : Grow (stepDB y q db) X) (ht : pTeam q ≠ "") (hp : pPlayer q ≠ "") :
    resTeamId X q = resTeamId db q := by
  obtain ⟨h1, h2, h3, h4, h5, h6⟩ := step_res_self y q db ht hp
  exact (Grow_resTeamId hG h1).2.trans h6

/-! ## C3: frame lemmas over the remaining batch -/

theorem foldDB_player_frame {α : Type _} (y : ℤ) (fsel : Player → α)
    (t : List Payload) (A : DB) (hWF : WFdb A) {k : Nat}
    (hk : k < A.nextPlayerId)
    (hsafe : ∀ q ∈ t, pTeam q ≠ "" → pPlayer q ≠ "" →
      resPId (foldDB y t A) q = k →
      ∀ pl, fsel (absorbP pl (pPos q) (pNatl q) (pAge q) (pPUrl q)) = fsel pl) :
    ((foldDB y t A).players.find? (fun r => r.id == k)).map fsel =
      (A.players.find? (fun r => r.id == k)).map fsel := by
  induction t generalizing A with
  | nil => rfl
  | cons q t2 ih =>
    have hfold : foldDB y (q :: t2) A = foldDB y t2 (stepDB y q A) := rfl
    rw [hfold]
    have hWF2 := WFdb_stepDB hWF y q
    have hk2 : k < (stepDB y q A).nextPlayerId :=
      lt_of_lt_of_le hk (Grow_stepDB y q A).2.2.2.2.2.2.1
    have hq : pTeam q ≠ "" → pPlayer q ≠ "" → resPId A q = k →
        ∀ pl, fsel (absorbP pl (pPos q) (pNatl q) (pAge q) (pPUrl q)) = fsel pl := by
      intro ht hp hres
      have hstable := fold_res_stable y q (Grow_foldDB y t2 (stepDB y q A)) ht hp
      refine hsafe q (by simp) ht hp ?_
      rw [hfold]
      exact hstable.1.trans hres
    have hstep := stepDB_player_frame y q hWF hk fsel hq
    have hsafe2 : ∀ q2 ∈ t2, pTeam q2 ≠ "" → pPlayer q2 ≠ "" →
        resPId (foldDB y t2 (stepDB y q A)) q2 = k →
        ∀ pl, fsel (absorbP pl (pPos q2) (pNatl q2) (pAge q2) (pPUrl q2)) = fsel pl := by
      intro q2 hq2 ht2 hp2 hres2
      refine hsafe q2 (by simp [hq2]) ht2 hp2 ?_
      rw [hfold]
      exact hres2
    exact (ih (stepDB y q A) hWF2 hk2 hsafe2).trans hstep

theorem foldDB_stats_frame (y : ℤ) (t : List Payload) (A : DB) (hWF : WFdb A)
    {pid sid : Nat}
    (hsafe : ∀ q ∈ t, pTeam q ≠ "" → pPlayer q ≠ "" →
      ¬(resPId (foldDB y t A) q = pid ∧ resSId (foldDB y t A) q = sid)) :
    ((foldDB y t A).stats.find? (fun r => r.player_id == pid && r.season_id == sid)).map (fun r => r.vals) =
      (A.stats.find? (fun r => r.player_id == pid && r.season_id == sid)).map (fun r => r.vals) := by
  induction t generalizing A with
  | nil => rfl
  | cons q t2 ih =>
    have hfold : foldDB y (q :: t2) A = foldDB y t2 (stepDB y q A) := rfl
    rw [hfold]
    have hWF2 := WFdb_stepDB hWF y q
    have hq : pTeam q ≠ "" → pPlayer q ≠ "" →
        ¬(resPId A q = pid ∧ resSId A q = sid) := by
      intro ht hp hres
      have hstable := fold_res_stable y q (Grow_foldDB y t2 (stepDB y q A)) ht hp
      refine hsafe q (by simp) ht hp ?_
      rw [hfold]
      exact ⟨hstable.1.trans hres.1, hstable.2.trans hres.2⟩
    have hstep := stepDB_stats_frame y q hq
    have hsafe2 : ∀ q2 ∈ t2, pTeam q2 ≠ "" → pPlayer q2 ≠ "" →
        ¬(resPId (foldDB y t2 (stepDB y q A)) q2 = pid ∧
          resSId (foldDB y t2 (stepDB y q A)) q2 = sid) := by
      intro q2 hq2 ht2 hp2 hres2
      refine hsafe q2 (by simp [hq2]) ht2 hp2 ?_
      rw [hfold]
      exact hres2
    exact (ih (stepDB y q A) hWF2 hsafe2).trans hstep

/-! ## C3: the coupling relation between the two runs -/

/-- Does the payload carry a position value? -/
def pwPos (q : Payload) : Bool := (pPos q).isSome

/-- Does the payload carry a nationality value? -/
def pwNatl (q : Payload) : Bool := (pNatl q).isSome

/-- Does the payload carry an age value? -/
def pwAge (q : Payload) : Bool := (pAge q).isSome

/-- Does the payload carry a player-url value? -/
def pwUrl (q : Payload) : Bool := (pPUrl q).isSome

/-- Some remaining payload writes the given field of player row `k`. -/
def wPlayer (t : List Payload) (X : DB) (k : Nat) (fw : Payload → Bool) : Prop :=
  ∃ q ∈ t, pTeam q ≠ "" ∧ pPlayer q ≠ "" ∧ resPId X q = k ∧ fw q = true

/-- Some remaining payload overwrites the stats row with the given key. -/
def wStats (t : List Payload) (X : DB) (pid sid : Nat) : Prop :=
  ∃ q ∈ t, pTeam q ≠ "" ∧ pPlayer q ≠ "" ∧ resPId X q = pid ∧ resSId X q = sid

/-- Player rows related up to fields a remaining payload overwrites. -/
def pRel (t : List Payload) (X : DB) (a b : Player) : Prop :=
  pKey a = pKey b ∧
  (a.position = b.position ∨ wPlayer t X a.id pwPos) ∧
  (a.nationality = b.nationality ∨ wPlayer t X a.id pwNatl) ∧
  (a.age = b.age ∨ wPlayer t X a.id pwAge) ∧
  (a.fbref_url = b.fbref_url ∨ wPlayer t X a.id pwUrl)

/-- Stats rows related up to values a remaining payload overwrites. -/
def sRel (t : List Payload) (X : DB) (a b : PlayerStats) : Prop :=
  stKey a = stKey b ∧ (a.vals = b.vals ∨ wStats t X a.player_id a.season_id)

/-- The coupling invariant of the second run: the two stores agree on all
identity data, both are well formed, and rows differ only where a
remaining payload overwrites the difference. -/
def Coupled (t : List Payload) (X Y : DB) : Prop :=
  X.teams = Y.teams ∧ X.seasons = Y.seasons ∧
  X.nextTeamId = Y.nextTeamId ∧ X.nextSeasonId = Y.nextSeasonId ∧
  X.nextPlayerId = Y.nextPlayerId ∧ X.nextStatsId = Y.nextStatsId ∧
  WFdb X ∧ WFdb Y ∧
  List.Forall₂ (pRel t X) X.players Y.players ∧
  List.Forall₂ (sRel t X) X.stats Y.stats

theorem forall₂_map_eq {R : α → α → Prop} {g : α → β} {l l2 : List α}
    (h : List.Forall₂ R l l2) (hg : ∀ a b, R a b → g a = g b) :
    l.map g = l2.map g := by
  induction h with
  | nil => rfl
  | cons hab hrest ih => simp [hg _ _ hab, ih]

theorem Coupled_SkelEq {t : List Payload} {X Y : DB} (h : Coupled t X Y) :
    SkelEq X Y :=
  ⟨h.1, h.2.1, forall₂_map_eq h.2.2.2.2.2.2.2.2.1 (fun a b hab => hab.1),
   forall₂_map_eq h.2.2.2.2.2.2.2.2.2 (fun a b hab => hab.1),
   h.2.2.1, h.2.2.2.1, h.2.2.2.2.1, h.2.2.2.2.2.1⟩

theorem wPlayer_iff {X X2 : DB} (h : SkelEq X X2) (t : List Payload)
    (k : Nat) (fw : Payload → Bool) :
    wPlayer t X k fw ↔ wPlayer t X2 k fw := by
  unfold wPlayer
  constructor
  · rintro ⟨q, hq, h1, h2, h3, h4⟩
    exact ⟨q, hq, h1, h2, (SkelEq_resPId (SkelEq_symm h) q).trans h3, h4⟩
  · rintro ⟨q, hq, h1, h2, h3, h4⟩
    exact ⟨q, hq, h1, h2, (SkelEq_resPId h q).trans h3, h4⟩

theorem wStats_iff {X X2 : DB} (h : SkelEq X X2) (t : List Payload)
    (pid sid : Nat) :
    wStats t X pid sid ↔ wStats t X2 pid sid := by
  unfold wStats
  constructor
  · rintro ⟨q, hq, h1, h2, h3, h4⟩
    exact ⟨q, hq, h1, h2, (SkelEq_resPId (SkelEq_symm h) q).trans h3,
           (SkelEq_resSId (SkelEq_symm h) q).trans h4⟩
  · rintro ⟨q, hq, h1, h2, h3, h4⟩
    exact ⟨q, hq, h1, h2, (SkelEq_resPId h q).trans h3,
           (SkelEq_resSId h q).trans h4⟩

theorem wPlayer_cons_elim {q : Payload} {t : List Payload} {X : DB} {k : Nat}
    {fw : Payload → Bool} (h : wPlayer (q :: t) X k fw)
    (hq : pTeam q ≠ "" → pPlayer q ≠ "" → resPId X q = k → fw q = true → False) :
    wPlayer t X k fw := by
  obtain ⟨q2, hq2, h1, h2, h3, h4⟩ := h
  rcases List.mem_cons.mp hq2 with he | he
  · subst he
    exact absurd (hq h1 h2 h3 h4) (fun hc => hc)
  · exact ⟨q2, he, h1, h2, h3, h4⟩

theorem wStats_cons_elim {q : Payload} {t : List Payload} {X : DB}
    {pid sid : Nat} (h : wStats (q :: t) X pid sid)
    (hq : pTeam q ≠ "" → pPlayer q ≠ "" → resPId X q = pid → resSId X q = sid → False) :
    wStats t X pid sid := by
  obtain ⟨q2, hq2, h1, h2, h3, h4⟩ := h
  rcases List.mem_cons.mp hq2 with he | he
  · subst he
    exact absurd (hq h1 h2 h3 h4) (fun hc => hc)
  · exact ⟨q2, he, h1, h2, h3, h4⟩

theorem player_eq_of {a b : Player} (hk : pKey a = pKey b)
    (h1 : a.position = b.position) (h2 : a.nationality = b.nationality)
    (h3 : a.age = b.age) (h4 : a.fbref_url = b.fbref_url) : a = b := by
  obtain ⟨i1, n1, t1, p1, g1, y1, u1⟩ := a
  obtain ⟨i2, n2, t2, p2, g2, y2, u2⟩ := b
  simp only [pKey, Prod.mk.injEq] at hk
  simp_all

theorem stats_eq_of {a b : PlayerStats} (hk : stKey a = stKey b)
    (h1 : a.vals = b.vals) : a = b := by
  obtain ⟨i1, p1, s1, v1⟩ := a
  obtain ⟨i2, p2, s2, v2⟩ := b
  simp only [stKey, Prod.mk.injEq] at hk
  simp_all

theorem forall₂_eq_of {R : α → α → Prop} {l l2 : List α}
    (h : List.Forall₂ R l l2) (hR : ∀ a b, R a b → a = b) : l = l2 := by
  induction h with
  | nil => rfl
  | cons hab hrest ih => rw [hR _ _ hab, ih]

theorem Coupled_nil_eq {X Y : DB} (h : Coupled [] X Y) : X = Y := by
  obtain ⟨h1, h2, h3, h4, h5, h6, h7, h8, h9, h10⟩ := h
  have hforbid : ∀ (k : Nat) (fw : Payload → Bool), ¬ wPlayer [] X k fw := by
    rintro k fw ⟨q, hq, -⟩
    simp at hq
  have hforbid2 : ∀ (pid sid : Nat), ¬ wStats [] X pid sid := by
    rintro pid sid ⟨q, hq, -⟩
    simp at hq
  have hpl : X.players = Y.players :=
    forall₂_eq_of h9 (fun a b hab =>
      player_eq_of hab.1
        (hab.2.1.resolve_right (hforbid _ _))
        (hab.2.2.1.resolve_right (hforbid _ _))
        (hab.2.2.2.1.resolve_right (hforbid _ _))
        (hab.2.2.2.2.resolve_right (hforbid _ _)))
  have hst : X.stats = Y.stats :=
    forall₂_eq_of h10 (fun a b hab =>
      stats_eq_of hab.1 (hab.2.resolve_right (hforbid2 _ _)))
  obtain ⟨t1, s1, p1, st1, a1, b1, c1, d1⟩ := X
  obtain ⟨t2, s2, p2, st2, a2, b2, c2, d2⟩ := Y
  simp_all

theorem Coupled_refl (t : List Payload) {Z : DB} (hWF : WFdb Z) :
    Coupled t Z Z :=
  ⟨rfl, rfl, rfl, rfl, rfl, rfl, hWF, hWF,
   List.forall₂_same.mpr (fun a _ => ⟨rfl, Or.inl rfl, Or.inl rfl, Or.inl rfl, Or.inl rfl⟩),
   List.forall₂_same.mpr (fun a _ => ⟨rfl, Or.inl rfl⟩)⟩

theorem nodup_pairwise_stats {l : List PlayerStats}
    (h : (l.map (fun r => (r.player_id, r.season_id))).Nodup) (pid sid : Nat) :
    List.Pairwise (fun a b =>
      ¬((a.player_id == pid && a.season_id == sid) = true ∧
        (b.player_id == pid && b.season_id == sid) = true)) l := by
  have h2 := (List.pairwise_map).mp h
  refine h2.imp (fun hne hc => hne ?_)
  obtain ⟨hc1, hc2⟩ := hc
  simp only [Bool.and_eq_true, beq_iff_eq] at hc1 hc2
  rw [hc1.1, hc1.2, hc2.1, hc2.2]

theorem stepDB_bp_noop {y : ℤ} {q : Payload} {X : DB} (ht : pTeam q ≠ "")
    (hp : pPlayer q = "") (h1 : (teamRes X q).isSome = true)
    (h2 : (seasonRes X q).isSome = true) : stepDB y q X = X := by
  rw [stepDB_blank_player ht hp]
  obtain ⟨t0, ht0⟩ := Option.isSome_iff_exists.mp h1
  obtain ⟨s0, hs0⟩ := Option.isSome_iff_exists.mp h2
  have ht0' : X.teams.find? (fun t => t.name == pTeam q) = some t0 := ht0
  rw [teamGOCdb_found ht0']
  have hs0' : X.seasons.find? (fun r => r.name == pSeasonN q) = some s0 := hs0
  rw [seasonGOCdb_found hs0']

/-! ## C3: a fully covered payload performs pure in-place updates -/

theorem stepDB_covered_form {y : ℤ} {q : Payload} {X : DB} (hWF : WFdb X)
    (ht : pTeam q ≠ "") (hp : pPlayer q ≠ "")
    {T : Team} (hT : teamRes X q = some T)
    {S : Season} (hS : seasonRes X q = some S)
    {e : Player} (hE : playerRes X q = some e)
    (hW : (statsRes X q).isSome = true) :
    stepDB y q X =
      { X with
        players := updateFirst (fun x => x.id == e.id) (fun _ => absorbP e (pPos q) (pNatl q) (pAge q) (pPUrl q)) X.players,
        stats := updateFirst (fun r => r.player_id == e.id && r.season_id == S.id) (fun r => { r with vals := statsValuesOf q T.id }) X.stats } := by
  have hT' : X.teams.find? (fun t => t.name == pTeam q) = some T := hT
  have hS' : X.seasons.find? (fun r => r.name == pSeasonN q) = some S := hS
  have hrt : resTeamId X q = T.id := by unfold resTeamId; rw [hT]
  have hE' : X.players.find? (fun r => r.name == pPlayer q && r.team_id == T.id) = some e := by
    have h0 := hE
    unfold playerRes at h0
    simp only [hrt] at h0
    exact h0
  have hmem : e ∈ X.players := List.mem_of_find?_eq_some hE'
  have hfid : X.players.find? (fun x => x.id == e.id) = some e := WF_find_id hWF hmem
  have hrp : resPId X q = e.id := by unfold resPId; rw [hE]
  have hrs : resSId X q = S.id := by unfold resSId; rw [hS]
  obtain ⟨w, hw⟩ := Option.isSome_iff_exists.mp hW
  have hw0 : statsGetByPS X e.id S.id = some w := by
    have h0 := hw
    unfold statsRes at h0
    rw [hrp, hrs] at h0
    exact h0
  rw [stepDB_valid_eq ht hp]
  rw [teamGOCdb_found hT']
  have hsx : ((T, X).2 : DB) = X := rfl
  rw [hsx, seasonGOCdb_found hS']
  have hsx2 : ((S, X).2 : DB) = X := rfl
  rw [hsx2]
  have hsx3 : ((T, X).1 : Team) = T := rfl
  rw [hsx3, playerGOCdb_found hE']
  have hsx4 : ((e, X).2 : DB) = X := rfl
  have hsx5 : ((e, X).1 : Player) = e := rfl
  rw [hsx4, hsx5, applyPlayerUpdates_absorb hfid]
  have hg : statsGetByPS { X with players := updateFirst (fun x => x.id == e.id) (fun _ => absorbP e (pPos q) (pNatl q) (pAge q) (pPUrl q)) X.players } e.id S.id = some w := hw0
  rw [statsUpsertDb_found hg]

/-! ## C3: coupled states fold to the same final state -/

theorem Coupled_fold (y : ℤ) : ∀ (t : List Payload) (X Y : DB),
    Covered X t → Coupled t X Y → foldDB y t X = foldDB y t Y := by
  intro t
  induction t with
  | nil => exact fun X Y _ hC => Coupled_nil_eq hC
  | cons q t ih =>
    intro X Y hCov hC
    obtain ⟨hteams, hseasons, hnt, hns, hnp, hnst, hWFX, hWFY, hPl, hSt⟩ := hC
    have hCovT : Covered X t := fun q2 hq2 => hCov q2 (by simp [hq2])
    have hfold : ∀ Z : DB, foldDB y (q :: t) Z = foldDB y t (stepDB y q Z) :=
      fun Z => rfl
    rw [hfold X, hfold Y]
    by_cases ht : pTeam q = ""
    · rw [stepDB_blank_team ht, stepDB_blank_team ht]
      refine ih X Y hCovT ⟨hteams, hseasons, hnt, hns, hnp, hnst, hWFX, hWFY, ?_, ?_⟩
      · refine hPl.imp (fun a b hab => ?_)
        refine ⟨hab.1, ?_, ?_, ?_, ?_⟩ <;>
          [rcases hab.2.1 with h | h;
           rcases hab.2.2.1 with h | h;
           rcases hab.2.2.2.1 with h | h;
           rcases hab.2.2.2.2 with h | h] <;>
          first
            | exact Or.inl h
            | exact Or.inr (wPlayer_cons_elim h (fun hq _ _ _ => absurd ht hq))
      · refine hSt.imp (fun a b hab => ?_)
        refine ⟨hab.1, ?_⟩
        rcases hab.2 with h | h
        · exact Or.inl h
        · exact Or.inr (wStats_cons_elim h (fun hq _ _ _ => absurd ht hq))
    · obtain ⟨hT1, hS1, hrest⟩ := hCov q (by simp) ht
      by_cases hp : pPlayer q = ""
      · have hT1Y : (teamRes Y q).isSome = true := by
          unfold teamRes at hT1 ⊢
          rw [← hteams]
          exact hT1
        have hS1Y : (seasonRes Y q).isSome = true := by
          unfold seasonRes at hS1 ⊢
          rw [← hseasons]
          exact hS1
        rw [stepDB_bp_noop ht hp hT1 hS1, stepDB_bp_noop ht hp hT1Y hS1Y]
        refine ih X Y hCovT ⟨hteams, hseasons, hnt, hns, hnp, hnst, hWFX, hWFY, ?_, ?_⟩
        · refine hPl.imp (fun a b hab => ?_)
          refine ⟨hab.1, ?_, ?_, ?_, ?_⟩ <;>
            [rcases hab.2.1 with h | h;
             rcases hab.2.2.1 with h | h;
             rcases hab.2.2.2.1 with h | h;
             rcases hab.2.2.2.2 with h | h] <;>
            first
              | exact Or.inl h
              | exact Or.inr (wPlayer_cons_elim h (fun _ hq2 _ _ => absurd hp hq2))
        · refine hSt.imp (fun a b hab => ?_)
          refine ⟨hab.1, ?_⟩
          rcases hab.2 with h | h
          · exact Or.inl h
          · exact Or.inr (wStats_cons_elim h (fun _ hq2 _ _ => absurd hp hq2))
      · -- fully valid payload: in-place updates in lockstep
        obtain ⟨hP1, hW1⟩ := hrest hp
        obtain ⟨T, hT⟩ := Option.isSome_iff_exists.mp hT1
        obtain ⟨S, hS⟩ := Option.isSome_iff_exists.mp hS1
        obtain ⟨eX, hEX⟩ := Option.isSome_iff_exists.mp hP1
        have hTY : teamRes Y q = some T := by
          unfold teamRes at hT ⊢
          rw [← hteams]
          exact hT
        have hSY : seasonRes Y q = some S := by
          unfold seasonRes at hS ⊢
          rw [← hseasons]
          exact hS
        have hrtX : resTeamId X q = T.id := by unfold resTeamId; rw [hT]
        have hrtY : resTeamId Y q = T.id := by unfold resTeamId; rw [hTY]
        have hPkeyEq : ∀ a b, pRel (q :: t) X a b →
            ((fun r => r.name == pPlayer q && r.team_id == T.id) a) =
            ((fun r => r.name == pPlayer q && r.team_id == T.id) b) := by
          intro a b hab
          have hn : a.name = b.name := congrArg (fun k => k.2.1) hab.1
          have htd : a.team_id = b.team_id := congrArg (fun k => k.2.2) hab.1
          simp only [hn, htd]
        have hEX' : X.players.find? (fun r => r.name == pPlayer q && r.team_id == T.id) = some eX := by
          have h0 := hEX
          unfold playerRes at h0
          simp only [hrtX] at h0
          exact h0
        obtain ⟨eY, hEY', hRe⟩ := (forall2_find? hPl hPkeyEq).1 eX hEX'
        have hEY : playerRes Y q = some eY := by
          unfold playerRes
          simp only [hrtY]
          exact hEY'
        have hide : eY.id = eX.id := (congrArg (fun k => k.1) hRe.1).symm
        have hrpX : resPId X q = eX.id := by unfold resPId; rw [hEX]
        have hrpY : resPId Y q = eX.id := by unfold resPId; rw [hEY]; exact hide
        have hrsX : resSId X q = S.id := by unfold resSId; rw [hS]
        have hrsY : resSId Y q = S.id := by unfold resSId; rw [hSY]
        obtain ⟨wX, hwX⟩ := Option.isSome_iff_exists.mp hW1
        have hwX' : X.stats.find? (fun r => r.player_id == eX.id && r.season_id == S.id) = some wX := by
          have h0 := hwX
          unfold statsRes statsGetByPS at h0
          rw [hrpX, hrsX] at h0
          exact h0
        have hSkeyEq : ∀ a b, sRel (q :: t) X a b →
            ((fun r => r.player_id == eX.id && r.season_id == S.id) a) =
            ((fun r => r.player_id == eX.id && r.season_id == S.id) b) := by
          intro a b hab
          have h1 : a.player_id = b.player_id := congrArg (fun k => k.2.1) hab.1
          have h2 : a.season_id = b.season_id := congrArg (fun k => k.2.2) hab.1
          simp only [h1, h2]
        obtain ⟨wY, hwY', hRw⟩ := (forall2_find? hSt hSkeyEq).1 wX hwX'
        have hWY : (statsRes Y q).isSome = true := by
          unfold statsRes statsGetByPS
          rw [hrpY, hrsY, hwY']
          rfl
        have hformX := stepDB_covered_form (y := y) hWFX ht hp hT hS hEX hW1
        have hformY := stepDB_covered_form (y := y) hWFY ht hp hTY hSY hEY hWY
        simp only [hide] at hformY
        have hmemX : eX ∈ X.players := List.mem_of_find?_eq_some hEX'
        have hfidX : X.players.find? (fun x => x.id == eX.id) = some eX :=
          WF_find_id hWFX hmemX
        have hsk3 : X.players.map pKey = (updateFirst (fun x => x.id == eX.id) (fun _ => absorbP eX (pPos q) (pNatl q) (pAge q) (pPUrl q)) X.players).map pKey :=
          (updateFirst_map_eq hfidX (absorbP_pKey _ _ _ _ _)).symm
        have hsk4 : X.stats.map stKey = (updateFirst (fun r => r.player_id == eX.id && r.season_id == S.id) (fun r => { r with vals := statsValuesOf q T.id }) X.stats).map stKey :=
          (updateFirst_map_all (g := stKey) (f := fun r => { r with vals := statsValuesOf q T.id }) (fun x => rfl)).symm
        have hSkelX : SkelEq X (stepDB y q X) := by
          rw [hformX]
          exact ⟨rfl, rfl, hsk3, hsk4, rfl, rfl, rfl, rfl⟩
        have hPid : ∀ a b, pRel (q :: t) X a b →
            ((fun (x : Player) => x.id == eX.id) a) = ((fun (x : Player) => x.id == eX.id) b) := by
          intro a b hab
          have h1 : a.id = b.id := congrArg (fun k => k.1) hab.1
          simp only [h1]
        have hfire : ∀ a b, pRel (q :: t) X a b →
            ((fun (x : Player) => x.id == eX.id) a) = true →
            pRel t X (absorbP eX (pPos q) (pNatl q) (pAge q) (pPUrl q))
              (absorbP eY (pPos q) (pNatl q) (pAge q) (pPUrl q)) := by
          intro a b hab hPa
          refine ⟨by rw [absorbP_pKey, absorbP_pKey, hRe.1], ?_, ?_, ?_, ?_⟩
          · by_cases hpos : (pPos q).isSome = true
            · exact Or.inl (by simp [absorbP, hpos])
            · have hXp : (absorbP eX (pPos q) (pNatl q) (pAge q) (pPUrl q)).position = eX.position := by
                simp [absorbP, hpos]
              have hYp : (absorbP eY (pPos q) (pNatl q) (pAge q) (pPUrl q)).position = eY.position := by
                simp [absorbP, hpos]
              rw [hXp, hYp]
              rcases hRe.2.1 with h | h
              · exact Or.inl h
              · exact Or.inr (wPlayer_cons_elim h (fun _ _ _ hfw =>
                  hpos (by unfold pwPos at hfw; exact hfw)))
          · by_cases hnat : (pNatl q).isSome = true
            · exact Or.inl (by simp [absorbP, hnat])
            · have hXp : (absorbP eX (pPos q) (pNatl q) (pAge q) (pPUrl q)).nationality = eX.nationality := by
                simp [absorbP, hnat]
              have hYp : (absorbP eY (pPos q) (pNatl q) (pAge q) (pPUrl q)).nationality = eY.nationality := by
                simp [absorbP, hnat]
              rw [hXp, hYp]
              rcases hRe.2.2.1 with h | h
              · exact Or.inl h
              · exact Or.inr (wPlayer_cons_elim h (fun _ _ _ hfw =>
                  hnat (by unfold pwNatl at hfw; exact hfw)))
          · by_cases hage : (pAge q).isSome = true
            · exact Or.inl (by simp [absorbP, hage])
            · have hXp : (absorbP eX (pPos q) (pNatl q) (pAge q) (pPUrl q)).age = eX.age := by
                simp [absorbP, hage]
              have hYp : (absorbP eY (pPos q) (pNatl q) (pAge q) (pPUrl q)).age = eY.age := by
                simp [absorbP, hage]
              rw [hXp, hYp]
              rcases hRe.2.2.2.1 with h | h
              · exact Or.inl h
              · exact Or.inr (wPlayer_cons_elim h (fun _ _ _ hfw =>
                  hage (by unfold pwAge at hfw; exact hfw)))
          · by_cases hurl : (pPUrl q).isSome = true
            · exact Or.inl (by simp [absorbP, hurl])
            · have hXp : (absorbP eX (pPos q) (pNatl q) (pAge q) (pPUrl q)).fbref_url = eX.fbref_url := by
                simp [absorbP, hurl]
              have hYp : (absorbP eY (pPos q) (pNatl q) (pAge q) (pPUrl q)).fbref_url = eY.fbref_url := by
                simp [absorbP, hurl]
              rw [hXp, hYp]
              rcases hRe.2.2.2.2 with h | h
              · exact Or.inl h
              · exact Or.inr (wPlayer_cons_elim h (fun _ _ _ hfw =>
                  hurl (by unfold pwUrl at hfw; exact hfw)))
        have hoff : ∀ a b, pRel (q :: t) X a b →
            ((fun (x : Player) => x.id == eX.id) a) = false → pRel t X a b := by
          intro a b hab hPa
          have hane : a.id ≠ eX.id := by simpa using hPa
          refine ⟨hab.1, ?_, ?_, ?_, ?_⟩ <;>
            [rcases hab.2.1 with h | h;
             rcases hab.2.2.1 with h | h;
             rcases hab.2.2.2.1 with h | h;
             rcases hab.2.2.2.2 with h | h] <;>
            first
              | exact Or.inl h
              | exact Or.inr (wPlayer_cons_elim h
                  (fun _ _ hres _ => hane (hres.symm.trans hrpX)))
        have hplayers2 : List.Forall₂ (pRel t X)
            (updateFirst (fun x => x.id == eX.id) (fun _ => absorbP eX (pPos q) (pNatl q) (pAge q) (pPUrl q)) X.players)
            (updateFirst (fun x => x.id == eX.id) (fun _ => absorbP eY (pPos q) (pNatl q) (pAge q) (pPUrl q)) Y.players) :=
          forall2_updateFirst hPl hPid hfire hoff
            (nodup_pairwise_once hWFX.1 eX.id)
        have hsfire : ∀ a b, sRel (q :: t) X a b →
            ((fun (r : PlayerStats) => r.player_id == eX.id && r.season_id == S.id) a) = true →
            sRel t X { a with vals := statsValuesOf q T.id } { b with vals := statsValuesOf q T.id } := by
          intro a b hab hPa
          exact ⟨hab.1, Or.inl rfl⟩
        have hsoff : ∀ a b, sRel (q :: t) X a b →
            ((fun (r : PlayerStats) => r.player_id == eX.id && r.season_id == S.id) a) = false →
            sRel t X a b := by
          intro a b hab hPa
          refine ⟨hab.1, ?_⟩
          rcases hab.2 with h | h
          · exact Or.inl h
          · refine Or.inr (wStats_cons_elim h (fun _ _ hres1 hres2 => ?_))
            have h1 : a.player_id = eX.id := hres1.symm.trans hrpX
            have h2 : a.season_id = S.id := hres2.symm.trans hrsX
            have hPa2 : (a.player_id == eX.id && a.season_id == S.id) = false := hPa
            rw [h1, h2] at hPa2
            simp at hPa2
        have hstats2 : List.Forall₂ (sRel t X)
            (updateFirst (fun r => r.player_id == eX.id && r.season_id == S.id) (fun r => { r with vals := statsValuesOf q T.id }) X.stats)
            (updateFirst (fun r => r.player_id == eX.id && r.season_id == S.id) (fun r => { r with vals := statsValuesOf q T.id }) Y.stats) :=
          forall2_updateFirst hSt hSkeyEq hsfire hsoff
            (nodup_pairwise_stats hWFX.2.2 eX.id S.id)
        have hWFX2 := WFdb_stepDB hWFX y q
        have hWFY2 := WFdb_stepDB hWFY y q
        have hC2 : Coupled t (stepDB y q X) (stepDB y q Y) := by
          rw [hformX] at hWFX2
          rw [hformY] at hWFY2
          rw [hformX, hformY]
          refine ⟨hteams, hseasons, hnt, hns, hnp, hnst, hWFX2, hWFY2, ?_, ?_⟩
          · refine hplayers2.imp (fun a b hab => ?_)
            refine ⟨hab.1, ?_, ?_, ?_, ?_⟩ <;>
              [rcases hab.2.1 with h | h;
               rcases hab.2.2.1 with h | h;
               rcases hab.2.2.2.1 with h | h;
               rcases hab.2.2.2.2 with h | h] <;>
              first
                | exact Or.inl h
                | exact Or.inr (by
                    have h2 := (wPlayer_iff hSkelX t _ _).mp h
                    rw [hformX] at h2
                    exact h2)
          · refine hstats2.imp (fun a b hab => ?_)
            refine ⟨hab.1, ?_⟩
            rcases hab.2 with h | h
            · exact Or.inl h
            · refine Or.inr (by
                have h2 := (wStats_iff hSkelX t _ _).mp h
                rw [hformX] at h2
                exact h2)
        have hCov2 : Covered (stepDB y q X) t := SkelEq_Covered hSkelX hCovT
        exact ih (stepDB y q X) (stepDB y q Y) hCov2 hC2

/-! ## C3: establishment — replaying one payload over the final state couples -/

theorem Coupled_establish (y : ℤ) (p : Payload) (t : List Payload) (db : DB)
    (hWF : WFdb db) :
    Coupled t (stepDB y p (foldDB y t (stepDB y p db))) (foldDB y t (stepDB y p db)) := by
  set A := stepDB y p db with hA
  set X := foldDB y t A with hX
  have hWFA : WFdb A := WFdb_stepDB hWF y p
  have hWFX : WFdb X := WFdb_foldDB hWFA y t
  have hGrow : Grow A X := Grow_foldDB y t A
  by_cases ht : pTeam p = ""
  · rw [stepDB_blank_team ht]
    exact Coupled_refl t hWFX
  · have hCovA : CoveredP A p := by rw [hA]; exact CoveredP_self y p db
    have hCovX : CoveredP X p := Grow_CoveredP hGrow hCovA
    obtain ⟨hT1, hS1, hrest⟩ := hCovX ht
    by_cases hp : pPlayer p = ""
    · rw [stepDB_bp_noop ht hp hT1 hS1]
      exact Coupled_refl t hWFX
    · obtain ⟨hP1, hW1⟩ := hrest hp
      obtain ⟨T, hT⟩ := Option.isSome_iff_exists.mp hT1
      obtain ⟨S, hS⟩ := Option.isSome_iff_exists.mp hS1
      obtain ⟨e, hE⟩ := Option.isSome_iff_exists.mp hP1
      obtain ⟨w, hw⟩ := Option.isSome_iff_exists.mp hW1
      have hstab := fold_res_stable y p hGrow ht hp
      have hstabT := fold_res_stable_team y p hGrow ht hp
      have hrpX : resPId X p = e.id := by unfold resPId; rw [hE]
      have hrsX : resSId X p = S.id := by unfold resSId; rw [hS]
      have hrtX : resTeamId X p = T.id := by unfold resTeamId; rw [hT]
      have hkdb : resPId db p = e.id := hstab.1.symm.trans hrpX
      have hsdb : resSId db p = S.id := hstab.2.symm.trans hrsX
      have htdb : resTeamId db p = T.id := hstabT.symm.trans hrtX
      obtain ⟨hTA1, hSA1, hrestA⟩ := hCovA ht
      obtain ⟨hPA1, hWA1⟩ := hrestA hp
      obtain ⟨eA, hEA⟩ := Option.isSome_iff_exists.mp hPA1
      obtain ⟨-, -, -, -, h5A, -⟩ := step_res_self y p db ht hp
      have heAid : eA.id = e.id := by
        have h0 : resPId A p = eA.id := by unfold resPId; rw [hEA]
        have h1 : resPId A p = resPId db p := by rw [hA] at h0 ⊢; exact h5A
        exact h0.symm.trans (h1.trans hkdb)
      have hmemA : eA ∈ A.players := List.mem_of_find?_eq_some hEA
      have hkA : e.id < A.nextPlayerId := heAid ▸ (hWFA.2.1 eA hmemA)
      have hform := stepDB_covered_form (y := y) hWFX ht hp hT hS hE hW1
      have hfidX : X.players.find? (fun x => x.id == e.id) = some e :=
        WF_find_id hWFX (List.mem_of_find?_eq_some hE)
      have hw' : X.stats.find? (fun r => r.player_id == e.id && r.season_id == S.id) = some w := by
        have h0 := hw
        unfold statsRes statsGetByPS at h0
        rw [hrpX, hrsX] at h0
        exact h0
      have hwkeys : w.player_id = e.id ∧ w.season_id = S.id := by
        have h0 := List.find?_some hw'
        simpa using h0
      have hsk3 : X.players.map pKey = (updateFirst (fun x => x.id == e.id) (fun _ => absorbP e (pPos p) (pNatl p) (pAge p) (pPUrl p)) X.players).map pKey :=
        (updateFirst_map_eq hfidX (absorbP_pKey _ _ _ _ _)).symm
      have hsk4 : X.stats.map stKey = (updateFirst (fun r => r.player_id == e.id && r.season_id == S.id) (fun r => { r with vals := statsValuesOf p T.id }) X.stats).map stKey :=
        (updateFirst_map_all (g := stKey) (f := fun r => { r with vals := statsValuesOf p T.id }) (fun x => rfl)).symm
      have hSkelRec : SkelEq X { X with players := updateFirst (fun x => x.id == e.id) (fun _ => absorbP e (pPos p) (pNatl p) (pAge p) (pPUrl p)) X.players, stats := updateFirst (fun r => r.player_id == e.id && r.season_id == S.id) (fun r => { r with vals := statsValuesOf p T.id }) X.stats } :=
        ⟨rfl, rfl, hsk3, hsk4, rfl, rfl, rfl, rfl⟩
      have hfire : pRel t X (absorbP e (pPos p) (pNatl p) (pAge p) (pPUrl p)) e := by
        refine ⟨absorbP_pKey _ _ _ _ _, ?_, ?_, ?_, ?_⟩
        · by_cases hpos : (pPos p).isSome = true
          · by_cases hwq : wPlayer t X e.id pwPos
            · exact Or.inr hwq
            · have hsafe : ∀ q ∈ t, pTeam q ≠ "" → pPlayer q ≠ "" →
                  resPId X q = e.id →
                  ∀ pl, Player.position (absorbP pl (pPos q) (pNatl q) (pAge q) (pPUrl q)) = Player.position pl := by
                intro q hq h1 h2 h3 pl
                have hnw : ¬ pwPos q = true := fun hc => hwq ⟨q, hq, h1, h2, h3, hc⟩
                have hns : (pPos q).isSome = false := by
                  unfold pwPos at hnw
                  simpa using hnw
                simp [absorbP, hns]
              have hframe := foldDB_player_frame y Player.position t A hWFA hkA hsafe
              have hwrote := stepDB_player_wrote (y := y) p hWF ht hp Player.position (pPos p)
                (fun pl => by simp [absorbP, hpos])
              rw [hkdb] at hwrote
              have hXv : (X.players.find? (fun r => r.id == e.id)).map Player.position = some e.position := by
                rw [hfidX]
                rfl
              have hcomb : some e.position = some (pPos p) :=
                hXv.symm.trans (hframe.trans hwrote)
              have hval : e.position = pPos p := by simpa using hcomb
              refine Or.inl ?_
              show (if (pPos p).isSome then pPos p else e.position) = e.position
              rw [if_pos hpos]
              exact hval.symm
          · exact Or.inl (by simp [absorbP, hpos])
        · by_cases hnat : (pNatl p).isSome = true
          · by_cases hwq : wPlayer t X e.id pwNatl
            · exact Or.inr hwq
            · have hsafe : ∀ q ∈ t, pTeam q ≠ "" → pPlayer q ≠ "" →
                  resPId X q = e.id →
                  ∀ pl, Player.nationality (absorbP pl (pPos q) (pNatl q) (pAge q) (pPUrl q)) = Player.nationality pl := by
                intro q hq h1 h2 h3 pl
                have hnw : ¬ pwNatl q = true := fun hc => hwq ⟨q, hq, h1, h2, h3, hc⟩
                have hns : (pNatl q).isSome = false := by
                  unfold pwNatl at hnw
                  simpa using hnw
                simp [absorbP, hns]
              have hframe := foldDB_player_frame y Player.nationality t A hWFA hkA hsafe
              have hwrote := stepDB_player_wrote (y := y) p hWF ht hp Player.nationality (pNatl p)
                (fun pl => by simp [absorbP, hnat])
              rw [hkdb] at hwrote
              have hXv : (X.players.find? (fun r => r.id == e.id)).map Player.nationality = some e.nationality := by
                rw [hfidX]
                rfl
              have hcomb : some e.nationality = some (pNatl p) :=
                hXv.symm.trans (hframe.trans hwrote)
              have hval : e.nationality = pNatl p := by simpa using hcomb
              refine Or.inl ?_
              show (if (pNatl p).isSome then pNatl p else e.nationality) = e.nationality
              rw [if_pos hnat]
              exact hval.symm
          · exact Or.inl (by simp [absorbP, hnat])
        · by_cases hage : (pAge p).isSome = true
          · by_cases hwq : wPlayer t X e.id pwAge
            · exact Or.inr hwq
            · have hsafe : ∀ q ∈ t, pTeam q ≠ "" → pPlayer q ≠ "" →
                  resPId X q = e.id →
                  ∀ pl, Player.age (absorbP pl (pPos q) (pNatl q) (pAge q) (pPUrl q)) = Player.age pl := by
                intro q hq h1 h2 h3 pl
                have hnw : ¬ pwAge q = true := fun hc => hwq ⟨q, hq, h1, h2, h3, hc⟩
                have hns : (pAge q).isSome = false := by
                  unfold pwAge at hnw
                  simpa using hnw
                simp [absorbP, hns]
              have hframe := foldDB_player_frame y Player.age t A hWFA hkA hsafe
              have hwrote := stepDB_player_wrote (y := y) p hWF ht hp Player.age (pAge p)
                (fun pl => by simp [absorbP, hage])
              rw [hkdb] at hwrote
              have hXv : (X.players.find? (fun r => r.id == e.id)).map Player.age = some e.age := by
                rw [hfidX]
                rfl
              have hcomb : some e.age = some (pAge p) :=
                hXv.symm.trans (hframe.trans hwrote)
              have hval : e.age = pAge p := by simpa using hcomb
              refine Or.inl ?_
              show (if (pAge p).isSome then pAge p else e.age) = e.age
              rw [if_pos hage]
              exact hval.symm
          · exact Or.inl (by simp [absorbP, hage])
        · by_cases hurl : (pPUrl p).isSome = true
          · by_cases hwq : wPlayer t X e.id pwUrl
            · exact Or.inr hwq
            · have hsafe : ∀ q ∈ t, pTeam q ≠ "" → pPlayer q ≠ "" →
                  resPId X q = e.id →
                  ∀ pl, Player.fbref_url (absorbP pl (pPos q) (pNatl q) (pAge q) (pPUrl q)) = Player.fbref_url pl := by
                intro q hq h1 h2 h3 pl
                have hnw : ¬ pwUrl q = true := fun hc => hwq ⟨q, hq, h1, h2, h3, hc⟩
                have hns : (pPUrl q).isSome = false := by
                  unfold pwUrl at hnw
                  simpa using hnw
                simp [absorbP, hns]
              have hframe := foldDB_player_frame y Player.fbref_url t A hWFA hkA hsafe
              have hwrote := stepDB_player_wrote (y := y) p hWF ht hp Player.fbref_url (pPUrl p)
                (fun pl => by simp [absorbP, hurl])
              rw [hkdb] at hwrote
              have hXv : (X.players.find? (fun r => r.id == e.id)).map Player.fbref_url = some e.fbref_url := by
                rw [hfidX]
                rfl
              have hcomb : some e.fbref_url = some (pPUrl p) :=
                hXv.symm.trans (hframe.trans hwrote)
              have hval : e.fbref_url = pPUrl p := by simpa using hcomb
              refine Or.inl ?_
              show (if (pPUrl p).isSome then pPUrl p else e.fbref_url) = e.fbref_url
              rw [if_pos hurl]
              exact hval.symm
          · exact Or.inl (by simp [absorbP, hurl])
      have hplayers : List.Forall₂ (pRel t X)
          (updateFirst (fun x => x.id == e.id) (fun _ => absorbP e (pPos p) (pNatl p) (pAge p) (pPUrl p)) X.players)
          X.players :=
        forall2_updateFirst_left hfidX hfire
          (fun a => ⟨rfl, Or.inl rfl, Or.inl rfl, Or.inl rfl, Or.inl rfl⟩)
      have hsfire : sRel t X { w with vals := statsValuesOf p T.id } w := by
        refine ⟨rfl, ?_⟩
        by_cases hwq : wStats t X e.id S.id
        · refine Or.inr ?_
          show wStats t X w.player_id w.season_id
          rw [hwkeys.1, hwkeys.2]
          exact hwq
        · have hsafe2 : ∀ q ∈ t, pTeam q ≠ "" → pPlayer q ≠ "" →
              ¬(resPId X q = e.id ∧ resSId X q = S.id) := by
            intro q hq h1 h2 hc
            exact hwq ⟨q, hq, h1, h2, hc.1, hc.2⟩
          have hframe2 := foldDB_stats_frame y t A hWFA hsafe2
          have hwrote2 : ((stepDB y p db).stats.find? (fun r => r.player_id == resPId db p && r.season_id == resSId db p)).map (fun r => r.vals) = some (statsValuesOf p (resTeamId db p)) := stepDB_stats_wrote y p ht hp
          rw [hkdb, hsdb, htdb] at hwrote2
          have hXv : (X.stats.find? (fun r => r.player_id == e.id && r.season_id == S.id)).map (fun r => r.vals) = some w.vals := by
            rw [hw']
            rfl
          have hcomb : some w.vals = some (statsValuesOf p T.id) :=
            hXv.symm.trans (hframe2.trans hwrote2)
          have hval : w.vals = statsValuesOf p T.id := by simpa using hcomb
          exact Or.inl hval.symm
      have hstats : List.Forall₂ (sRel t X)
          (updateFirst (fun r => r.player_id == e.id && r.season_id == S.id) (fun r => { r with vals := statsValuesOf p T.id }) X.stats)
          X.stats :=
        forall2_updateFirst_left hw' hsfire (fun a => ⟨rfl, Or.inl rfl⟩)
      have hWFrec := WFdb_stepDB hWFX y p
      rw [hform] at hWFrec
      rw [hform]
      refine ⟨rfl, rfl, rfl, rfl, rfl, rfl, hWFrec, hWFX, ?_, ?_⟩
      · refine hplayers.imp (fun a b hab => ?_)
        refine ⟨hab.1, ?_, ?_, ?_, ?_⟩ <;>
          [rcases hab.2.1 with h | h;
           rcases hab.2.2.1 with h | h;
           rcases hab.2.2.2.1 with h | h;
           rcases hab.2.2.2.2 with h | h] <;>
          first
            | exact Or.inl h
            | exact Or.inr ((wPlayer_iff hSkelRec t _ _).mp h)
      · refine hstats.imp (fun a b hab => ?_)
        refine ⟨hab.1, ?_⟩
        rcases hab.2 with h | h
        · exact Or.inl h
        · exact Or.inr ((wStats_iff hSkelRec t _ _).mp h)

/-! ## C3: idempotence of the database effect of a batch -/

theorem foldDB_idem (y : ℤ) : ∀ (l : List Payload) (db : DB), WFdb db →
    foldDB y l (foldDB y l db) = foldDB y l db := by
  intro l
  induction l with
  | nil => intro db h; rfl
  | cons p t ih =>
    intro db hWF
    have hWFA : WFdb (stepDB y p db) := WFdb_stepDB hWF y p
    have hIH := ih (stepDB y p db) hWFA
    have hfold : ∀ Z : DB, foldDB y (p :: t) Z = foldDB y t (stepDB y p Z) :=
      fun Z => rfl
    rw [hfold, hfold]
    have hCov : Covered (foldDB y t (stepDB y p db)) t :=
      Covered_foldDB y t (stepDB y p db)
    have hC := Coupled_establish y p t db hWF
    have hCov2 : Covered (stepDB y p (foldDB y t (stepDB y p db))) t :=
      SkelEq_Covered (SkelEq_symm (Coupled_SkelEq hC)) hCov
    have hcong := Coupled_fold y t _ _ hCov2 hC
    rw [hcong]
    exact hIH

/-! ## C3: seen-set bookkeeping of one valid payload -/

theorem saveStep_seen_valid (y : ℤ) (acc : SaveAcc) (p : Payload)
    (hf : acc.sess.faults = [])
    (ht : ¬ normaliseString (pget p "team_name") = "")
    (hp : ¬ normaliseString (pget p "player_name") = "") :
    (saveStep y acc p).teamsSeen = (if (teamGOCdb acc.sess.db (normaliseString (pget p "team_name")) (strOrNone (normaliseString (pget p "team_url")))).1.id ∈ acc.teamsSeen then acc.teamsSeen else (teamGOCdb acc.sess.db (normaliseString (pget p "team_name")) (strOrNone (normaliseString (pget p "team_url")))).1.id :: acc.teamsSeen) ∧
    (saveStep y acc p).cTeams = (if (teamGOCdb acc.sess.db (normaliseString (pget p "team_name")) (strOrNone (normaliseString (pget p "team_url")))).1.id ∈ acc.teamsSeen then acc.cTeams else acc.cTeams + 1) ∧
    (saveStep y acc p).playersSeen = (if (playerGOCdb (seasonGOCdb (teamGOCdb acc.sess.db (normaliseString (pget p "team_name")) (strOrNone (normaliseString (pget p "team_url")))).2 (strOrDefault (normaliseString (pget p "season")) "2024-2025") (parseSeasonBounds y (strOrDefault (normaliseString (pget p "season")) "2024-2025")).1 (parseSeasonBounds y (strOrDefault (normaliseString (pget p "season")) "2024-2025")).2).2 (normaliseString (pget p "player_name")) (teamGOCdb acc.sess.db (normaliseString (pget p "team_name")) (strOrNone (normaliseString (pget p "team_url")))).1.id (strOrNone (normaliseString (pget p "position"))) (coerceInt (pget p "age") Option.none) (strOrNone (normaliseString (pget p "nationality"))) (strOrNone (normaliseString (pget p "player_url")))).1.id ∈ acc.playersSeen then acc.playersSeen else (playerGOCdb (seasonGOCdb (teamGOCdb acc.sess.db (normaliseString (pget p "team_name")) (strOrNone (normaliseString (pget p "team_url")))).2 (strOrDefault (normaliseString (pget p "season")) "2024-2025") (parseSeasonBounds y (strOrDefault (normaliseString (pget p "season")) "2024-2025")).1 (parseSeasonBounds y (strOrDefault (normaliseString (pget p "season")) "2024-2025")).2).2 (normaliseString (pget p "player_name")) (teamGOCdb acc.sess.db (normaliseString (pget p "team_name")) (strOrNone (normaliseString (pget p "team_url")))).1.id (strOrNone (normaliseString (pget p "position"))) (coerceInt (pget p "age") Option.none) (strOrNone (normaliseString (pget p "nationality"))) (strOrNone (normaliseString (pget p "player_url")))).1.id :: acc.playersSeen) ∧
    (saveStep y acc p).cPlayers = (if (playerGOCdb (seasonGOCdb (teamGOCdb acc.sess.db (normaliseString (pget p "team_name")) (strOrNone (normaliseString (pget p "team_url")))).2 (strOrDefault (normaliseString (pget p "season")) "2024-2025") (parseSeasonBounds y (strOrDefault (normaliseString (pget p "season")) "2024-2025")).1 (parseSeasonBounds y (strOrDefault (normaliseString (pget p "season")) "2024-2025")).2).2 (normaliseString (pget p "player_name")) (teamGOCdb acc.sess.db (normaliseString (pget p "team_name")) (strOrNone (normaliseString (pget p "team_url")))).1.id (strOrNone (normaliseString (pget p "position"))) (coerceInt (pget p "age") Option.none) (strOrNone (normaliseString (pget p "nationality"))) (strOrNone (normaliseString (pget p "player_url")))).1.id ∈ acc.playersSeen then acc.cPlayers else acc.cPlayers + 1) := by
  obtain ⟨⟨db, st, fl, cl⟩, ts, ps, c1, c2, c3, c4⟩ := acc
  have hf2 : fl = [] := hf
  subst hf2
  obtain ⟨k1, hk1⟩ := teamGOC_noFault db st cl (normaliseString (pget p "team_name")) (strOrNone (normaliseString (pget p "team_url")))
  obtain ⟨k2, hk2⟩ := seasonGOC_noFault (teamGOCdb db (normaliseString (pget p "team_name")) (strOrNone (normaliseString (pget p "team_url")))).2 st k1 (strOrDefault (normaliseString (pget p "season")) "2024-2025") (parseSeasonBounds y (strOrDefault (normaliseString (pget p "season")) "2024-2025")).1 (parseSeasonBounds y (strOrDefault (normaliseString (pget p "season")) "2024-2025")).2
  obtain ⟨k3, hk3⟩ := playerGOC_noFault (seasonGOCdb (teamGOCdb db (normaliseString (pget p "team_name")) (strOrNone (normaliseString (pget p "team_url")))).2 (strOrDefault (normaliseString (pget p "season")) "2024-2025") (parseSeasonBounds y (strOrDefault (normaliseString (pget p "season")) "2024-2025")).1 (parseSeasonBounds y (strOrDefault (normaliseString (pget p "season")) "2024-2025")).2).2 st k2 (normaliseString (pget p "player_name")) (teamGOCdb db (normaliseString (pget p "team_name")) (strOrNone (normaliseString (pget p "team_url")))).1.id (strOrNone (normaliseString (pget p "position"))) (coerceInt (pget p "age") Option.none) (strOrNone (normaliseString (pget p "nationality"))) (strOrNone (normaliseString (pget p "player_url")))
  obtain ⟨k4, hk4⟩ := statsUpsert_noFault (applyPlayerUpdates (playerGOCdb (seasonGOCdb (teamGOCdb db (normaliseString (pget p "team_name")) (strOrNone (normaliseString (pget p "team_url")))).2 (strOrDefault (normaliseString (pget p "season")) "2024-2025") (parseSeasonBounds y (strOrDefault (normaliseString (pget p "season")) "2024-2025")).1 (parseSeasonBounds y (strOrDefault (normaliseString (pget p "season")) "2024-2025")).2).2 (normaliseString (pget p "player_name")) (teamGOCdb db (normaliseString (pget p "team_name")) (strOrNone (normaliseString (pget p "team_url")))).1.id (strOrNone (normaliseString (pget p "position"))) (coerceInt (pget p "age") Option.none) (strOrNone (normaliseString (pget p "nationality"))) (strOrNone (normaliseString (pget p "player_url")))).2 (playerGOCdb (seasonGOCdb (teamGOCdb db (normaliseString (pget p "team_name")) (strOrNone (normaliseString (pget p "team_url")))).2 (strOrDefault (normaliseString (pget p "season")) "2024-2025") (parseSeasonBounds y (strOrDefault (normaliseString (pget p "season")) "2024-2025")).1 (parseSeasonBounds y (strOrDefault (normaliseString (pget p "season")) "2024-2025")).2).2 (normaliseString (pget p "player_name")) (teamGOCdb db (normaliseString (pget p "team_name")) (strOrNone (normaliseString (pget p "team_url")))).1.id (strOrNone (normaliseString (pget p "position"))) (coerceInt (pget p "age") Option.none) (strOrNone (normaliseString (pget p "nationality"))) (strOrNone (normaliseString (pget p "player_url")))).1 (strOrNone (normaliseString (pget p "position"))) (strOrNone (normaliseString (pget p "nationality"))) (coerceInt (pget p "age") Option.none) (strOrNone (normaliseString (pget p "player_url")))) st k3 (playerGOCdb (seasonGOCdb (teamGOCdb db (normaliseString (pget p "team_name")) (strOrNone (normaliseString (pget p "team_url")))).2 (strOrDefault (normaliseString (pget p "season")) "2024-2025") (parseSeasonBounds y (strOrDefault (normaliseString (pget p "season")) "2024-2025")).1 (parseSeasonBounds y (strOrDefault (normaliseString (pget p "season")) "2024-2025")).2).2 (normaliseString (pget p "player_name")) (teamGOCdb db (normaliseString (pget p "team_name")) (strOrNone (normaliseString (pget p "team_url")))).1.id (strOrNone (normaliseString (pget p "position"))) (coerceInt (pget p "age") Option.none) (strOrNone (normaliseString (pget p "nationality"))) (strOrNone (normaliseString (pget p "player_url")))).1.id (seasonGOCdb (teamGOCdb db (normaliseString (pget p "team_name")) (strOrNone (normaliseString (pget p "team_url")))).2 (strOrDefault (normaliseString (pget p "season")) "2024-2025") (parseSeasonBounds y (strOrDefault (normaliseString (pget p "season")) "2024-2025")).1 (parseSeasonBounds y (strOrDefault (normaliseString (pget p "season")) "2024-2025")).2).1.id (statsValuesOf p (teamGOCdb db (normaliseString (pget p "team_name")) (strOrNone (normaliseString (pget p "team_url")))).1.id)
  by_cases h3 : (teamGOCdb db (normaliseString (pget p "team_name")) (strOrNone (normaliseString (pget p "team_url")))).1.id ∈ ts <;>
  by_cases h4 : ((playerGOCdb (seasonGOCdb (teamGOCdb db (normaliseString (pget p "team_name")) (strOrNone (normaliseString (pget p "team_url")))).2 (strOrDefault (normaliseString (pget p "season")) "2024-2025") (parseSeasonBounds y (strOrDefault (normaliseString (pget p "season")) "2024-2025")).1 (parseSeasonBounds y (strOrDefault (normaliseString (pget p "season")) "2024-2025")).2).2 (normaliseString (pget p "player_name")) (teamGOCdb db (normaliseString (pget p "team_name")) (strOrNone (normaliseString (pget p "team_url")))).1.id (strOrNone (normaliseString (pget p "position"))) (coerceInt (pget p "age") Option.none) (strOrNone (normaliseString (pget p "nationality"))) (strOrNone (normaliseString (pget p "player_url")))).1.id ∈ ps) <;>
    simp [saveStep, tryProcess, ht, hp, h3, h4, hk1, hk2, hk3, hk4]

/-! ## C3: the distinct-id counting invariant and the batch bridge -/

/-- The running `teams` and `players` counters equal the sizes of the
duplicate-free processed-id sets. -/
def SeenInv (acc : SaveAcc) : Prop :=
  acc.cTeams = acc.teamsSeen.length ∧ acc.teamsSeen.Nodup ∧
  acc.cPlayers = acc.playersSeen.length ∧ acc.playersSeen.Nodup

theorem saveStep_SeenInv (y : ℤ) (acc : SaveAcc) (p : Payload)
    (hf : acc.sess.faults = []) (h : SeenInv acc) : SeenInv (saveStep y acc p) := by
  obtain ⟨h1, h2, h3, h4⟩ := h
  by_cases ht : normaliseString (pget p "team_name") = ""
  · have hs : saveStep y acc p = { acc with cErrors := acc.cErrors + 1 } := by
      simp [saveStep, tryProcess, ht]
    rw [hs]
    exact ⟨h1, h2, h3, h4⟩
  · by_cases hp : normaliseString (pget p "player_name") = ""
    · obtain ⟨-, -, -, e1, e2, e3, e4⟩ := saveStep_blank_player y acc p hf ht hp
      refine ⟨?_, ?_, ?_, ?_⟩
      · rw [e3, e4]
        by_cases hm : (teamGOCdb acc.sess.db (normaliseString (pget p "team_name")) (strOrNone (normaliseString (pget p "team_url")))).1.id ∈ acc.teamsSeen
        · rw [if_pos hm, if_pos hm]
          exact h1
        · rw [if_neg hm, if_neg hm]
          simp [h1]
      · rw [e3]
        by_cases hm : (teamGOCdb acc.sess.db (normaliseString (pget p "team_name")) (strOrNone (normaliseString (pget p "team_url")))).1.id ∈ acc.teamsSeen
        · rw [if_pos hm]
          exact h2
        · rw [if_neg hm]
          exact List.Nodup.cons hm h2
      · rw [e1, e2]
        exact h3
      · rw [e1]
        exact h4
    · obtain ⟨e1, e2, e3, e4⟩ := saveStep_seen_valid y acc p hf ht hp
      refine ⟨?_, ?_, ?_, ?_⟩
      · rw [e1, e2]
        by_cases hm : (teamGOCdb acc.sess.db (normaliseString (pget p "team_name")) (strOrNone (normaliseString (pget p "team_url")))).1.id ∈ acc.teamsSeen
        · rw [if_pos hm, if_pos hm]
          exact h1
        · rw [if_neg hm, if_neg hm]
          simp [h1]
      · rw [e1]
        by_cases hm : (teamGOCdb acc.sess.db (normaliseString (pget p "team_name")) (strOrNone (normaliseString (pget p "team_url")))).1.id ∈ acc.teamsSeen
        · rw [if_pos hm]
          exact h2
        · rw [if_neg hm]
          exact List.Nodup.cons hm h2
      · rw [e3, e4]
        by_cases hm : (playerGOCdb (seasonGOCdb (teamGOCdb acc.sess.db (normaliseString (pget p "team_name")) (strOrNone (normaliseString (pget p "team_url")))).2 (strOrDefault (normaliseString (pget p "season")) "2024-2025") (parseSeasonBounds y (strOrDefault (normaliseString (pget p "season")) "2024-2025")).1 (parseSeasonBounds y (strOrDefault (normaliseString (pget p "season")) "2024-2025")).2).2 (normaliseString (pget p "player_name")) (teamGOCdb acc.sess.db (normaliseString (pget p "team_name")) (strOrNone (normaliseString (pget p "team_url")))).1.id (strOrNone (normaliseString (pget p "position"))) (coerceInt (pget p "age") Option.none) (strOrNone (normaliseString (pget p "nationality"))) (strOrNone (normaliseString (pget p "player_url")))).1.id ∈ acc.playersSeen
        · rw [if_pos hm, if_pos hm]
          exact h3
        · rw [if_neg hm, if_neg hm]
          simp [h3]
      · rw [e3]
        by_cases hm : (playerGOCdb (seasonGOCdb (teamGOCdb acc.sess.db (normaliseString (pget p "team_name")) (strOrNone (normaliseString (pget p "team_url")))).2 (strOrDefault (normaliseString (pget p "season")) "2024-2025") (parseSeasonBounds y (strOrDefault (normaliseString (pget p "season")) "2024-2025")).1 (parseSeasonBounds y (strOrDefault (normaliseString (pget p "season")) "2024-2025")).2).2 (normaliseString (pget p "player_name")) (teamGOCdb acc.sess.db (normaliseString (pget p "team_name")) (strOrNone (normaliseString (pget p "team_url")))).1.id (strOrNone (normaliseString (pget p "position"))) (coerceInt (pget p "age") Option.none) (strOrNone (normaliseString (pget p "nationality"))) (strOrNone (normaliseString (pget p "player_url")))).1.id ∈ acc.playersSeen
        · rw [if_pos hm]
          exact h4
        · rw [if_neg hm]
          exact List.Nodup.cons hm h4

theorem foldl_saveStep_inv (y : ℤ) : ∀ (l : List Payload) (acc : SaveAcc),
    acc.sess.faults = [] →
    (l.foldl (saveStep y) acc).sess.db = foldDB y l acc.sess.db ∧
    (l.foldl (saveStep y) acc).sess.faults = [] ∧
    (SeenInv acc → SeenInv (l.foldl (saveStep y) acc)) := by
  intro l
  induction l with
  | nil => exact fun acc h => ⟨rfl, h, fun hi => hi⟩
  | cons p t ih =>
    intro acc hf
    obtain ⟨h1, h2, -⟩ := saveStep_db_eq y acc p hf
    obtain ⟨ih1, ih2, ih3⟩ := ih (saveStep y acc p) h2
    refine ⟨?_, ih2, ?_⟩
    · rw [List.foldl_cons, ih1, h1]
      rfl
    · intro hi
      rw [List.foldl_cons]
      exact ih3 (saveStep_SeenInv y acc p hf hi)

theorem savePlayerData_db (y : ℤ) (db : DB) (l : List Payload) :
    (savePlayerData y [] db l).sess.db = foldDB y l db :=
  (foldl_saveStep_inv y l ⟨⟨db, db, [], 0⟩, [], [], 0, 0, 0, 0⟩ rfl).1

theorem savePlayerData_SeenInv (y : ℤ) (db : DB) (l : List Payload) :
    SeenInv (savePlayerData y [] db l) :=
  (foldl_saveStep_inv y l ⟨⟨db, db, [], 0⟩, [], [], 0, 0, 0, 0⟩ rfl).2.2
    ⟨rfl, List.nodup_nil, rfl, List.nodup_nil⟩

/-! ## Claim theorem C3 -/

/-- A second payload for the same team as `cxP1` but another player. -/
def cxP3 : Payload :=
  [("team_name", .str "Arsenal"), ("player_name", .str "Martin Odegaard"),
   ("season", .str "2024-2025"), ("goals", .int 8)]

/-- C3: over any well-formed store (distinct player ids below the id
counter, distinct `(player, season)` stats keys), saving the same payload
list twice leaves the database of the second call exactly equal to the
database of the first call — every PlayerStats row keeps its row id and
is overwritten in place, and no duplicate Team, Season, Player or
PlayerStats row appears; in each call the returned `teams` and `players`
counts equal the number of distinct team and player ids touched (the
duplicate-free processed-id sets), not the number of payloads — e.g. the
two-payload single-team batch `[cxP1, cxP3]` reports `teams = 1`,
`players = 2` with exactly one Team row, two Player rows and two stats
rows. -/
theorem claim_c3_idempotent_upsert (y : ℤ) (db : DB) (l : List Payload)
    (hWF : WFdb db) :
    (savePlayerData y [] (savePlayerData y [] db l).sess.db l).sess.db =
      (savePlayerData y [] db l).sess.db ∧
    ((savePlayerData y [] db l).cTeams = (savePlayerData y [] db l).teamsSeen.length ∧
     (savePlayerData y [] db l).teamsSeen.Nodup ∧
     (savePlayerData y [] db l).cPlayers = (savePlayerData y [] db l).playersSeen.length ∧
     (savePlayerData y [] db l).playersSeen.Nodup) ∧
    ((savePlayerData 2026 [] emptyDB [cxP1, cxP3]).cTeams = 1 ∧
     (savePlayerData 2026 [] emptyDB [cxP1, cxP3]).cPlayers = 2 ∧
     (savePlayerData 2026 [] emptyDB [cxP1, cxP3]).cStats = 2 ∧
     (savePlayerData 2026 [] emptyDB [cxP1, cxP3]).sess.db.teams.length = 1 ∧
     (savePlayerData 2026 [] emptyDB [cxP1, cxP3]).sess.db.players.length = 2 ∧
     (savePlayerData 2026 [] emptyDB [cxP1, cxP3]).sess.db.stats.length = 2) := by
  refine ⟨?_, savePlayerData_SeenInv y db l,
    by decide, by decide, by decide, by decide, by decide, by decide⟩
  rw [savePlayerData_db, savePlayerData_db]
  exact foldDB_idem y l db hWF

/-- Witness for C3 at a concrete batch over the empty store. -/
theorem claim_c3_idempotent_upsert_witness :
    (savePlayerData 2026 [] (savePlayerData 2026 [] emptyDB [cxP1, cxP3]).sess.db [cxP1, cxP3]).sess.db =
      (savePlayerData 2026 [] emptyDB [cxP1, cxP3]).sess.db ∧
    (savePlayerData 2026 [] emptyDB [cxP1, cxP3]).cTeams =
      (savePlayerData 2026 [] emptyDB [cxP1, cxP3]).teamsSeen.length :=
  ⟨(claim_c3_idempotent_upsert 2026 emptyDB [cxP1, cxP3] (by unfold WFdb; decide)).1,
   (claim_c3_idempotent_upsert 2026 emptyDB [cxP1, cxP3] (by unfold WFdb; decide)).2.1.1⟩
